import Mathlib

/-!
Timing and flow-control core of the media pipeline.

A shallow embedding of `src/avsync/AVSyncManager.{h,cpp}` (the audio/video
synchronisation engine) and of `src/queue/MediaQueue.h` (the bounded queue),
followed by the properties proved about them.

Modelling conventions.

* The engine is embedded twice, statement by statement both times.
  In `Media.AVSyncManager` the arithmetic is idealised: a C++ `double` is an exact
  rational number (`ℚ`), every literal of the source (`0.8`, `0.001`, ...) is the
  decimal fraction it denotes, arithmetic is exact, and NaN and the infinities do
  not exist.
  In `Media.Binary64.AVSyncManager` the arithmetic is the one of the machine: a
  `double` is a value of IEEE 754 binary64 (`Media.Dbl`), that is NaN, an infinity
  or a finite number; every operation rounds its exact result to the nearest value
  of the format, ties to even; every comparison with NaN is false.  The properties
  that depend on the value the machine computes at a threshold of the source, on
  the truncation of `delay * 1000`, or on arguments that are NaN or infinite, are
  stated on this embedding.
* The wall clock `av_gettime()` is an input: every operation that reads it
  takes the reading (`now`, in microseconds) as an argument.
* The mutex of the engine makes every public operation atomic; an operation is
  a function from the state before to the state after (and the value returned).
-/

namespace Media

/-! ## The synchronisation engine: data model -/

/-- The record `struct Clock` of `AVSyncManager.h`. -/
structure Clock where
  isValid : Bool
  pts : ℚ
  duration : ℚ
  lastPts : ℚ
  lastDuration : ℚ
  updateTime : ℚ
deriving DecidableEq

/-- The value `Clock()` given by the default member initialisers of the struct. -/
def Clock.default : Clock :=
  { isValid := false, pts := 0, duration := 0, lastPts := -1, lastDuration := 0, updateTime := 0 }

/-- The data members of `class AVSyncManager` (the mutex apart). -/
structure AVSyncManager where
  vduration_ : ℚ
  aduration_ : ℚ
  paused_ : Bool
  speed_ : ℚ
  vclock_ : Clock
  aclock_ : Clock
deriving DecidableEq

/-- The conversion `static_cast<int>(x)` of a `double`: truncation toward zero.
The only call site converts a value between 1 and 100, far inside the range of `int`. -/
def truncToInt (x : ℚ) : Int :=
  if 0 ≤ x then ⌊x⌋ else ⌈x⌉

namespace AVSyncManager

/-- The constructor `AVSyncManager::AVSyncManager(vduration, aduration)`. -/
def create (vduration aduration : ℚ) : AVSyncManager :=
  { vduration_ := vduration
    aduration_ := aduration
    paused_ := false
    speed_ := 1
    vclock_ := { Clock.default with duration := vduration }
    aclock_ := { Clock.default with duration := aduration } }

/-- The method `AVSyncManager::systemClock`: `av_gettime() / 1000000.0`, where `now` is the
reading of `av_gettime()`. -/
def systemClock (now : Int) : ℚ :=
  (now : ℚ) / 1000000

/-- The method `AVSyncManager::reset`. -/
def reset (m : AVSyncManager) : AVSyncManager :=
  { m with
    vclock_ := { Clock.default with duration := m.vduration_ }
    aclock_ := { Clock.default with duration := m.aduration_ }
    paused_ := false
    speed_ := 1 }

/-- The method `AVSyncManager::pause`. -/
def pause (m : AVSyncManager) (now : Int) : AVSyncManager :=
  if !m.paused_ then
    let time := systemClock now
    { m with
      paused_ := true
      vclock_ := { m.vclock_ with updateTime := time }
      aclock_ := { m.aclock_ with updateTime := time } }
  else m

/-- The method `AVSyncManager::resume`. -/
def resume (m : AVSyncManager) (now : Int) : AVSyncManager :=
  if m.paused_ then
    let time := systemClock now
    { m with
      paused_ := false
      vclock_ := { m.vclock_ with updateTime := time }
      aclock_ := { m.aclock_ with updateTime := time } }
  else m

/-- The method `AVSyncManager::setSpeed`. -/
def setSpeed (m : AVSyncManager) (speed : ℚ) : AVSyncManager :=
  if 0 < speed ∧ |m.speed_ - speed| > 1 / 100 then { m with speed_ := speed } else m

/-- The method `AVSyncManager::updateClock`: the value returned and the clock after the
call.  The assignments of the source are replayed one by one on the local `clock`. -/
def updateClock (m : AVSyncManager) (now : Int) (clock : Clock) (pts duration : ℚ)
    (audio : Bool) : ℚ × Clock :=
  let time := systemClock now
  let srcd := if audio then m.aduration_ else m.vduration_
  if srcd ≤ 0 then
    (time, { clock with isValid := false, updateTime := time })
  else
    let clock : Clock := { clock with lastPts := clock.pts }
    let clock : Clock := { clock with lastDuration := clock.duration }
    let clock : Clock :=
      if duration ≤ 0 then
        { clock with duration := srcd }
      else
        let clock : Clock := { clock with duration := duration }
        if |clock.duration - clock.lastDuration| ≥ srcd / 2 ∨
            |clock.duration - srcd| ≥ srcd / 2 then
          { clock with duration := srcd }
        else clock
    let clock : Clock :=
      if pts < 0 then
        if clock.lastPts ≥ 0 then
          { clock with pts := clock.lastPts + clock.duration, isValid := true }
        else
          { clock with pts := 0, isValid := false }
      else if pts = 0 then
        if clock.lastPts = 0 then
          { clock with pts := pts, isValid := true }
        else
          { clock with pts := 0, isValid := false }
      else
        let clock : Clock := { clock with pts := pts }
        if |clock.pts - clock.lastPts| ≥ clock.duration / 2 then
          if clock.lastPts ≥ 0 then
            { clock with pts := clock.lastPts + clock.duration, isValid := true }
          else
            { clock with pts := 0, isValid := false }
        else clock
    (time, { clock with updateTime := time })

/-- The method `AVSyncManager::updateAudioClock`. -/
def updateAudioClock (m : AVSyncManager) (now : Int) (pts duration : ℚ) : AVSyncManager :=
  if m.paused_ then m
  else { m with aclock_ := (updateClock m now m.aclock_ pts duration true).2 }

/-- The method `AVSyncManager::updateVideoClock`: the state after the call and the value
stored in the output parameter `msleep`. -/
def updateVideoClock (m : AVSyncManager) (now : Int) (pts duration : ℚ) :
    AVSyncManager × Int :=
  if m.paused_ then (m, 100)
  else
    let m : AVSyncManager := { m with vclock_ := (updateClock m now m.vclock_ pts duration false).2 }
    let delay := m.vclock_.duration / m.speed_
    let diff :=
      if m.aclock_.isValid && m.vclock_.isValid then
        (m.vclock_.pts - m.aclock_.pts) / m.speed_
      else 0
    if diff ≤ -(1 / 10) then (m, 1)
    else
      let delay :=
        if m.speed_ ≤ 8 / 10 then
          if diff > 5 / 100 then delay * (15 / 10)
          else if diff > 2 / 100 then delay * (11 / 10)
          else if diff < -(5 / 100) then delay * (5 / 10)
          else if diff < -(2 / 100) then delay * (9 / 10)
          else delay
        else if m.speed_ ≥ 12 / 10 then
          if diff > 15 / 100 then delay * (15 / 10)
          else if diff > 6 / 100 then delay * (11 / 10)
          else if diff < -(15 / 100) then delay * (5 / 10)
          else if diff < -(6 / 100) then delay * (9 / 10)
          else delay
        else
          if diff > 2 / 100 then delay * (12 / 10)
          else if diff > 1 / 100 then delay * (105 / 100)
          else if diff < -(2 / 100) then delay * (8 / 10)
          else if diff < -(1 / 100) then delay * (95 / 100)
          else delay
      let delay := max (1 / 1000) (min delay (1 / 10))
      (m, truncToInt (delay * 1000))

end AVSyncManager

/-- One call of a public method of the engine, with its arguments and, for the methods that
read the wall clock, the reading of `av_gettime()`. -/
inductive EngineOp where
  | reset
  | pause (now : Int)
  | resume (now : Int)
  | setSpeed (speed : ℚ)
  | updateAudioClock (now : Int) (pts duration : ℚ)
  | updateVideoClock (now : Int) (pts duration : ℚ)

/-- The state after one call. -/
def EngineOp.run (m : AVSyncManager) : EngineOp → AVSyncManager
  | .reset => m.reset
  | .pause now => m.pause now
  | .resume now => m.resume now
  | .setSpeed speed => m.setSpeed speed
  | .updateAudioClock now pts duration => m.updateAudioClock now pts duration
  | .updateVideoClock now pts duration => (m.updateVideoClock now pts duration).1

/-- The state of an engine after a sequence of calls, oldest first. -/
def runEngine (m : AVSyncManager) (ops : List EngineOp) : AVSyncManager :=
  ops.foldl EngineOp.run m

/-- The engine states that a program can produce: the constructor, then any calls. -/
inductive EngineReachable : AVSyncManager → Prop where
  | create (vduration aduration : ℚ) : EngineReachable (AVSyncManager.create vduration aduration)
  | call (m : AVSyncManager) (op : EngineOp) : EngineReachable m → EngineReachable (op.run m)

open AVSyncManager

/-! ## The synchronisation engine: auxiliary definitions

Names for the intermediate values of `updateVideoClock`, used to state and prove its
properties; `updateVideoClock_eq` shows that they are the values the method computes. -/

/-- The engine after the clock update that opens the unpaused path of `updateVideoClock`. -/
def afterVideoUpdate (m : AVSyncManager) (now : Int) (pts duration : ℚ) : AVSyncManager :=
  { m with vclock_ := (updateClock m now m.vclock_ pts duration false).2 }

/-- The drift `diff` that `updateVideoClock` computes from the two clocks of `m`. -/
def drift (m : AVSyncManager) : ℚ :=
  if m.aclock_.isValid && m.vclock_.isValid then (m.vclock_.pts - m.aclock_.pts) / m.speed_ else 0

/-- The delay after the regime-dependent adjustment in `updateVideoClock`, before the clamp. -/
def adjustDelay (speed diff delay : ℚ) : ℚ :=
  if speed ≤ 8 / 10 then
    if diff > 5 / 100 then delay * (15 / 10)
    else if diff > 2 / 100 then delay * (11 / 10)
    else if diff < -(5 / 100) then delay * (5 / 10)
    else if diff < -(2 / 100) then delay * (9 / 10)
    else delay
  else if speed ≥ 12 / 10 then
    if diff > 15 / 100 then delay * (15 / 10)
    else if diff > 6 / 100 then delay * (11 / 10)
    else if diff < -(15 / 100) then delay * (5 / 10)
    else if diff < -(6 / 100) then delay * (9 / 10)
    else delay
  else
    if diff > 2 / 100 then delay * (12 / 10)
    else if diff > 1 / 100 then delay * (105 / 100)
    else if diff < -(2 / 100) then delay * (8 / 10)
    else if diff < -(1 / 100) then delay * (95 / 100)
    else delay

/-! ## The clock update: auxiliary definitions

Names for the values that `updateClock` stores, used to state and prove its properties;
`updateClock_of_nominal_pos` shows that they are the values the method computes. -/

/-- The nominal duration `srcd` that `updateClock` reads for the stream it is called on. -/
def nominalDuration (m : AVSyncManager) (audio : Bool) : ℚ :=
  if audio then m.aduration_ else m.vduration_

/-- The duration that `updateClock` stores, from the nominal duration `srcd`, the duration the
clock held before the call and the incoming `duration`. -/
def resolveDuration (srcd lastDuration duration : ℚ) : ℚ :=
  if duration ≤ 0 then srcd
  else if |duration - lastDuration| ≥ srcd / 2 ∨ |duration - srcd| ≥ srcd / 2 then srcd
  else duration

/-- The `pts` that `updateClock` stores, from the `pts` the clock held before the call
(`lastPts`), the duration `d` it has just stored and the incoming `pts`. -/
def resolvePts (lastPts d pts : ℚ) : ℚ :=
  if pts < 0 then
    if lastPts ≥ 0 then lastPts + d else 0
  else if pts = 0 then
    if lastPts = 0 then pts else 0
  else if |pts - lastPts| ≥ d / 2 then
    if lastPts ≥ 0 then lastPts + d else 0
  else pts

/-- The validity flag that `updateClock` leaves, from the flag and the `pts` the clock held
before the call, the duration `d` it has just stored and the incoming `pts`. -/
def resolveValid (wasValid : Bool) (lastPts d pts : ℚ) : Bool :=
  if pts < 0 then
    if lastPts ≥ 0 then true else false
  else if pts = 0 then
    if lastPts = 0 then true else false
  else if |pts - lastPts| ≥ d / 2 then
    if lastPts ≥ 0 then true else false
  else wasValid
/-- A fresh engine (nominal durations 0.04, speed 1) whose audio clock has been started with
`pts = 0`: valid at `pts = 0`. -/
def aheadEngine : AVSyncManager :=
  (AVSyncManager.create (4 / 100) (4 / 100)).updateAudioClock 0 0 (4 / 100)

/-- A fresh engine (nominal durations 0.04, speed 1) after one audio update with an unknown
`pts`: the audio clock is valid at `pts = 0.04`. -/
def levelEngine : AVSyncManager :=
  (AVSyncManager.create (4 / 100) (4 / 100)).updateAudioClock 0 (-1) (4 / 100)

/-- The engine `levelEngine` after a second audio update with an unknown `pts`: the audio
clock is valid at `pts = 0.08`. -/
def behindEngine : AVSyncManager :=
  levelEngine.updateAudioClock 0 (-1) (4 / 100)

/-! ## The delay table as the specification words it -/

/-- The multiplier of the delay table, from the speed and the drift: the first matching test
of the regime of the speed, 1 when none matches.  (The table is read for drifts above `-0.1`;
at or below, `updateVideoClock` has already returned.) -/
def tableMultiplier (speed diff : ℚ) : ℚ :=
  if speed ≤ 8 / 10 then
    if diff > 5 / 100 then 15 / 10
    else if diff > 2 / 100 then 11 / 10
    else if diff < -(5 / 100) then 5 / 10
    else if diff < -(2 / 100) then 9 / 10
    else 1
  else if speed ≥ 12 / 10 then
    if diff > 15 / 100 then 15 / 10
    else if diff > 6 / 100 then 11 / 10
    else if diff < -(6 / 100) then 9 / 10
    else 1
  else
    if diff > 2 / 100 then 12 / 10
    else if diff > 1 / 100 then 105 / 100
    else if diff < -(2 / 100) then 8 / 10
    else if diff < -(1 / 100) then 95 / 100
    else 1

/-! ## Runs of the engine and wall-clock readings -/

/-- The call `op` with its wall-clock reading replaced by `now` (the calls that do not read
the wall clock are unchanged). -/
def EngineOp.withTime (now : Int) : EngineOp → EngineOp
  | .reset => .reset
  | .pause _ => .pause now
  | .resume _ => .resume now
  | .setSpeed speed => .setSpeed speed
  | .updateAudioClock _ pts duration => .updateAudioClock now pts duration
  | .updateVideoClock _ pts duration => .updateVideoClock now pts duration

/-- The sequence of calls `ops` with the wall-clock reading of the `i`-th call replaced by
`clock i`. -/
def retime : List EngineOp → (Nat → Int) → List EngineOp
  | [], _ => []
  | op :: ops, clock => op.withTime (clock 0) :: retime ops (fun i => clock (i + 1))

/-- The value that a call returns to its caller: the `msleep` of `updateVideoClock`, nothing
for the other methods. -/
def EngineOp.output (m : AVSyncManager) : EngineOp → Option Int
  | .updateVideoClock now pts duration => some (m.updateVideoClock now pts duration).2
  | _ => none

/-- The state of an engine after a sequence of calls together with the values returned,
oldest first. -/
def runEngineTrace (m : AVSyncManager) : List EngineOp → AVSyncManager × List (Option Int)
  | [] => (m, [])
  | op :: ops => ((runEngineTrace (op.run m) ops).1, op.output m :: (runEngineTrace (op.run m) ops).2)

/-- The clock with its `updateTime` erased. -/
def Clock.eraseTime (c : Clock) : Clock :=
  { c with updateTime := 0 }

/-- The engine state with the `updateTime` of both clocks erased: every field other than the
two `updateTime`s. -/
def AVSyncManager.eraseTime (m : AVSyncManager) : AVSyncManager :=
  { m with vclock_ := m.vclock_.eraseTime, aclock_ := m.aclock_.eraseTime }

/-! ## Binary64 arithmetic

The engine once more, now in the arithmetic of the machine.  A `double` is a value of IEEE 754
binary64: NaN, an infinity, or a finite number, given by the rational it denotes.  Every
arithmetic operation computes the exact result and rounds it to the nearest binary64 value,
ties to even, overflowing to an infinity; every comparison with NaN is false.  The two zeros
of the format are not distinguished: they compare equal, and the only divisors of the engine
are `speed_`, which is positive in every reachable state, and the literals `2` and
`1000000.0`. -/

/-- A value of the C++ type `double`. -/
inductive Dbl where
  | nan
  | ninf
  | fin (q : ℚ)
  | pinf
deriving DecidableEq

namespace Dbl

/-- Rounding of a rational to the nearest integer, ties to the even one. -/
def roundHalfEven (x : ℚ) : ℤ :=
  if x - ⌊x⌋ < 1 / 2 then ⌊x⌋
  else if 1 / 2 < x - ⌊x⌋ then ⌊x⌋ + 1
  else if ⌊x⌋ % 2 = 0 then ⌊x⌋ else ⌊x⌋ + 1

/-- The exponent of the unit in the last place at a magnitude `x`: 52 binary digits below the
leading one of `x`, and never below `2 ^ -1074`, the spacing of the subnormal numbers. -/
def ulpExponent (x : ℚ) : ℤ :=
  max (Int.log 2 x) (-1022) - 52

/-- The magnitude `x ≥ 0` rounded to 53 significant binary digits. -/
def roundMag (x : ℚ) : ℚ :=
  (roundHalfEven (x / 2 ^ ulpExponent x) : ℚ) * 2 ^ ulpExponent x

/-- The binary64 value of an exact result `x`: round to nearest, ties to even; a magnitude
that rounds to `2 ^ 1024` or more overflows to the infinity of its sign. -/
def round (x : ℚ) : Dbl :=
  if roundMag |x| < 2 ^ (1024 : ℤ) then fin (if 0 ≤ x then roundMag |x| else -roundMag |x|)
  else if 0 ≤ x then pinf else ninf

/-- A decimal literal of the source, such as `0.1`: the binary64 value nearest to it. -/
def lit (x : ℚ) : Dbl :=
  round x

/-- The conversion of an integer (the `int64_t` returned by `av_gettime()`) to `double`. -/
def ofInt (n : Int) : Dbl :=
  round n

/-- The test `std::isnan`. -/
def isNaN : Dbl → Bool
  | nan => true
  | _ => false

/-- Unary minus. -/
def neg : Dbl → Dbl
  | nan => nan
  | ninf => pinf
  | fin q => fin (-q)
  | pinf => ninf

/-- The function `std::fabs`. -/
def fabs : Dbl → Dbl
  | nan => nan
  | ninf => pinf
  | fin q => fin |q|
  | pinf => pinf

/-- The comparison `a < b`. -/
def lt : Dbl → Dbl → Bool
  | fin a, fin b => decide (a < b)
  | ninf, fin _ => true
  | ninf, pinf => true
  | fin _, pinf => true
  | _, _ => false

/-- The comparison `a <= b`. -/
def le : Dbl → Dbl → Bool
  | fin a, fin b => decide (a ≤ b)
  | ninf, ninf => true
  | ninf, fin _ => true
  | ninf, pinf => true
  | fin _, pinf => true
  | pinf, pinf => true
  | _, _ => false

/-- The comparison `a > b`. -/
def gt (a b : Dbl) : Bool :=
  lt b a

/-- The comparison `a >= b`. -/
def ge (a b : Dbl) : Bool :=
  le b a

/-- The comparison `a == b`. -/
def eq : Dbl → Dbl → Bool
  | fin a, fin b => decide (a = b)
  | ninf, ninf => true
  | pinf, pinf => true
  | _, _ => false

/-- The sign of a value that is not NaN: -1, 0 or 1. -/
def sign : Dbl → Int
  | nan => 0
  | ninf => -1
  | fin q => if 0 < q then 1 else if q < 0 then -1 else 0
  | pinf => 1

/-- The infinity of a sign, NaN for the sign 0 (the invalid operations `0 * inf`). -/
def infOfSign (s : Int) : Dbl :=
  if 0 < s then pinf else if s < 0 then ninf else nan

/-- The sum `a + b`. -/
def add : Dbl → Dbl → Dbl
  | nan, _ => nan
  | _, nan => nan
  | fin a, fin b => round (a + b)
  | pinf, ninf => nan
  | ninf, pinf => nan
  | pinf, _ => pinf
  | _, pinf => pinf
  | ninf, _ => ninf
  | _, ninf => ninf

/-- The difference `a - b`. -/
def sub (a b : Dbl) : Dbl :=
  add a (neg b)

/-- The product `a * b`. -/
def mul : Dbl → Dbl → Dbl
  | nan, _ => nan
  | _, nan => nan
  | fin a, fin b => round (a * b)
  | a, b => infOfSign (sign a * sign b)

/-- The quotient `a / b`.  A zero divisor is read as `+0`. -/
def div : Dbl → Dbl → Dbl
  | nan, _ => nan
  | _, nan => nan
  | fin a, fin b => if b = 0 then infOfSign (sign (fin a)) else round (a / b)
  | fin _, _ => fin 0
  | a, fin b => infOfSign (sign a * (if 0 ≤ b then 1 else -1))
  | _, _ => nan

/-- The function `std::min(a, b)`: `b` if `b < a`, else `a`. -/
def stdMin (a b : Dbl) : Dbl :=
  if lt b a then b else a

/-- The function `std::max(a, b)`: `b` if `a < b`, else `a`. -/
def stdMax (a b : Dbl) : Dbl :=
  if lt a b then b else a

/-- The conversion `static_cast<int>(x)`: truncation toward zero of a finite value.  The
conversion of NaN or of an infinity is undefined in C++; the only call site converts a
finite value (the product of a delay clamped to `[0.001, 0.1]` and `1000`). -/
def toInt : Dbl → Int
  | fin q => truncToInt q
  | _ => 0

end Dbl

/-! ## The synchronisation engine in binary64 arithmetic

The embedding of `src/avsync/AVSyncManager.{h,cpp}` once more, statement by statement, with
every `double` a value of type `Dbl` and every operation and comparison the one of the
machine.  The literals `0.0`, `1.0`, `-1.0`, `2`, `1000` and `1000000.0` are exact; a decimal
literal such as `0.1` is the binary64 value nearest to it (`Dbl.lit`). -/

namespace Binary64

/-- The record `struct Clock` of `AVSyncManager.h`. -/
structure Clock where
  isValid : Bool
  pts : Dbl
  duration : Dbl
  lastPts : Dbl
  lastDuration : Dbl
  updateTime : Dbl
deriving DecidableEq

/-- The value `Clock()` given by the default member initialisers of the struct. -/
def Clock.default : Clock :=
  { isValid := false, pts := Dbl.fin 0, duration := Dbl.fin 0, lastPts := Dbl.fin (-1),
    lastDuration := Dbl.fin 0, updateTime := Dbl.fin 0 }

/-- The data members of `class AVSyncManager` (the mutex apart). -/
structure AVSyncManager where
  vduration_ : Dbl
  aduration_ : Dbl
  paused_ : Bool
  speed_ : Dbl
  vclock_ : Clock
  aclock_ : Clock
deriving DecidableEq

namespace AVSyncManager

/-- The constructor `AVSyncManager::AVSyncManager(vduration, aduration)`. -/
def create (vduration aduration : Dbl) : AVSyncManager :=
  { vduration_ := vduration
    aduration_ := aduration
    paused_ := false
    speed_ := Dbl.fin 1
    vclock_ := { Clock.default with duration := vduration }
    aclock_ := { Clock.default with duration := aduration } }

/-- The method `AVSyncManager::systemClock`: `av_gettime() / 1000000.0`, where `now` is the
reading of `av_gettime()`. -/
def systemClock (now : Int) : Dbl :=
  Dbl.div (Dbl.ofInt now) (Dbl.fin 1000000)

/-- The method `AVSyncManager::reset`. -/
def reset (m : AVSyncManager) : AVSyncManager :=
  { m with
    vclock_ := { Clock.default with duration := m.vduration_ }
    aclock_ := { Clock.default with duration := m.aduration_ }
    paused_ := false
    speed_ := Dbl.fin 1 }

/-- The method `AVSyncManager::pause`. -/
def pause (m : AVSyncManager) (now : Int) : AVSyncManager :=
  if !m.paused_ then
    let time := systemClock now
    { m with
      paused_ := true
      vclock_ := { m.vclock_ with updateTime := time }
      aclock_ := { m.aclock_ with updateTime := time } }
  else m

/-- The method `AVSyncManager::resume`. -/
def resume (m : AVSyncManager) (now : Int) : AVSyncManager :=
  if m.paused_ then
    let time := systemClock now
    { m with
      paused_ := false
      vclock_ := { m.vclock_ with updateTime := time }
      aclock_ := { m.aclock_ with updateTime := time } }
  else m

/-- The method `AVSyncManager::setSpeed`. -/
def setSpeed (m : AVSyncManager) (speed : Dbl) : AVSyncManager :=
  if Dbl.gt speed (Dbl.fin 0) && Dbl.gt (Dbl.fabs (Dbl.sub m.speed_ speed)) (Dbl.lit (1 / 100))
  then { m with speed_ := speed }
  else m

/-- The method `AVSyncManager::updateClock`: the value returned and the clock after the
call.  The assignments of the source are replayed one by one on the local `clock`. -/
def updateClock (m : AVSyncManager) (now : Int) (clock : Clock) (pts duration : Dbl)
    (audio : Bool) : Dbl × Clock :=
  let time := systemClock now
  let srcd := if audio then m.aduration_ else m.vduration_
  if Dbl.le srcd (Dbl.fin 0) then
    (time, { clock with isValid := false, updateTime := time })
  else
    let clock : Clock := { clock with lastPts := clock.pts }
    let clock : Clock := { clock with lastDuration := clock.duration }
    let clock : Clock :=
      if Dbl.le duration (Dbl.fin 0) then
        { clock with duration := srcd }
      else
        let clock : Clock := { clock with duration := duration }
        if Dbl.ge (Dbl.fabs (Dbl.sub clock.duration clock.lastDuration))
              (Dbl.div srcd (Dbl.fin 2)) ||
            Dbl.ge (Dbl.fabs (Dbl.sub clock.duration srcd)) (Dbl.div srcd (Dbl.fin 2)) then
          { clock with duration := srcd }
        else clock
    let clock : Clock :=
      if Dbl.lt pts (Dbl.fin 0) then
        if Dbl.ge clock.lastPts (Dbl.fin 0) then
          { clock with pts := Dbl.add clock.lastPts clock.duration, isValid := true }
        else
          { clock with pts := Dbl.fin 0, isValid := false }
      else if Dbl.eq pts (Dbl.fin 0) then
        if Dbl.eq clock.lastPts (Dbl.fin 0) then
          { clock with pts := pts, isValid := true }
        else
          { clock with pts := Dbl.fin 0, isValid := false }
      else
        let clock : Clock := { clock with pts := pts }
        if Dbl.ge (Dbl.fabs (Dbl.sub clock.pts clock.lastPts))
            (Dbl.div clock.duration (Dbl.fin 2)) then
          if Dbl.ge clock.lastPts (Dbl.fin 0) then
            { clock with pts := Dbl.add clock.lastPts clock.duration, isValid := true }
          else
            { clock with pts := Dbl.fin 0, isValid := false }
        else clock
    (time, { clock with updateTime := time })

/-- The method `AVSyncManager::updateAudioClock`. -/
def updateAudioClock (m : AVSyncManager) (now : Int) (pts duration : Dbl) : AVSyncManager :=
  if m.paused_ then m
  else { m with aclock_ := (updateClock m now m.aclock_ pts duration true).2 }

/-- The method `AVSyncManager::updateVideoClock`: the state after the call and the value
stored in the output parameter `msleep`. -/
def updateVideoClock (m : AVSyncManager) (now : Int) (pts duration : Dbl) :
    AVSyncManager × Int :=
  if m.paused_ then (m, 100)
  else
    let m : AVSyncManager := { m with vclock_ := (updateClock m now m.vclock_ pts duration false).2 }
    let delay := Dbl.div m.vclock_.duration m.speed_
    let diff :=
      if m.aclock_.isValid && m.vclock_.isValid then
        Dbl.div (Dbl.sub m.vclock_.pts m.aclock_.pts) m.speed_
      else Dbl.fin 0
    if Dbl.le diff (Dbl.neg (Dbl.lit (1 / 10))) then (m, 1)
    else
      let delay :=
        if Dbl.le m.speed_ (Dbl.lit (8 / 10)) then
          if Dbl.gt diff (Dbl.lit (5 / 100)) then Dbl.mul delay (Dbl.lit (15 / 10))
          else if Dbl.gt diff (Dbl.lit (2 / 100)) then Dbl.mul delay (Dbl.lit (11 / 10))
          else if Dbl.lt diff (Dbl.neg (Dbl.lit (5 / 100))) then Dbl.mul delay (Dbl.lit (5 / 10))
          else if Dbl.lt diff (Dbl.neg (Dbl.lit (2 / 100))) then Dbl.mul delay (Dbl.lit (9 / 10))
          else delay
        else if Dbl.ge m.speed_ (Dbl.lit (12 / 10)) then
          if Dbl.gt diff (Dbl.lit (15 / 100)) then Dbl.mul delay (Dbl.lit (15 / 10))
          else if Dbl.gt diff (Dbl.lit (6 / 100)) then Dbl.mul delay (Dbl.lit (11 / 10))
          else if Dbl.lt diff (Dbl.neg (Dbl.lit (15 / 100))) then
            Dbl.mul delay (Dbl.lit (5 / 10))
          else if Dbl.lt diff (Dbl.neg (Dbl.lit (6 / 100))) then Dbl.mul delay (Dbl.lit (9 / 10))
          else delay
        else
          if Dbl.gt diff (Dbl.lit (2 / 100)) then Dbl.mul delay (Dbl.lit (12 / 10))
          else if Dbl.gt diff (Dbl.lit (1 / 100)) then Dbl.mul delay (Dbl.lit (105 / 100))
          else if Dbl.lt diff (Dbl.neg (Dbl.lit (2 / 100))) then Dbl.mul delay (Dbl.lit (8 / 10))
          else if Dbl.lt diff (Dbl.neg (Dbl.lit (1 / 100))) then
            Dbl.mul delay (Dbl.lit (95 / 100))
          else delay
      let delay := Dbl.stdMax (Dbl.lit (1 / 1000)) (Dbl.stdMin delay (Dbl.lit (1 / 10)))
      (m, Dbl.toInt (Dbl.mul delay (Dbl.fin 1000)))

end AVSyncManager

/-- One call of a public method of the engine, with its arguments and, for the methods that
read the wall clock, the reading of `av_gettime()`. -/
inductive EngineOp where
  | reset
  | pause (now : Int)
  | resume (now : Int)
  | setSpeed (speed : Dbl)
  | updateAudioClock (now : Int) (pts duration : Dbl)
  | updateVideoClock (now : Int) (pts duration : Dbl)

/-- The state after one call. -/
def EngineOp.run (m : AVSyncManager) : EngineOp → AVSyncManager
  | .reset => m.reset
  | .pause now => m.pause now
  | .resume now => m.resume now
  | .setSpeed speed => m.setSpeed speed
  | .updateAudioClock now pts duration => m.updateAudioClock now pts duration
  | .updateVideoClock now pts duration => (m.updateVideoClock now pts duration).1

/-- The state of an engine after a sequence of calls, oldest first. -/
def runEngine (m : AVSyncManager) (ops : List EngineOp) : AVSyncManager :=
  ops.foldl EngineOp.run m

/-- The engine states that a program can produce: the constructor, then any calls. -/
inductive EngineReachable : AVSyncManager → Prop where
  | create (vduration aduration : Dbl) :
      EngineReachable (AVSyncManager.create vduration aduration)
  | call (m : AVSyncManager) (op : EngineOp) : EngineReachable m → EngineReachable (op.run m)

end Binary64

/-! ## The engine in binary64 arithmetic: auxiliary definitions

Names for the intermediate values of `updateVideoClock` and `updateClock`, used to state and
prove their properties; `updateVideoClock_eq_dbl` and `updateClock_of_nominal_pos_dbl` show that they
are the values the methods compute. -/

namespace Binary64

/-- The engine after the clock update that opens the unpaused path of `updateVideoClock`. -/
def afterVideoUpdate (m : AVSyncManager) (now : Int) (pts duration : Dbl) : AVSyncManager :=
  { m with vclock_ := (m.updateClock now m.vclock_ pts duration false).2 }

/-- The drift `diff` that `updateVideoClock` computes from the two clocks of `m`. -/
def drift (m : AVSyncManager) : Dbl :=
  if m.aclock_.isValid && m.vclock_.isValid then
    Dbl.div (Dbl.sub m.vclock_.pts m.aclock_.pts) m.speed_
  else Dbl.fin 0

/-- The delay after the regime-dependent adjustment in `updateVideoClock`, before the clamp. -/
def adjustDelay (speed diff delay : Dbl) : Dbl :=
  if Dbl.le speed (Dbl.lit (8 / 10)) then
    if Dbl.gt diff (Dbl.lit (5 / 100)) then Dbl.mul delay (Dbl.lit (15 / 10))
    else if Dbl.gt diff (Dbl.lit (2 / 100)) then Dbl.mul delay (Dbl.lit (11 / 10))
    else if Dbl.lt diff (Dbl.neg (Dbl.lit (5 / 100))) then Dbl.mul delay (Dbl.lit (5 / 10))
    else if Dbl.lt diff (Dbl.neg (Dbl.lit (2 / 100))) then Dbl.mul delay (Dbl.lit (9 / 10))
    else delay
  else if Dbl.ge speed (Dbl.lit (12 / 10)) then
    if Dbl.gt diff (Dbl.lit (15 / 100)) then Dbl.mul delay (Dbl.lit (15 / 10))
    else if Dbl.gt diff (Dbl.lit (6 / 100)) then Dbl.mul delay (Dbl.lit (11 / 10))
    else if Dbl.lt diff (Dbl.neg (Dbl.lit (15 / 100))) then Dbl.mul delay (Dbl.lit (5 / 10))
    else if Dbl.lt diff (Dbl.neg (Dbl.lit (6 / 100))) then Dbl.mul delay (Dbl.lit (9 / 10))
    else delay
  else
    if Dbl.gt diff (Dbl.lit (2 / 100)) then Dbl.mul delay (Dbl.lit (12 / 10))
    else if Dbl.gt diff (Dbl.lit (1 / 100)) then Dbl.mul delay (Dbl.lit (105 / 100))
    else if Dbl.lt diff (Dbl.neg (Dbl.lit (2 / 100))) then Dbl.mul delay (Dbl.lit (8 / 10))
    else if Dbl.lt diff (Dbl.neg (Dbl.lit (1 / 100))) then Dbl.mul delay (Dbl.lit (95 / 100))
    else delay

/-- The clamp `std::max(0.001, std::min(delay, 0.1))` of `updateVideoClock`. -/
def clampDelay (delay : Dbl) : Dbl :=
  Dbl.stdMax (Dbl.lit (1 / 1000)) (Dbl.stdMin delay (Dbl.lit (1 / 10)))

/-- The nominal duration `srcd` that `updateClock` reads for the stream it is called on. -/
def nominalDuration (m : AVSyncManager) (audio : Bool) : Dbl :=
  if audio then m.aduration_ else m.vduration_

/-- The clock of the engine that `updateClock` is called on for a stream. -/
def streamClock (m : AVSyncManager) (audio : Bool) : Clock :=
  if audio then m.aclock_ else m.vclock_

/-- The duration that `updateClock` stores, from the nominal duration `srcd`, the duration the
clock held before the call and the incoming `duration`. -/
def resolveDuration (srcd lastDuration duration : Dbl) : Dbl :=
  if Dbl.le duration (Dbl.fin 0) then srcd
  else if Dbl.ge (Dbl.fabs (Dbl.sub duration lastDuration)) (Dbl.div srcd (Dbl.fin 2)) ||
      Dbl.ge (Dbl.fabs (Dbl.sub duration srcd)) (Dbl.div srcd (Dbl.fin 2)) then srcd
  else duration

/-- The `pts` that `updateClock` stores, from the `pts` the clock held before the call
(`lastPts`), the duration `d` it has just stored and the incoming `pts`. -/
def resolvePts (lastPts d pts : Dbl) : Dbl :=
  if Dbl.lt pts (Dbl.fin 0) then
    if Dbl.ge lastPts (Dbl.fin 0) then Dbl.add lastPts d else Dbl.fin 0
  else if Dbl.eq pts (Dbl.fin 0) then
    if Dbl.eq lastPts (Dbl.fin 0) then pts else Dbl.fin 0
  else if Dbl.ge (Dbl.fabs (Dbl.sub pts lastPts)) (Dbl.div d (Dbl.fin 2)) then
    if Dbl.ge lastPts (Dbl.fin 0) then Dbl.add lastPts d else Dbl.fin 0
  else pts

/-- The validity flag that `updateClock` leaves, from the flag and the `pts` the clock held
before the call, the duration `d` it has just stored and the incoming `pts`. -/
def resolveValid (wasValid : Bool) (lastPts d pts : Dbl) : Bool :=
  if Dbl.lt pts (Dbl.fin 0) then
    if Dbl.ge lastPts (Dbl.fin 0) then true else false
  else if Dbl.eq pts (Dbl.fin 0) then
    if Dbl.eq lastPts (Dbl.fin 0) then true else false
  else if Dbl.ge (Dbl.fabs (Dbl.sub pts lastPts)) (Dbl.div d (Dbl.fin 2)) then
    if Dbl.ge lastPts (Dbl.fin 0) then true else false
  else wasValid

end Binary64

/-! ## The engine in binary64 arithmetic: concrete states used as inputs -/

namespace Binary64

/-- A fresh engine with the nominal durations 0.04 (25 frames per second). -/
def freshEngine : AVSyncManager :=
  AVSyncManager.create (Dbl.lit (4 / 100)) (Dbl.lit (4 / 100))

/-- An unpaused engine at normal speed whose audio clock is valid at `pts = 1` while the video
clock has not started. -/
def farBehindEngine : AVSyncManager :=
  { freshEngine with
    aclock_ :=
      { isValid := true, pts := Dbl.fin 1, duration := Dbl.lit (4 / 100),
        lastPts := Dbl.lit (96 / 100), lastDuration := Dbl.lit (4 / 100),
        updateTime := Dbl.fin 0 } }

/-- A fresh engine after one audio update with an unknown `pts`: the audio clock is valid at
`pts = 0.04`. -/
def levelEngine : AVSyncManager :=
  freshEngine.updateAudioClock 0 (Dbl.fin (-1)) (Dbl.lit (4 / 100))

end Binary64

/-! ## The delay table as the specification words it, in binary64 arithmetic -/

namespace Binary64

/-- The multiplier of the delay table, from the speed and the drift: the first matching test
of the regime of the speed, 1 when none matches.  (The table is read for drifts above `-0.1`;
at or below, `updateVideoClock` has already returned.) -/
def tableMultiplier (speed diff : Dbl) : Dbl :=
  if Dbl.le speed (Dbl.lit (8 / 10)) then
    if Dbl.gt diff (Dbl.lit (5 / 100)) then Dbl.lit (15 / 10)
    else if Dbl.gt diff (Dbl.lit (2 / 100)) then Dbl.lit (11 / 10)
    else if Dbl.lt diff (Dbl.neg (Dbl.lit (5 / 100))) then Dbl.lit (5 / 10)
    else if Dbl.lt diff (Dbl.neg (Dbl.lit (2 / 100))) then Dbl.lit (9 / 10)
    else Dbl.fin 1
  else if Dbl.ge speed (Dbl.lit (12 / 10)) then
    if Dbl.gt diff (Dbl.lit (15 / 100)) then Dbl.lit (15 / 10)
    else if Dbl.gt diff (Dbl.lit (6 / 100)) then Dbl.lit (11 / 10)
    else if Dbl.lt diff (Dbl.neg (Dbl.lit (6 / 100))) then Dbl.lit (9 / 10)
    else Dbl.fin 1
  else
    if Dbl.gt diff (Dbl.lit (2 / 100)) then Dbl.lit (12 / 10)
    else if Dbl.gt diff (Dbl.lit (1 / 100)) then Dbl.lit (105 / 100)
    else if Dbl.lt diff (Dbl.neg (Dbl.lit (2 / 100))) then Dbl.lit (8 / 10)
    else if Dbl.lt diff (Dbl.neg (Dbl.lit (1 / 100))) then Dbl.lit (95 / 100)
    else Dbl.fin 1

/-- The sleep of the delay table: `trunc(1000 * min(max(m * B, 0.001), 0.1))` for the
multiplier `m` and the base delay `B`, with `std::min` and `std::max` for `min` and `max`. -/
def tableSleep (multiplier base : Dbl) : Int :=
  Dbl.toInt (Dbl.mul (Dbl.fin 1000)
    (Dbl.stdMin (Dbl.stdMax (Dbl.mul multiplier base) (Dbl.lit (1 / 1000))) (Dbl.lit (1 / 10))))

/-- The test that no row of the delay table matches (the multiplier is 1). -/
def noAdjustment (speed diff : Dbl) : Bool :=
  if Dbl.le speed (Dbl.lit (8 / 10)) then
    !Dbl.gt diff (Dbl.lit (5 / 100)) && !Dbl.gt diff (Dbl.lit (2 / 100)) &&
      !Dbl.lt diff (Dbl.neg (Dbl.lit (5 / 100))) && !Dbl.lt diff (Dbl.neg (Dbl.lit (2 / 100)))
  else if Dbl.ge speed (Dbl.lit (12 / 10)) then
    !Dbl.gt diff (Dbl.lit (15 / 100)) && !Dbl.gt diff (Dbl.lit (6 / 100)) &&
      !Dbl.lt diff (Dbl.neg (Dbl.lit (15 / 100))) && !Dbl.lt diff (Dbl.neg (Dbl.lit (6 / 100)))
  else
    !Dbl.gt diff (Dbl.lit (2 / 100)) && !Dbl.gt diff (Dbl.lit (1 / 100)) &&
      !Dbl.lt diff (Dbl.neg (Dbl.lit (2 / 100))) && !Dbl.lt diff (Dbl.neg (Dbl.lit (1 / 100)))

end Binary64

/-! ## The engine in binary64 arithmetic: runs without NaN -/

namespace Dbl

/-- The test that a value of type `Dbl` is a value of the format: NaN, an infinity, or a
finite number that is its own rounding.  Every `double` of a program is one. -/
def isValue (d : Dbl) : Bool :=
  match d with
  | fin q => decide (round q = fin q)
  | _ => true

end Dbl

namespace Binary64

/-- The test that no `pts` or `duration` argument of a call is NaN. -/
def EngineOp.numeric : EngineOp → Bool
  | .updateAudioClock _ pts duration => !pts.isNaN && !duration.isNaN
  | .updateVideoClock _ pts duration => !pts.isNaN && !duration.isNaN
  | _ => true

/-- The engine states that a program can produce without NaN: the constructor with two
nominal durations that are not NaN, then any calls whose `pts` and `duration` arguments are
not NaN. -/
inductive NumericReachable : AVSyncManager → Prop where
  | create (vduration aduration : Dbl) :
      vduration.isNaN = false → aduration.isNaN = false →
      NumericReachable (AVSyncManager.create vduration aduration)
  | call (m : AVSyncManager) (op : EngineOp) :
      NumericReachable m → op.numeric = true → NumericReachable (op.run m)

end Binary64

/-! ## The engine in binary64 arithmetic: further concrete inputs -/

namespace Binary64

/-- An unpaused engine at normal speed (nominal durations 0.04) whose audio clock is valid at
`pts = 0.05` while the video clock has not started. -/
def nearEngine : AVSyncManager :=
  { freshEngine with
    aclock_ :=
      { isValid := true, pts := Dbl.lit (5 / 100), duration := Dbl.lit (4 / 100),
        lastPts := Dbl.lit (1 / 100), lastDuration := Dbl.lit (4 / 100),
        updateTime := Dbl.fin 0 } }

/-- A fresh engine (nominal durations 0.04) at the speed 0.8. -/
def slowEngine : AVSyncManager :=
  { freshEngine with speed_ := Dbl.lit (8 / 10) }

/-- A fresh engine whose nominal durations are `1 + 2 ^ -52`, the value of the format that
follows 1. -/
def tieEngine : AVSyncManager :=
  AVSyncManager.create (Dbl.fin (4503599627370497 / 4503599627370496))
    (Dbl.fin (4503599627370497 / 4503599627370496))

end Binary64

namespace Binary64

/-- An engine with nominal video duration 0.04 and nominal audio duration 1, switched to
double speed and given one audio update with an unknown `pts`: the audio clock is valid at
`pts = 1`. -/
def fastEngine : AVSyncManager :=
  runEngine (AVSyncManager.create (Dbl.lit (4 / 100)) (Dbl.fin 1))
    [EngineOp.setSpeed (Dbl.fin 2), EngineOp.updateAudioClock 0 (Dbl.fin (-1)) (Dbl.fin 1)]

end Binary64

/-! ## The bounded queue: data model

A pointer `T*` of the source is an `Option T`: `none` is the null pointer and `some p` points
to the object `p`.  The callback `std::function<void(T*)>` is an `Option C`, `none` being the
empty function object; a call of the callback and a `delete` are recorded as events.

`enqueue` and `dequeue` can block.  A call is modelled in segments: the code from the entry of
the function, or from the return of `wait_for`, up to the next `return` or the next
`wait_for`.  A segment runs on the state it finds and ends either returning a value or
waiting; what other threads do while the call waits is applied to the state between two
segments.  The sizes are `size_t`; the source only stores and compares them, so they are
natural numbers here.
-/

/-- The data members of `class MediaQueue<T>` (the mutex and the condition variables apart). -/
structure MediaQueue (T : Type) (C : Type) where
  locked_ : Bool
  minSize_ : Nat
  maxSize_ : Nat
  queue_ : List (Option T)
  clearCallback_ : Option C

/-- How a segment of a blocking call ends: the call returns `value`, or it is inside
`wait_for(locker, 50ms)` with the mutex released.  `state` is the queue it leaves. -/
inductive Outcome (R : Type) (S : Type) where
  | returned (value : R) (state : S)
  | waiting (state : S)

/-- The queue state at the end of a segment. -/
def Outcome.state {R S : Type} : Outcome R S → S
  | .returned _ s => s
  | .waiting s => s

/-- The value returned, if the segment ended in a `return`. -/
def Outcome.value {R S : Type} : Outcome R S → Option R
  | .returned v _ => some v
  | .waiting _ => none

/-- What `clear()` does with one item: it passes it to the callback, or deletes it. -/
inductive Disposal (T : Type) (C : Type) where
  | callback (f : C) (item : T)
  | delete (item : T)

namespace MediaQueue

variable {T C : Type}

/-- The constructor `MediaQueue(minSize, maxSize)`. -/
def construct (minSize maxSize : Nat) : MediaQueue T C :=
  { locked_ := false
    minSize_ := minSize
    maxSize_ := max minSize maxSize
    queue_ := []
    clearCallback_ := none }

/-- The state in which the move constructor and the move assignment leave `other`: the flag
and the limits are reset by the source; the moved-from `std::deque` and `std::function` are
taken to be empty, as the standard libraries leave them. -/
def movedFrom (_other : MediaQueue T C) : MediaQueue T C :=
  { locked_ := false, minSize_ := 0, maxSize_ := 0, queue_ := [], clearCallback_ := none }

/-- The move constructor `MediaQueue(MediaQueue&& other)`: the new queue and `other` after it. -/
def moveConstruct (other : MediaQueue T C) : MediaQueue T C × MediaQueue T C :=
  ({ locked_ := other.locked_
     minSize_ := other.minSize_
     maxSize_ := other.maxSize_
     queue_ := other.queue_
     clearCallback_ := other.clearCallback_ },
   movedFrom other)

/-- The move assignment `operator=(MediaQueue&& other)` on two distinct objects: the target and
`other` after it.  (On `this == &other` the source changes nothing.) -/
def moveAssign (_self other : MediaQueue T C) : MediaQueue T C × MediaQueue T C :=
  ({ locked_ := other.locked_
     minSize_ := other.minSize_
     maxSize_ := other.maxSize_
     queue_ := other.queue_
     clearCallback_ := other.clearCallback_ },
   movedFrom other)

/-- The method `setLimit`.  The notifications change no data member. -/
def setLimit (q : MediaQueue T C) (minSize maxSize : Nat) : MediaQueue T C :=
  { q with minSize_ := minSize, maxSize_ := max minSize maxSize }

/-- The method `setClearCallback`. -/
def setClearCallback (q : MediaQueue T C) (callback : Option C) : MediaQueue T C :=
  { q with clearCallback_ := callback }

/-- The loop `while (!locked_.load()) { ... }` of `enqueue`, from its head to the next
`return` or `wait_for`. -/
def enqueueLoop (q : MediaQueue T C) (item : Option T) : Outcome Bool (MediaQueue T C) :=
  if !q.locked_ then
    if q.maxSize_ = 0 then .returned false q
    else if q.queue_.length < q.maxSize_ then
      .returned true { q with queue_ := q.queue_ ++ [item] }
    else .waiting q
  else .returned false q

/-- The method `enqueue`, first segment: from the entry to the first `return` or `wait_for`. -/
def enqueue (q : MediaQueue T C) (item : Option T) : Outcome Bool (MediaQueue T C) :=
  if item.isNone || q.locked_ then .returned false q
  else enqueueLoop q item

/-- The method `enqueue`, later segments: from the return of `wait_for` (`timeout` tells
whether it returned `cv_status::timeout`) to the next `return` or `wait_for`, on the state `q`
found at the wake-up. -/
def enqueueWake (q : MediaQueue T C) (item : Option T) (timeout : Bool) :
    Outcome Bool (MediaQueue T C) :=
  if timeout && q.locked_ then .returned false q
  else enqueueLoop q item

/-- The loop `while (!locked_.load()) { ... }` of `dequeue`, from its head to the next
`return` or `wait_for`. -/
def dequeueLoop (q : MediaQueue T C) : Outcome (Option T) (MediaQueue T C) :=
  if !q.locked_ then
    if q.maxSize_ = 0 then .returned none q
    else
      match q.queue_ with
      | item :: rest => .returned item { q with queue_ := rest }
      | [] => .waiting q
  else .returned none q

/-- The method `dequeue`, first segment. -/
def dequeue (q : MediaQueue T C) : Outcome (Option T) (MediaQueue T C) :=
  if q.locked_ then .returned none q
  else dequeueLoop q

/-- The method `dequeue`, later segments: from the return of `wait_for` on. -/
def dequeueWake (q : MediaQueue T C) (timeout : Bool) : Outcome (Option T) (MediaQueue T C) :=
  if timeout && q.locked_ then .returned none q
  else dequeueLoop q

/-- The method `size`. -/
def size (q : MediaQueue T C) : Nat :=
  q.queue_.length

/-- The method `empty`. -/
def empty (q : MediaQueue T C) : Bool :=
  q.queue_.isEmpty

/-- The method `full`. -/
def full (q : MediaQueue T C) : Bool :=
  decide (q.maxSize_ > 0) && decide (q.queue_.length ≥ q.maxSize_)

/-- The method `wake`: notifications only, no data member changes. -/
def wake (q : MediaQueue T C) : MediaQueue T C :=
  q

/-- The method `lock`. -/
def lock (q : MediaQueue T C) : MediaQueue T C :=
  wake { q with locked_ := true }

/-- The method `unlock`. -/
def unlock (q : MediaQueue T C) : MediaQueue T C :=
  wake { q with locked_ := false }

/-- The loop `while (!queue_.empty()) { ... }` of `clear`: the deque when the loop exits and
the disposals performed, in order. -/
def clearLoop (clearCallback : Option C) :
    List (Option T) → List (Option T) × List (Disposal T C)
  | [] => ([], [])
  | item :: rest =>
    let disposed : List (Disposal T C) :=
      match item with
      | some p =>
        match clearCallback with
        | some f => [Disposal.callback f p]
        | none => [Disposal.delete p]
      | none => []
    ((clearLoop clearCallback rest).1, disposed ++ (clearLoop clearCallback rest).2)

/-- The method `clear`: the state after it and the disposals performed, in order. -/
def clear (q : MediaQueue T C) : MediaQueue T C × List (Disposal T C) :=
  ({ q with queue_ := (clearLoop q.clearCallback_ q.queue_).1 },
    (clearLoop q.clearCallback_ q.queue_).2)

end MediaQueue

/-- One step of a thread on a queue: a call of a public method (for `enqueue` and `dequeue`
its first segment), or a later segment of a pending `enqueue` or `dequeue`.  The item of a
pending `enqueue` is not null, since the call passed the test at its entry. -/
inductive QueueOp (T : Type) (C : Type) where
  | setLimit (minSize maxSize : Nat)
  | setClearCallback (callback : Option C)
  | enqueue (item : Option T)
  | enqueueWake (item : T) (timeout : Bool)
  | dequeue
  | dequeueWake (timeout : Bool)
  | lock
  | unlock
  | clear

/-- The queue after one step. -/
def QueueOp.run {T C : Type} (q : MediaQueue T C) : QueueOp T C → MediaQueue T C
  | .setLimit minSize maxSize => q.setLimit minSize maxSize
  | .setClearCallback callback => q.setClearCallback callback
  | .enqueue item => (q.enqueue item).state
  | .enqueueWake item timeout => (q.enqueueWake (some item) timeout).state
  | .dequeue => q.dequeue.state
  | .dequeueWake timeout => (q.dequeueWake timeout).state
  | .lock => q.lock
  | .unlock => q.unlock
  | .clear => q.clear.1

/-- The queue states that a program can produce: the constructor, then any steps, the move
constructor and the move assignment included (for both objects involved). -/
inductive QueueReachable {T C : Type} : MediaQueue T C → Prop where
  | construct (minSize maxSize : Nat) : QueueReachable (MediaQueue.construct minSize maxSize)
  | step (q : MediaQueue T C) (op : QueueOp T C) : QueueReachable q → QueueReachable (op.run q)
  | moveConstructNew (other : MediaQueue T C) :
      QueueReachable other → QueueReachable other.moveConstruct.1
  | moveConstructOld (other : MediaQueue T C) :
      QueueReachable other → QueueReachable other.moveConstruct.2
  | moveAssignNew (self other : MediaQueue T C) :
      QueueReachable self → QueueReachable other → QueueReachable (self.moveAssign other).1
  | moveAssignOld (self other : MediaQueue T C) :
      QueueReachable self → QueueReachable other → QueueReachable (self.moveAssign other).2

/-- A caller that calls `enqueue` once for each item of a list, in order, on its own (no other
thread touches the queue): the values returned and the final state, or `none` if a call
blocks. -/
def enqueueEach {T C : Type} (q : MediaQueue T C) :
    List (Option T) → Option (List Bool × MediaQueue T C)
  | [] => some ([], q)
  | item :: items =>
    match q.enqueue item with
    | .returned value q1 =>
      match enqueueEach q1 items with
      | some (values, q2) => some (value :: values, q2)
      | none => none
    | .waiting _ => none

/-- A caller that calls `dequeue` `n` times, on its own: the values returned, in order, and
the final state, or `none` if a call blocks. -/
def dequeueTimes {T C : Type} (q : MediaQueue T C) :
    Nat → Option (List (Option T) × MediaQueue T C)
  | 0 => some ([], q)
  | n + 1 =>
    match q.dequeue with
    | .returned value q1 =>
      match dequeueTimes q1 n with
      | some (values, q2) => some (value :: values, q2)
      | none => none
    | .waiting _ => none

/-! ## The bounded queue: concrete states used as inputs -/

/-- An unlocked queue with `maxSize = 2` holding the items 1 and 2 (input of witnesses). -/
def fullQueue : MediaQueue Nat Unit :=
  { locked_ := false, minSize_ := 0, maxSize_ := 2, queue_ := [some 1, some 2],
    clearCallback_ := some () }

/-- A queue built with `maxSize = 2`, given a callback and two items by `enqueue` (input of
witnesses). -/
def twoItemQueue : MediaQueue Nat Unit :=
  (QueueOp.enqueue (some 2)).run ((QueueOp.enqueue (some 1)).run
    ((QueueOp.setClearCallback (some ())).run (MediaQueue.construct 0 2)))

/-- A queue built with `maxSize = 3`, filled with three items by `enqueue`, whose limit is
then lowered by `setLimit(0, 1)`. -/
def overfullQueue : MediaQueue Nat Unit :=
  (QueueOp.setLimit 0 1).run ((QueueOp.enqueue (some 3)).run ((QueueOp.enqueue (some 2)).run
    ((QueueOp.enqueue (some 1)).run (MediaQueue.construct 0 3))))

/-- The segments of a pending `enqueue` after its first one, while no other thread touches
the queue: one segment per return of `wait_for`, oldest first (`true` for a return by
timeout), from the outcome `o` of the segments so far. -/
def resumeEnqueue {T C : Type} (item : Option T) :
    Outcome Bool (MediaQueue T C) → List Bool → Outcome Bool (MediaQueue T C)
  | .waiting q, timeout :: later => resumeEnqueue item (q.enqueueWake item timeout) later
  | o, _ => o

/-- A call of `enqueue` on a queue that no other thread touches, followed through the given
returns of `wait_for`. -/
def enqueuePending {T C : Type} (q : MediaQueue T C) (item : Option T) (wakeups : List Bool) :
    Outcome Bool (MediaQueue T C) :=
  resumeEnqueue item (q.enqueue item) wakeups

/-- The queue built by `MediaQueue(0, 2)` after two calls of `enqueue`, with the items 1 and
2: full and unlocked. -/
def fullQueueFresh : MediaQueue Nat Unit :=
  { (MediaQueue.construct 0 2 : MediaQueue Nat Unit) with queue_ := [some 1, some 2] }

/-! ## The synchronisation engine: properties -/

theorem truncToInt_clamp (x : ℚ) :
    1 ≤ truncToInt (max (1 / 1000) (min x (1 / 10)) * 1000) ∧
      truncToInt (max (1 / 1000) (min x (1 / 10)) * 1000) ≤ 100 := by
  have h1 : (1 : ℚ) / 1000 ≤ max (1 / 1000) (min x (1 / 10)) := le_max_left _ _
  have h2 : max (1 / 1000) (min x (1 / 10)) ≤ (1 : ℚ) / 10 :=
    max_le (by norm_num) (min_le_right _ _)
  generalize max (1 / 1000) (min x (1 / 10)) = c at h1 h2
  have h0 : (0 : ℚ) ≤ c * 1000 := by linarith
  unfold truncToInt
  rw [if_pos h0]
  constructor
  · apply Int.le_floor.mpr
    push_cast
    linarith
  · have : ⌊c * 1000⌋ < 101 := by
      apply Int.floor_lt.mpr
      push_cast
      linarith
    omega

theorem updateVideoClock_eq (m : AVSyncManager) (now : Int) (pts duration : ℚ) :
    m.updateVideoClock now pts duration =
      if m.paused_ then (m, 100)
      else if drift (afterVideoUpdate m now pts duration) ≤ -(1 / 10) then
        (afterVideoUpdate m now pts duration, 1)
      else
        (afterVideoUpdate m now pts duration,
          truncToInt (max (1 / 1000) (min (adjustDelay m.speed_
            (drift (afterVideoUpdate m now pts duration))
            ((afterVideoUpdate m now pts duration).vclock_.duration / m.speed_)) (1 / 10)) * 1000)) :=
  rfl

theorem updateVideoClock_fst (m : AVSyncManager) (now : Int) (pts duration : ℚ) :
    (m.updateVideoClock now pts duration).1 =
      if m.paused_ then m else afterVideoUpdate m now pts duration := by
  rw [updateVideoClock_eq]
  split_ifs <;> rfl

theorem updateVideoClock_snd_bounds (m : AVSyncManager) (now : Int) (pts duration : ℚ) :
    1 ≤ (m.updateVideoClock now pts duration).2 ∧ (m.updateVideoClock now pts duration).2 ≤ 100 := by
  rw [updateVideoClock_eq]
  split_ifs
  · exact ⟨by norm_num, by norm_num⟩
  · exact ⟨by norm_num, by norm_num⟩
  · exact truncToInt_clamp _

theorem updateAudioClock_speed (m : AVSyncManager) (now : Int) (pts duration : ℚ) :
    (m.updateAudioClock now pts duration).speed_ = m.speed_ := by
  unfold updateAudioClock
  split_ifs <;> rfl

theorem updateVideoClock_speed (m : AVSyncManager) (now : Int) (pts duration : ℚ) :
    (m.updateVideoClock now pts duration).1.speed_ = m.speed_ := by
  rw [updateVideoClock_fst]
  split_ifs <;> rfl

theorem setSpeed_speed_pos (m : AVSyncManager) (speed : ℚ) (h : 0 < m.speed_) :
    0 < (m.setSpeed speed).speed_ := by
  unfold setSpeed
  split_ifs with hs
  · exact hs.1
  · exact h

theorem run_speed_pos (m : AVSyncManager) (op : EngineOp) (h : 0 < m.speed_) :
    0 < (op.run m).speed_ := by
  cases op with
  | reset => show (0 : ℚ) < 1; norm_num
  | pause now =>
    show 0 < (m.pause now).speed_
    unfold pause
    split_ifs <;> exact h
  | resume now =>
    show 0 < (m.resume now).speed_
    unfold resume
    split_ifs <;> exact h
  | setSpeed speed => exact setSpeed_speed_pos m speed h
  | updateAudioClock now pts duration =>
    show 0 < (m.updateAudioClock now pts duration).speed_
    rw [updateAudioClock_speed]; exact h
  | updateVideoClock now pts duration =>
    show 0 < (m.updateVideoClock now pts duration).1.speed_
    rw [updateVideoClock_speed]; exact h

theorem speed_pos_of_reachable (m : AVSyncManager) (h : EngineReachable m) : 0 < m.speed_ := by
  induction h with
  | create vduration aduration => show (0 : ℚ) < 1; norm_num
  | call m op _ ih => exact run_speed_pos m op ih

/-- C1: in every engine state reachable from the constructor by calls of `reset`, `pause`,
`resume`, `setSpeed`, `updateAudioClock` and `updateVideoClock` with arbitrary arguments, the
speed is positive and `updateVideoClock` stores a sleep value between 1 and 100 inclusive,
for every `pts` and `duration`. -/
theorem updateVideoClock_sleep_range (m : AVSyncManager) (h : EngineReachable m)
    (now : Int) (pts duration : ℚ) :
    0 < m.speed_ ∧ 1 ≤ (m.updateVideoClock now pts duration).2 ∧
      (m.updateVideoClock now pts duration).2 ≤ 100 :=
  ⟨speed_pos_of_reachable m h, updateVideoClock_snd_bounds m now pts duration⟩

/-- Witness for C1: an engine built with nominal durations 0.04 and 0.02 and switched to
double speed. -/
theorem updateVideoClock_sleep_range_witness :
    EngineReachable ((EngineOp.setSpeed 2).run (AVSyncManager.create (4 / 100) (2 / 100))) ∧
      (0 < ((EngineOp.setSpeed 2).run (AVSyncManager.create (4 / 100) (2 / 100))).speed_ ∧
        1 ≤ (((EngineOp.setSpeed 2).run (AVSyncManager.create (4 / 100) (2 / 100))).updateVideoClock
          0 1 (4 / 100)).2 ∧
        (((EngineOp.setSpeed 2).run (AVSyncManager.create (4 / 100) (2 / 100))).updateVideoClock
          0 1 (4 / 100)).2 ≤ 100) :=
  ⟨EngineReachable.call _ _ (EngineReachable.create _ _),
    updateVideoClock_sleep_range _ (EngineReachable.call _ _ (EngineReachable.create _ _)) 0 1
      (4 / 100)⟩

theorem pause_paused (m : AVSyncManager) (now : Int) : (m.pause now).paused_ = true := by
  unfold pause
  cases h : m.paused_ <;> simp [h]

theorem pause_vclock_pts (m : AVSyncManager) (now : Int) :
    (m.pause now).vclock_.pts = m.vclock_.pts := by
  unfold pause
  split_ifs <;> rfl

/-- C2: while the engine `m` is paused, `updateVideoClock` stores exactly 100 and leaves the
whole state unchanged, and `updateAudioClock` leaves the whole state unchanged, for every
`pts` and `duration`; in particular, from any state `k`, `pause()` followed by
`updateVideoClock` stores 100, changes nothing after the pause, and the video clock still
holds the `pts` it had before the pause. -/
theorem paused_updates_are_noops (m : AVSyncManager) (hpaused : m.paused_ = true)
    (k : AVSyncManager) (now now0 : Int) (pts duration : ℚ) :
    m.updateVideoClock now pts duration = (m, 100) ∧
      m.updateAudioClock now pts duration = m ∧
      (k.pause now0).updateVideoClock now pts duration = (k.pause now0, 100) ∧
      ((k.pause now0).updateVideoClock now pts duration).1.vclock_.pts = k.vclock_.pts := by
  have key : ∀ j : AVSyncManager, j.paused_ = true →
      j.updateVideoClock now pts duration = (j, 100) ∧ j.updateAudioClock now pts duration = j := by
    intro j hj
    constructor
    · rw [updateVideoClock_eq, if_pos hj]
    · unfold updateAudioClock
      rw [if_pos hj]
  refine ⟨(key m hpaused).1, (key m hpaused).2, (key _ (pause_paused k now0)).1, ?_⟩
  rw [(key _ (pause_paused k now0)).1]
  exact pause_vclock_pts k now0

/-- Witness for C2: a freshly built engine after `pause()`, and the fresh engine itself. -/
theorem paused_updates_are_noops_witness :
    ((AVSyncManager.create (4 / 100) (2 / 100)).pause 7).updateVideoClock 9 1 (4 / 100) =
        ((AVSyncManager.create (4 / 100) (2 / 100)).pause 7, 100) ∧
      ((AVSyncManager.create (4 / 100) (2 / 100)).pause 7).updateAudioClock 9 1 (4 / 100) =
        (AVSyncManager.create (4 / 100) (2 / 100)).pause 7 ∧
      ((AVSyncManager.create (4 / 100) (2 / 100)).pause 8).updateVideoClock 9 1 (4 / 100) =
        ((AVSyncManager.create (4 / 100) (2 / 100)).pause 8, 100) ∧
      (((AVSyncManager.create (4 / 100) (2 / 100)).pause 8).updateVideoClock 9 1
        (4 / 100)).1.vclock_.pts = (AVSyncManager.create (4 / 100) (2 / 100)).vclock_.pts :=
  paused_updates_are_noops ((AVSyncManager.create (4 / 100) (2 / 100)).pause 7)
    (pause_paused _ _) (AVSyncManager.create (4 / 100) (2 / 100)) 9 8 1 (4 / 100)

/-! ## The bounded queue: properties -/

namespace MediaQueue

variable {T C : Type}

theorem enqueue_of_space (q : MediaQueue T C) (x : T) (hl : q.locked_ = false)
    (hlt : q.queue_.length < q.maxSize_) :
    q.enqueue (some x) = .returned true { q with queue_ := q.queue_ ++ [some x] } := by
  have hm : q.maxSize_ ≠ 0 := by omega
  simp [enqueue, enqueueLoop, hl, hm, hlt]

theorem enqueueLoop_of_full (q : MediaQueue T C) (item : Option T)
    (hfull : q.maxSize_ ≤ q.queue_.length) :
    (q.enqueueLoop item).state = q ∧ (q.enqueueLoop item).value ≠ some true := by
  have hge : ¬ q.queue_.length < q.maxSize_ := by omega
  unfold enqueueLoop
  split_ifs <;> simp [Outcome.state, Outcome.value]

theorem dequeue_of_front (q : MediaQueue T C) (x : Option T) (rest : List (Option T))
    (hl : q.locked_ = false) (hm : 0 < q.maxSize_) (hq : q.queue_ = x :: rest) :
    q.dequeue = .returned x { q with queue_ := rest } := by
  have hm0 : q.maxSize_ ≠ 0 := by omega
  simp [dequeue, dequeueLoop, hl, hm0, hq]

theorem clearLoop_fst (cb : Option C) (items : List (Option T)) :
    (clearLoop cb items).1 = [] := by
  induction items with
  | nil => rfl
  | cons item rest ih => simpa [clearLoop] using ih

theorem clearLoop_snd (f : C) (items : List T) :
    (clearLoop (some f) (items.map some)).2 = items.map (Disposal.callback f) := by
  induction items with
  | nil => rfl
  | cons item rest ih => simp [clearLoop, ih]

end MediaQueue

open MediaQueue

theorem enqueueEach_of_space {T C : Type} (xs : List T) :
    ∀ q : MediaQueue T C, q.locked_ = false → q.queue_.length + xs.length ≤ q.maxSize_ →
      enqueueEach q (xs.map some) =
        some (List.replicate xs.length true, { q with queue_ := q.queue_ ++ xs.map some }) := by
  induction xs with
  | nil =>
    intro q _ _
    simp [enqueueEach]
  | cons x xs ih =>
    intro q hl hfit
    have hlt : q.queue_.length < q.maxSize_ := by
      simp only [List.length_cons] at hfit
      omega
    have hfit2 : ({ q with queue_ := q.queue_ ++ [some x] } : MediaQueue T C).queue_.length
        + xs.length ≤ q.maxSize_ := by
      simp only [List.length_cons, List.length_append, List.length_nil] at hfit ⊢
      omega
    simp only [List.map_cons, enqueueEach, enqueue_of_space q x hl hlt]
    rw [ih { q with queue_ := q.queue_ ++ [some x] } hl hfit2]
    simp [List.replicate_succ]

theorem dequeueTimes_of_front_part {T C : Type} (xs : List (Option T)) :
    ∀ (q : MediaQueue T C) (ys : List (Option T)), q.locked_ = false → 0 < q.maxSize_ →
      q.queue_ = xs ++ ys →
      dequeueTimes q xs.length = some (xs, { q with queue_ := ys }) := by
  induction xs with
  | nil =>
    intro q ys _ _ hq
    simp only [List.nil_append] at hq
    simp [dequeueTimes, ← hq]
  | cons x xs ih =>
    intro q ys hl hm hq
    simp only [List.length_cons, dequeueTimes,
      dequeue_of_front q x (xs ++ ys) hl hm (by simpa using hq)]
    rw [ih { q with queue_ := xs ++ ys } ys hl hm rfl]

theorem enqueueLoop_state {T C : Type} (q : MediaQueue T C) (item : Option T) :
    (q.enqueueLoop item).state = q ∨
      (q.enqueueLoop item).state = { q with queue_ := q.queue_ ++ [item] } := by
  unfold enqueueLoop
  split_ifs <;> simp [Outcome.state]

theorem enqueue_state {T C : Type} (q : MediaQueue T C) (item : Option T) :
    (q.enqueue item).state = q ∨
      (item ≠ none ∧ (q.enqueue item).state = { q with queue_ := q.queue_ ++ [item] }) := by
  unfold enqueue
  split_ifs with h
  · exact Or.inl rfl
  · have hn : item ≠ none := by
      intro hn
      simp [hn] at h
    rcases enqueueLoop_state q item with h1 | h1
    · exact Or.inl h1
    · exact Or.inr ⟨hn, h1⟩

theorem enqueueWake_state {T C : Type} (q : MediaQueue T C) (item : Option T) (timeout : Bool) :
    (q.enqueueWake item timeout).state = q ∨
      (q.enqueueWake item timeout).state = { q with queue_ := q.queue_ ++ [item] } := by
  unfold enqueueWake
  split_ifs
  · exact Or.inl rfl
  · exact enqueueLoop_state q item

theorem dequeueLoop_state {T C : Type} (q : MediaQueue T C) :
    q.dequeueLoop.state = q ∨
      ∃ x rest, q.queue_ = x :: rest ∧ q.dequeueLoop.state = { q with queue_ := rest } := by
  unfold dequeueLoop
  split_ifs
  · exact Or.inl rfl
  · split
    · rename_i x rest hq
      exact Or.inr ⟨x, rest, hq, rfl⟩
    · exact Or.inl rfl
  · exact Or.inl rfl

theorem dequeue_state {T C : Type} (q : MediaQueue T C) :
    q.dequeue.state = q ∨
      ∃ x rest, q.queue_ = x :: rest ∧ q.dequeue.state = { q with queue_ := rest } := by
  unfold dequeue
  split_ifs
  · exact Or.inl rfl
  · exact dequeueLoop_state q

theorem dequeueWake_state {T C : Type} (q : MediaQueue T C) (timeout : Bool) :
    (q.dequeueWake timeout).state = q ∨
      ∃ x rest, q.queue_ = x :: rest ∧ (q.dequeueWake timeout).state = { q with queue_ := rest } := by
  unfold dequeueWake
  split_ifs
  · exact Or.inl rfl
  · exact dequeueLoop_state q

/-- Every step leaves the queue as it is, appends one non-null item, removes the front item,
empties the deque, or changes only the flag, the limits or the callback. -/
theorem run_cases {T C : Type} (q : MediaQueue T C) (op : QueueOp T C) :
    (op.run q).queue_ = q.queue_ ∨
      (∃ x : T, (op.run q).queue_ = q.queue_ ++ [some x]) ∨
      (∃ x, q.queue_ = x :: (op.run q).queue_) ∨
      (op.run q).queue_ = [] := by
  cases op with
  | setLimit minSize maxSize => exact Or.inl rfl
  | setClearCallback callback => exact Or.inl rfl
  | enqueue item =>
    rcases enqueue_state q item with h | ⟨hn, h⟩
    · exact Or.inl (by show (q.enqueue item).state.queue_ = _; rw [h])
    · obtain ⟨x, rfl⟩ := Option.ne_none_iff_exists.mp hn
      exact Or.inr (Or.inl ⟨x, by show (q.enqueue (some x)).state.queue_ = _; rw [h]⟩)
  | enqueueWake item timeout =>
    rcases enqueueWake_state q (some item) timeout with h | h
    · exact Or.inl (by show (q.enqueueWake (some item) timeout).state.queue_ = _; rw [h])
    · exact Or.inr (Or.inl ⟨item, by
        show (q.enqueueWake (some item) timeout).state.queue_ = _; rw [h]⟩)
  | dequeue =>
    rcases dequeue_state q with h | ⟨x, rest, hq, h⟩
    · exact Or.inl (by show q.dequeue.state.queue_ = _; rw [h])
    · exact Or.inr (Or.inr (Or.inl ⟨x, by show q.queue_ = x :: q.dequeue.state.queue_; rw [h, hq]⟩))
  | dequeueWake timeout =>
    rcases dequeueWake_state q timeout with h | ⟨x, rest, hq, h⟩
    · exact Or.inl (by show (q.dequeueWake timeout).state.queue_ = _; rw [h])
    · exact Or.inr (Or.inr (Or.inl ⟨x, by
        show q.queue_ = x :: (q.dequeueWake timeout).state.queue_; rw [h, hq]⟩))
  | lock => exact Or.inl rfl
  | unlock => exact Or.inl rfl
  | clear => exact Or.inr (Or.inr (Or.inr (clearLoop_fst _ _)))

/-- A step changes the limits only if it is `setLimit`. -/
theorem run_limits {T C : Type} (q : MediaQueue T C) (op : QueueOp T C) :
    ((op.run q).minSize_ = q.minSize_ ∧ (op.run q).maxSize_ = q.maxSize_) ∨
      ∃ minSize maxSize, op = .setLimit minSize maxSize := by
  cases op with
  | setLimit minSize maxSize => exact Or.inr ⟨minSize, maxSize, rfl⟩
  | setClearCallback callback => exact Or.inl ⟨rfl, rfl⟩
  | enqueue item =>
    left
    show (q.enqueue item).state.minSize_ = _ ∧ (q.enqueue item).state.maxSize_ = _
    rcases enqueue_state q item with h | ⟨_, h⟩ <;> rw [h] <;> exact ⟨rfl, rfl⟩
  | enqueueWake item timeout =>
    left
    show (q.enqueueWake (some item) timeout).state.minSize_ = _ ∧
      (q.enqueueWake (some item) timeout).state.maxSize_ = _
    rcases enqueueWake_state q (some item) timeout with h | h <;> rw [h] <;> exact ⟨rfl, rfl⟩
  | dequeue =>
    left
    show q.dequeue.state.minSize_ = _ ∧ q.dequeue.state.maxSize_ = _
    rcases dequeue_state q with h | ⟨_, _, _, h⟩ <;> rw [h] <;> exact ⟨rfl, rfl⟩
  | dequeueWake timeout =>
    left
    show (q.dequeueWake timeout).state.minSize_ = _ ∧ (q.dequeueWake timeout).state.maxSize_ = _
    rcases dequeueWake_state q timeout with h | ⟨_, _, _, h⟩ <;> rw [h] <;> exact ⟨rfl, rfl⟩
  | lock => exact Or.inl ⟨rfl, rfl⟩
  | unlock => exact Or.inl ⟨rfl, rfl⟩
  | clear => exact Or.inl ⟨rfl, rfl⟩

theorem queue_nonnull_of_reachable {T C : Type} (q : MediaQueue T C) (h : QueueReachable q) :
    ∀ item ∈ q.queue_, item ≠ none := by
  induction h with
  | construct minSize maxSize => intro item hi; simp [construct] at hi
  | step q op _ ih =>
    intro i hi
    rcases run_cases q op with h | ⟨x, h⟩ | ⟨x, h⟩ | h
    · exact ih i (h ▸ hi)
    · rw [h, List.mem_append, List.mem_singleton] at hi
      rcases hi with hi | hi
      · exact ih i hi
      · rw [hi]; simp
    · exact ih i (by rw [h]; exact List.mem_cons_of_mem _ hi)
    · rw [h] at hi; simp at hi
  | moveConstructNew other _ ih => exact ih
  | moveConstructOld other _ _ => intro item hi; simp [moveConstruct, movedFrom] at hi
  | moveAssignNew self other _ _ _ ih => exact ih
  | moveAssignOld self other _ _ _ _ => intro item hi; simp [moveAssign, movedFrom] at hi

theorem min_le_max_of_reachable {T C : Type} (q : MediaQueue T C) (h : QueueReachable q) :
    q.minSize_ ≤ q.maxSize_ := by
  induction h with
  | construct minSize maxSize => exact le_max_left _ _
  | step q op _ ih =>
    rcases run_limits q op with ⟨h1, h2⟩ | ⟨minSize, maxSize, rfl⟩
    · rw [h1, h2]; exact ih
    · exact le_max_left _ _
  | moveConstructNew other _ ih => exact ih
  | moveConstructOld other _ _ => exact le_refl 0
  | moveAssignNew self other _ _ _ ih => exact ih
  | moveAssignOld self other _ _ _ _ => exact le_refl 0

/-- C4: FIFO round trip.  On an empty, unlocked queue whose `maxSize` is at least `n ≥ 1`,
enqueueing the non-null items `x1..xn` one after the other returns `true` `n` times without
blocking and leaves exactly these items queued; from that state, for every `k ≤ n`, `k` calls
of `dequeue` return `x1..xk` in this order and leave `x(k+1)..xn` queued (each call removes
one item); after `n` calls all items have been returned in enqueue order and the queue is
empty. -/
theorem fifo_round_trip {T C : Type} (q : MediaQueue T C) (xs : List T)
    (hempty : q.queue_ = []) (hunlocked : q.locked_ = false)
    (hn : 1 ≤ xs.length) (hfit : xs.length ≤ q.maxSize_) :
    enqueueEach q (xs.map some) =
        some (List.replicate xs.length true, { q with queue_ := xs.map some }) ∧
      (∀ k, k ≤ xs.length →
        dequeueTimes { q with queue_ := xs.map some } k =
          some ((xs.take k).map some, { q with queue_ := (xs.drop k).map some })) ∧
      dequeueTimes { q with queue_ := xs.map some } xs.length =
        some (xs.map some, { q with queue_ := [] }) := by
  have hdeq : ∀ k, k ≤ xs.length →
      dequeueTimes { q with queue_ := xs.map some } k =
        some ((xs.take k).map some, { q with queue_ := (xs.drop k).map some }) := by
    intro k hk
    have h := dequeueTimes_of_front_part ((xs.take k).map some)
      ({ q with queue_ := xs.map some } : MediaQueue T C) ((xs.drop k).map some) hunlocked
      (by show 0 < q.maxSize_; omega)
      (by show xs.map some = _; rw [← List.map_append, List.take_append_drop])
    rw [List.length_map, List.length_take, min_eq_left hk] at h
    exact h
  refine ⟨?_, hdeq, ?_⟩
  · have h := enqueueEach_of_space xs q hunlocked (by rw [hempty]; simpa using hfit)
    rw [h, hempty, List.nil_append]
  · have h := hdeq xs.length (le_refl _)
    rw [List.take_length, List.drop_length] at h
    exact h

/-- Witness for C4: three items through a queue built with `maxSize = 3`. -/
theorem fifo_round_trip_witness :
    enqueueEach (MediaQueue.construct 0 3 : MediaQueue Nat Unit) ([1, 2, 3].map some) =
        some (List.replicate 3 true,
          { (MediaQueue.construct 0 3 : MediaQueue Nat Unit) with queue_ := [1, 2, 3].map some }) ∧
      dequeueTimes
          { (MediaQueue.construct 0 3 : MediaQueue Nat Unit) with queue_ := [1, 2, 3].map some } 3 =
        some ([1, 2, 3].map some,
          { (MediaQueue.construct 0 3 : MediaQueue Nat Unit) with queue_ := [] }) :=
  ⟨(fifo_round_trip (MediaQueue.construct 0 3 : MediaQueue Nat Unit) [1, 2, 3] rfl rfl
      (by decide) (by decide)).1,
    (fifo_round_trip (MediaQueue.construct 0 3 : MediaQueue Nat Unit) [1, 2, 3] rfl rfl
      (by decide) (by decide)).2.2⟩

/-- C5: on an unlocked queue `q` whose size is below `maxSize`, `enqueue` of a non-null item
returns `true` in its first segment (no wait), the deque becomes the old deque with the item
at the back while the flag, the limits and the callback keep their values, and the new size
is at most `maxSize`.  On a queue `r` whose size is at least `maxSize`, no segment of
`enqueue` (the first one, or one after a wake-up) appends or returns `true`. -/
theorem enqueue_appends_iff_space {T C : Type} (q : MediaQueue T C) (x : T)
    (hunlocked : q.locked_ = false) (hspace : q.size < q.maxSize_)
    (r : MediaQueue T C) (hfull : r.maxSize_ ≤ r.size) (item : Option T) (timeout : Bool) :
    (q.enqueue (some x) = .returned true { q with queue_ := q.queue_ ++ [some x] } ∧
      (q.enqueue (some x)).state.size = q.size + 1 ∧
      (q.enqueue (some x)).state.size ≤ q.maxSize_) ∧
    ((r.enqueue item).state = r ∧ (r.enqueue item).value ≠ some true ∧
      (r.enqueueWake item timeout).state = r ∧
      (r.enqueueWake item timeout).value ≠ some true) := by
  have hloop := enqueueLoop_of_full r item hfull
  refine ⟨⟨enqueue_of_space q x hunlocked hspace, ?_, ?_⟩, ?_, ?_, ?_, ?_⟩
  · rw [enqueue_of_space q x hunlocked hspace]
    simp [Outcome.state, size]
  · rw [enqueue_of_space q x hunlocked hspace]
    simp only [Outcome.state, size, List.length_append, List.length_singleton]
    exact hspace
  · unfold enqueue
    split_ifs
    · rfl
    · exact hloop.1
  · unfold enqueue
    split_ifs
    · simp [Outcome.value]
    · exact hloop.2
  · unfold enqueueWake
    split_ifs
    · rfl
    · exact hloop.1
  · unfold enqueueWake
    split_ifs
    · simp [Outcome.value]
    · exact hloop.2

/-- Witness for C5: an empty queue with `maxSize = 2` accepts an item; `fullQueue` does not. -/
theorem enqueue_appends_iff_space_witness :
    ((MediaQueue.construct 0 2 : MediaQueue Nat Unit).enqueue (some 7) =
        .returned true { (MediaQueue.construct 0 2 : MediaQueue Nat Unit) with
          queue_ := (MediaQueue.construct 0 2 : MediaQueue Nat Unit).queue_ ++ [some 7] } ∧
      ((MediaQueue.construct 0 2 : MediaQueue Nat Unit).enqueue (some 7)).state.size =
        (MediaQueue.construct 0 2 : MediaQueue Nat Unit).size + 1 ∧
      ((MediaQueue.construct 0 2 : MediaQueue Nat Unit).enqueue (some 7)).state.size ≤
        (MediaQueue.construct 0 2 : MediaQueue Nat Unit).maxSize_) ∧
    ((fullQueue.enqueue (some 3)).state = fullQueue ∧
      (fullQueue.enqueue (some 3)).value ≠ some true ∧
      (fullQueue.enqueueWake (some 3) true).state = fullQueue ∧
      (fullQueue.enqueueWake (some 3) true).value ≠ some true) :=
  enqueue_appends_iff_space (MediaQueue.construct 0 2) 7 rfl (by decide) fullQueue (by decide)
    (some 3) true

/-- C6: `enqueue` returns `false` in its first segment (no wait) and leaves the whole queue
state unchanged whenever the item is null, or the queue is locked, or `maxSize` is 0. -/
theorem enqueue_fails_fast {T C : Type} (q : MediaQueue T C) (item : Option T)
    (h : item = none ∨ q.locked_ = true ∨ q.maxSize_ = 0) :
    q.enqueue item = .returned false q := by
  unfold enqueue enqueueLoop
  rcases h with h | h | h
  · simp [h]
  · simp [h]
  · simp [h]

/-- Witness for C6: a non-null item offered to an unlocked queue of capacity zero. -/
theorem enqueue_fails_fast_witness :
    (MediaQueue.construct 0 0 : MediaQueue Nat Unit).enqueue (some 5) =
      .returned false (MediaQueue.construct 0 0) :=
  enqueue_fails_fast (MediaQueue.construct 0 0) (some 5) (Or.inr (Or.inr rfl))

/-- C7: `dequeue` returns null in its first segment (no wait) and leaves the whole state
unchanged whenever the queue `q` is locked or its `maxSize` is 0, whatever is queued; so it
does on any queue `r` right after `lock()` and right after `setLimit(0, 0)`, both of which
keep the queued items.  On an unlocked queue `s` with `maxSize > 0` whose deque is
`x :: rest`, it returns the front item `x` and leaves `rest`, nothing else changed. -/
theorem dequeue_fails_fast_or_pops {T C : Type} (q : MediaQueue T C)
    (h : q.locked_ = true ∨ q.maxSize_ = 0) (r : MediaQueue T C)
    (s : MediaQueue T C) (x : Option T) (rest : List (Option T))
    (hunlocked : s.locked_ = false) (hmax : 0 < s.maxSize_) (hs : s.queue_ = x :: rest) :
    q.dequeue = .returned none q ∧
      (r.lock.dequeue = .returned none r.lock ∧ r.lock.queue_ = r.queue_) ∧
      ((r.setLimit 0 0).dequeue = .returned none (r.setLimit 0 0) ∧
        (r.setLimit 0 0).queue_ = r.queue_) ∧
      s.dequeue = .returned x { s with queue_ := rest } := by
  have key : ∀ k : MediaQueue T C, k.locked_ = true ∨ k.maxSize_ = 0 →
      k.dequeue = .returned none k := by
    intro k hk
    unfold dequeue dequeueLoop
    rcases hk with hk | hk
    · simp [hk]
    · simp [hk]
  exact ⟨key q h, ⟨key _ (Or.inl rfl), rfl⟩, ⟨key _ (Or.inr rfl), rfl⟩,
    dequeue_of_front s x rest hunlocked hmax hs⟩

/-- Witness for C7: `fullQueue` after `lock()`, and `fullQueue` itself. -/
theorem dequeue_fails_fast_or_pops_witness :
    fullQueue.lock.dequeue = .returned none fullQueue.lock ∧
      (fullQueue.lock.dequeue = .returned none fullQueue.lock ∧
        fullQueue.lock.queue_ = fullQueue.queue_) ∧
      ((fullQueue.setLimit 0 0).dequeue = .returned none (fullQueue.setLimit 0 0) ∧
        (fullQueue.setLimit 0 0).queue_ = fullQueue.queue_) ∧
      fullQueue.dequeue = .returned (some 1) { fullQueue with queue_ := [some 2] } :=
  dequeue_fails_fast_or_pops fullQueue.lock (Or.inl rfl) fullQueue fullQueue (some 1) [some 2]
    rfl (by decide) rfl

/-- C8: in every reachable queue state with a dispose callback `f` installed, the queued
pointers are the non-null pointers to some items `x1..xN`, and `clear()` calls `f` exactly `N`
times, on `x1, ..., xN` in this order (one call per queued item, no `delete`), leaves the
deque empty and changes neither the teardown flag nor the limits nor the callback. -/
theorem clear_disposes_each_item_once {T C : Type} (q : MediaQueue T C)
    (hreach : QueueReachable q) (f : C) (hf : q.clearCallback_ = some f) :
    ∃ items : List T, q.queue_ = items.map some ∧
      q.clear.2 = items.map (Disposal.callback f) ∧
      q.clear.2.length = q.size ∧
      q.clear.1 = { q with queue_ := [] } := by
  have hnonnull := queue_nonnull_of_reachable q hreach
  have hitems : ∃ items : List T, q.queue_ = items.map some := by
    generalize q.queue_ = l at hnonnull
    induction l with
    | nil => exact ⟨[], rfl⟩
    | cons a l ih =>
      obtain ⟨items, hitems⟩ := ih (fun i hi => hnonnull i (List.mem_cons_of_mem _ hi))
      obtain ⟨x, hx⟩ := Option.ne_none_iff_exists.mp (hnonnull a (List.mem_cons_self _ _))
      exact ⟨x :: items, by rw [List.map_cons, ← hitems, hx]⟩
  obtain ⟨items, hitems⟩ := hitems
  refine ⟨items, hitems, ?_, ?_, ?_⟩
  · simp only [clear, hf, hitems, clearLoop_snd]
  · simp only [clear, hf, hitems, clearLoop_snd, size, List.length_map]
  · simp only [clear, clearLoop_fst]

theorem twoItemQueue_reachable : QueueReachable twoItemQueue :=
  QueueReachable.step _ _ (QueueReachable.step _ _ (QueueReachable.step _ _
    (QueueReachable.construct 0 2)))

/-- Witness for C8: `clear()` on `twoItemQueue`. -/
theorem clear_disposes_each_item_once_witness :
    ∃ items : List Nat, twoItemQueue.queue_ = items.map some ∧
      twoItemQueue.clear.2 = items.map (Disposal.callback ()) ∧
      twoItemQueue.clear.2.length = twoItemQueue.size ∧
      twoItemQueue.clear.1 = { twoItemQueue with queue_ := [] } :=
  clear_disposes_each_item_once twoItemQueue twoItemQueue_reachable () rfl

/-- C10: `setLimit(min, max)` stores `min` as `minSize` and `max(min, max)` as `maxSize` and
keeps the queued items, the teardown flag and the callback; the constructor stores
`max(minSize, maxSize)` as `maxSize`; and in every reachable queue state `r` (constructor,
any steps, move construction and move assignment) `maxSize ≥ minSize` holds. -/
theorem setLimit_keeps_min_le_max {T C : Type} (q : MediaQueue T C) (minSize maxSize : Nat)
    (r : MediaQueue T C) (hreach : QueueReachable r) :
    ((q.setLimit minSize maxSize).minSize_ = minSize ∧
      (q.setLimit minSize maxSize).maxSize_ = max minSize maxSize ∧
      (q.setLimit minSize maxSize).queue_ = q.queue_ ∧
      (q.setLimit minSize maxSize).locked_ = q.locked_ ∧
      (q.setLimit minSize maxSize).clearCallback_ = q.clearCallback_) ∧
    ((MediaQueue.construct minSize maxSize : MediaQueue T C).minSize_ = minSize ∧
      (MediaQueue.construct minSize maxSize : MediaQueue T C).maxSize_ = max minSize maxSize) ∧
    r.minSize_ ≤ r.maxSize_ :=
  ⟨⟨rfl, rfl, rfl, rfl, rfl⟩, ⟨rfl, rfl⟩, min_le_max_of_reachable r hreach⟩

/-- Witness for C10: `setLimit(5, 1)` on `fullQueue`, and the reachable `twoItemQueue`. -/
theorem setLimit_keeps_min_le_max_witness :
    (fullQueue.setLimit 5 1).maxSize_ = 5 ∧ twoItemQueue.minSize_ ≤ twoItemQueue.maxSize_ :=
  ⟨(setLimit_keeps_min_le_max fullQueue 5 1 twoItemQueue twoItemQueue_reachable).1.2.1,
    (setLimit_keeps_min_le_max fullQueue 5 1 twoItemQueue twoItemQueue_reachable).2.2⟩

/-! ## The clock update: characterisation -/

theorem updateClock_of_nominal_nonpos (m : AVSyncManager) (now : Int) (clock : Clock)
    (pts duration : ℚ) (audio : Bool) (h : nominalDuration m audio ≤ 0) :
    updateClock m now clock pts duration audio =
      (systemClock now, { clock with isValid := false, updateTime := systemClock now }) := by
  unfold nominalDuration at h
  simp only [updateClock, if_pos h]

theorem updateClock_of_nominal_pos (m : AVSyncManager) (now : Int) (clock : Clock)
    (pts duration : ℚ) (audio : Bool) (h : 0 < nominalDuration m audio) :
    updateClock m now clock pts duration audio =
      (systemClock now,
        { isValid := resolveValid clock.isValid clock.pts
            (resolveDuration (nominalDuration m audio) clock.duration duration) pts
          pts := resolvePts clock.pts
            (resolveDuration (nominalDuration m audio) clock.duration duration) pts
          duration := resolveDuration (nominalDuration m audio) clock.duration duration
          lastPts := clock.pts
          lastDuration := clock.duration
          updateTime := systemClock now }) := by
  have h0 : ¬ nominalDuration m audio ≤ 0 := not_le.mpr h
  unfold nominalDuration at h0 ⊢
  by_cases hd : duration ≤ 0
  · simp only [updateClock, if_neg h0, if_pos hd, resolveDuration, resolvePts, resolveValid]
    split_ifs <;> rfl
  · by_cases hdev : |duration - clock.duration| ≥ (if audio then m.aduration_ else m.vduration_) / 2 ∨
        |duration - (if audio then m.aduration_ else m.vduration_)| ≥
          (if audio then m.aduration_ else m.vduration_) / 2
    · simp only [updateClock, if_neg h0, if_neg hd, if_pos hdev, resolveDuration, resolvePts,
        resolveValid]
      split_ifs <;> rfl
    · simp only [updateClock, if_neg h0, if_neg hd, if_neg hdev, resolveDuration, resolvePts,
        resolveValid]
      split_ifs <;> rfl

/-! ## The synchronisation engine: control operations -/

/-- C12: from any engine state, `reset()` yields exactly the state of an engine freshly
constructed with the same nominal durations: both clocks at the defaults of `Clock`
(`isValid` false, `pts` 0, `lastPts` -1, `lastDuration` 0, `updateTime` 0) with `duration`
set to the nominal duration of the stream, `paused` false, `speed` 1, nominal durations
unchanged; and `reset()` is idempotent. -/
theorem reset_is_fresh_engine (m : AVSyncManager) :
    m.reset = AVSyncManager.create m.vduration_ m.aduration_ ∧
      m.reset =
        { vduration_ := m.vduration_
          aduration_ := m.aduration_
          paused_ := false
          speed_ := 1
          vclock_ :=
            { isValid := false, pts := 0, duration := m.vduration_, lastPts := -1,
              lastDuration := 0, updateTime := 0 }
          aclock_ :=
            { isValid := false, pts := 0, duration := m.aduration_, lastPts := -1,
              lastDuration := 0, updateTime := 0 } } ∧
      m.reset.reset = m.reset :=
  ⟨rfl, rfl, rfl⟩

/-- C13: `pause()` on a paused engine `m` and `resume()` on an unpaused engine `k` leave the
whole state unchanged, whatever the wall time; `pause()` on an unpaused engine `k` (resp.
`resume()` on a paused engine `m`) flips the pause flag and stamps both clocks' `updateTime`
with the wall time of the call, every other field of the clocks, the speed and the nominal
durations unchanged; hence a second `pause()` (resp. `resume()`) at a later wall time changes
nothing, on any engine `j`. -/
theorem pause_resume_idempotent (m : AVSyncManager) (hpaused : m.paused_ = true)
    (k : AVSyncManager) (hrunning : k.paused_ = false) (j : AVSyncManager) (now later : Int) :
    (m.pause now = m ∧ k.resume now = k) ∧
      k.pause now =
        { k with
          paused_ := true
          vclock_ := { k.vclock_ with updateTime := systemClock now }
          aclock_ := { k.aclock_ with updateTime := systemClock now } } ∧
      m.resume now =
        { m with
          paused_ := false
          vclock_ := { m.vclock_ with updateTime := systemClock now }
          aclock_ := { m.aclock_ with updateTime := systemClock now } } ∧
      ((j.pause now).pause later = j.pause now ∧
        (j.resume now).resume later = j.resume now) := by
  refine ⟨⟨?_, ?_⟩, ?_, ?_, ?_, ?_⟩
  · simp [pause, hpaused]
  · simp [resume, hrunning]
  · simp [pause, hrunning]
  · simp [resume, hpaused]
  · cases hj : j.paused_ <;> simp [pause, hj]
  · cases hj : j.paused_ <;> simp [resume, hj]

/-- Witness for C13: a fresh engine (unpaused) and the same engine after `pause()`. -/
theorem pause_resume_idempotent_witness :
    ((AVSyncManager.create (4 / 100) (2 / 100)).pause 5).pause 9 =
        (AVSyncManager.create (4 / 100) (2 / 100)).pause 5 ∧
      (AVSyncManager.create (4 / 100) (2 / 100)).resume 9 =
        AVSyncManager.create (4 / 100) (2 / 100) :=
  ⟨(pause_resume_idempotent ((AVSyncManager.create (4 / 100) (2 / 100)).pause 5)
      (pause_paused _ _) (AVSyncManager.create (4 / 100) (2 / 100)) rfl
      (AVSyncManager.create (4 / 100) (2 / 100)) 9 9).1.1,
    (pause_resume_idempotent ((AVSyncManager.create (4 / 100) (2 / 100)).pause 5)
      (pause_paused _ _) (AVSyncManager.create (4 / 100) (2 / 100)) rfl
      (AVSyncManager.create (4 / 100) (2 / 100)) 9 9).1.2⟩

/-! ## The clocks: invariants and frame properties -/

theorem updateAudioClock_eq (m : AVSyncManager) (now : Int) (pts duration : ℚ) :
    m.updateAudioClock now pts duration =
      if m.paused_ then m
      else { m with aclock_ := (updateClock m now m.aclock_ pts duration true).2 } :=
  rfl

/-- C16: when the nominal duration of the stream is `<= 0`, `updateClock` sets `isValid` to
false and `updateTime` to the wall time of the call, returns that time, and leaves `pts`,
`duration`, `lastPts` and `lastDuration` unchanged, for every incoming `pts` and `duration`
(the function is total: the call always returns). -/
theorem updateClock_without_nominal (m : AVSyncManager) (now : Int) (clock : Clock)
    (pts duration : ℚ) (audio : Bool)
    (hnominal : (if audio then m.aduration_ else m.vduration_) ≤ 0) :
    (updateClock m now clock pts duration audio).1 = systemClock now ∧
      (updateClock m now clock pts duration audio).2 =
        { isValid := false, pts := clock.pts, duration := clock.duration,
          lastPts := clock.lastPts, lastDuration := clock.lastDuration,
          updateTime := systemClock now } := by
  rw [updateClock_of_nominal_nonpos m now clock pts duration audio hnominal]
  exact ⟨rfl, rfl⟩

/-- Witness for C16: an engine built without nominal durations. -/
theorem updateClock_without_nominal_witness :
    (updateClock (AVSyncManager.create 0 0) 3000000 (AVSyncManager.create 0 0).vclock_ 1
        (4 / 100) false).1 = systemClock 3000000 ∧
      (updateClock (AVSyncManager.create 0 0) 3000000 (AVSyncManager.create 0 0).vclock_ 1
        (4 / 100) false).2 =
        { isValid := false, pts := (AVSyncManager.create 0 0).vclock_.pts,
          duration := (AVSyncManager.create 0 0).vclock_.duration,
          lastPts := (AVSyncManager.create 0 0).vclock_.lastPts,
          lastDuration := (AVSyncManager.create 0 0).vclock_.lastDuration,
          updateTime := systemClock 3000000 } :=
  updateClock_without_nominal (AVSyncManager.create 0 0) 3000000 _ 1 (4 / 100) false
    (le_refl 0)

theorem updateClock_congr_nominal (m1 m2 : AVSyncManager) (now : Int) (clock : Clock)
    (pts duration : ℚ) (audio : Bool) (h : nominalDuration m1 audio = nominalDuration m2 audio) :
    updateClock m1 now clock pts duration audio = updateClock m2 now clock pts duration audio := by
  rcases le_or_lt (nominalDuration m1 audio) 0 with h1 | h1
  · rw [updateClock_of_nominal_nonpos m1 now clock pts duration audio h1,
      updateClock_of_nominal_nonpos m2 now clock pts duration audio (h ▸ h1)]
  · rw [updateClock_of_nominal_pos m1 now clock pts duration audio h1,
      updateClock_of_nominal_pos m2 now clock pts duration audio (h ▸ h1), h]

/-- C15, as amended: `updateVideoClock` never modifies the audio clock; `updateAudioClock`
never modifies the video clock, the speed, the pause flag or the nominal durations; and the
audio clock after `updateAudioClock` depends only on the pause flag, the previous audio clock,
the nominal audio duration, the `pts` and `duration` of the call and the wall time: two
engines `m1`, `m2` that agree on these (and may differ in speed, video clock and nominal video
duration) end with the same audio clock. -/
theorem audio_is_master (m : AVSyncManager) (now : Int) (pts duration : ℚ)
    (m1 m2 : AVSyncManager) (hpause : m1.paused_ = m2.paused_)
    (hclock : m1.aclock_ = m2.aclock_) (hnominal : m1.aduration_ = m2.aduration_) :
    (m.updateVideoClock now pts duration).1.aclock_ = m.aclock_ ∧
      ((m.updateAudioClock now pts duration).vclock_ = m.vclock_ ∧
        (m.updateAudioClock now pts duration).speed_ = m.speed_ ∧
        (m.updateAudioClock now pts duration).paused_ = m.paused_ ∧
        (m.updateAudioClock now pts duration).vduration_ = m.vduration_ ∧
        (m.updateAudioClock now pts duration).aduration_ = m.aduration_) ∧
      (m1.updateAudioClock now pts duration).aclock_ =
        (m2.updateAudioClock now pts duration).aclock_ := by
  refine ⟨?_, ?_, ?_⟩
  · rw [updateVideoClock_fst]
    split_ifs <;> rfl
  · rw [updateAudioClock_eq]
    split_ifs <;> exact ⟨rfl, rfl, rfl, rfl, rfl⟩
  · rw [updateAudioClock_eq, updateAudioClock_eq, hpause]
    split_ifs
    · exact hclock
    · show (updateClock m1 now m1.aclock_ pts duration true).2 =
        (updateClock m2 now m2.aclock_ pts duration true).2
      rw [hclock, updateClock_congr_nominal m1 m2 now m2.aclock_ pts duration true hnominal]

/-- Witness for C15 as amended: two fresh engines that differ in speed and in the nominal
video duration. -/
theorem audio_is_master_witness :
    (((AVSyncManager.create (4 / 100) (2 / 100)).setSpeed 2).updateAudioClock 0 1
        (2 / 100)).aclock_ =
      ((AVSyncManager.create (5 / 100) (2 / 100)).updateAudioClock 0 1 (2 / 100)).aclock_ :=
  (audio_is_master (AVSyncManager.create (4 / 100) (2 / 100)) 0 1 (2 / 100)
    ((AVSyncManager.create (4 / 100) (2 / 100)).setSpeed 2)
    (AVSyncManager.create (5 / 100) (2 / 100))
    (by unfold setSpeed; split_ifs <;> rfl) (by unfold setSpeed; split_ifs <;> rfl)
    (by unfold setSpeed; split_ifs <;> rfl)).2.2

/-- Counterexample to C15 as stated: a fresh engine and the same engine paused at wall time 0
have the same audio clock and the same nominal audio duration, yet the same call
`updateAudioClock(-1, 0.04)` at the same wall time makes the audio clock of the first valid
at `pts = 0.04` and leaves that of the second untouched: the result depends on the pause flag
too. -/
theorem audio_clock_depends_on_pause_flag :
    (AVSyncManager.create (4 / 100) (4 / 100)).aclock_ =
        ((AVSyncManager.create (4 / 100) (4 / 100)).pause 0).aclock_ ∧
      (AVSyncManager.create (4 / 100) (4 / 100)).aduration_ =
        ((AVSyncManager.create (4 / 100) (4 / 100)).pause 0).aduration_ ∧
      ((AVSyncManager.create (4 / 100) (4 / 100)).updateAudioClock 0 (-1) (4 / 100)).aclock_ =
        { isValid := true, pts := 4 / 100, duration := 4 / 100, lastPts := 0,
          lastDuration := 4 / 100, updateTime := 0 } ∧
      (((AVSyncManager.create (4 / 100) (4 / 100)).pause 0).updateAudioClock 0 (-1)
          (4 / 100)).aclock_ =
        { isValid := false, pts := 0, duration := 4 / 100, lastPts := -1,
          lastDuration := 0, updateTime := 0 } ∧
      ((AVSyncManager.create (4 / 100) (4 / 100)).updateAudioClock 0 (-1) (4 / 100)).aclock_ ≠
        (((AVSyncManager.create (4 / 100) (4 / 100)).pause 0).updateAudioClock 0 (-1)
          (4 / 100)).aclock_ := by
  have h1 : ((AVSyncManager.create (4 / 100) (4 / 100)).updateAudioClock 0 (-1)
      (4 / 100)).aclock_ =
      { isValid := true, pts := 4 / 100, duration := 4 / 100, lastPts := 0,
        lastDuration := 4 / 100, updateTime := 0 } := by
    norm_num [updateAudioClock, updateClock, AVSyncManager.create, Clock.default, systemClock]
  have h2 : (((AVSyncManager.create (4 / 100) (4 / 100)).pause 0).updateAudioClock 0 (-1)
      (4 / 100)).aclock_ =
      { isValid := false, pts := 0, duration := 4 / 100, lastPts := -1,
        lastDuration := 0, updateTime := 0 } := by
    norm_num [updateAudioClock, pause, AVSyncManager.create, Clock.default, systemClock]
  refine ⟨?_, rfl, h1, h2, ?_⟩
  · norm_num [pause, AVSyncManager.create, Clock.default, systemClock]
  · rw [h1, h2]
    simp

/-- C17: with a positive nominal duration, for every clock whose `pts` is `p >= 0`, an update
with incoming `pts < 0` sets the clock's `pts` to `p` plus the duration stored by this update
and `isValid` to true; e.g. on a stream of nominal duration 0.04, a clock at `pts = 2`
(valid or not, whatever its other fields) updated with `pts = -1`, `duration = 0.04` ends at
`pts = 2.04`, valid. -/
theorem updateClock_resync (m : AVSyncManager) (now : Int) (clock : Clock) (pts duration : ℚ)
    (audio : Bool) (hnominal : 0 < (if audio then m.aduration_ else m.vduration_))
    (hclock : 0 ≤ clock.pts) (hpts : pts < 0)
    (k : AVSyncManager) (audio2 : Bool) (clock2 : Clock)
    (hnominal2 : (if audio2 then k.aduration_ else k.vduration_) = 4 / 100)
    (hclock2 : clock2.pts = 2) :
    ((updateClock m now clock pts duration audio).2.pts =
        clock.pts + (updateClock m now clock pts duration audio).2.duration ∧
      (updateClock m now clock pts duration audio).2.isValid = true) ∧
    ((updateClock k now clock2 (-1) (4 / 100) audio2).2.pts = 204 / 100 ∧
      (updateClock k now clock2 (-1) (4 / 100) audio2).2.isValid = true) := by
  have key : ∀ (j : AVSyncManager) (c : Clock) (p d : ℚ) (a : Bool),
      0 < nominalDuration j a → 0 ≤ c.pts → p < 0 →
      (updateClock j now c p d a).2.pts = c.pts + (updateClock j now c p d a).2.duration ∧
        (updateClock j now c p d a).2.isValid = true := by
    intro j c p d a hn hc hp
    rw [updateClock_of_nominal_pos j now c p d a hn]
    simp [resolvePts, resolveValid, hp, hc]
  have hk : 0 < nominalDuration k audio2 := by
    unfold nominalDuration
    rw [hnominal2]
    norm_num
  have hd : (updateClock k now clock2 (-1) (4 / 100) audio2).2.duration = 4 / 100 := by
    rw [updateClock_of_nominal_pos k now clock2 (-1) (4 / 100) audio2 hk]
    show resolveDuration (nominalDuration k audio2) clock2.duration (4 / 100) = 4 / 100
    unfold nominalDuration
    rw [hnominal2]
    unfold resolveDuration
    split_ifs <;> rfl
  refine ⟨key m clock pts duration audio hnominal hclock hpts, ?_⟩
  have h2 := key k clock2 (-1) (4 / 100) audio2 hk (by rw [hclock2]; norm_num) (by norm_num)
  rw [hd, hclock2] at h2
  exact ⟨by rw [h2.1]; norm_num, h2.2⟩

/-- Witness for C17: the audio clock of a 0.04 stream, valid at `pts = 2`. -/
theorem updateClock_resync_witness :
    (updateClock (AVSyncManager.create (4 / 100) (4 / 100)) 0
        { isValid := true, pts := 2, duration := 4 / 100, lastPts := 196 / 100,
          lastDuration := 4 / 100, updateTime := 0 } (-1) (4 / 100) true).2.pts = 204 / 100 ∧
      (updateClock (AVSyncManager.create (4 / 100) (4 / 100)) 0
        { isValid := true, pts := 2, duration := 4 / 100, lastPts := 196 / 100,
          lastDuration := 4 / 100, updateTime := 0 } (-1) (4 / 100) true).2.isValid = true :=
  (updateClock_resync (AVSyncManager.create (4 / 100) (4 / 100)) 0
    { isValid := true, pts := 2, duration := 4 / 100, lastPts := 196 / 100,
      lastDuration := 4 / 100, updateTime := 0 } (-1) (4 / 100) true
    (by norm_num [AVSyncManager.create]) (by norm_num) (by norm_num)
    (AVSyncManager.create (4 / 100) (4 / 100)) true
    { isValid := true, pts := 2, duration := 4 / 100, lastPts := 196 / 100,
      lastDuration := 4 / 100, updateTime := 0 } rfl rfl).2

theorem updateAudioClock_of_running (m : AVSyncManager) (now : Int) (pts duration : ℚ)
    (h : m.paused_ = false) :
    m.updateAudioClock now pts duration =
      { m with aclock_ := (updateClock m now m.aclock_ pts duration true).2 } := by
  rw [updateAudioClock_eq]
  simp [h]

theorem updateVideoClock_of_running (m : AVSyncManager) (now : Int) (pts duration : ℚ)
    (h : m.paused_ = false) :
    (m.updateVideoClock now pts duration).1 =
      { m with vclock_ := (updateClock m now m.vclock_ pts duration false).2 } := by
  rw [updateVideoClock_fst]
  simp [h, afterVideoUpdate]

/-- C18: with a positive nominal duration, an update with incoming `pts` exactly 0 leaves the
clock's `pts` at 0 and leaves `isValid` true if and only if the clock's `pts` before the
update was exactly 0; so feeding `pts = 0` twice in a row to a fresh engine (audio stream of
nominal duration `a > 0`, video stream of nominal duration `v > 0`, any incoming durations)
yields a valid clock both times. -/
theorem updateClock_zero_pts (m : AVSyncManager) (now : Int) (clock : Clock) (duration : ℚ)
    (audio : Bool) (hnominal : 0 < (if audio then m.aduration_ else m.vduration_))
    (v a : ℚ) (hv : 0 < v) (ha : 0 < a) (now1 now2 : Int) (d1 d2 : ℚ) :
    ((updateClock m now clock 0 duration audio).2.pts = 0 ∧
      ((updateClock m now clock 0 duration audio).2.isValid = true ↔ clock.pts = 0)) ∧
    (((AVSyncManager.create v a).updateAudioClock now1 0 d1).aclock_.isValid = true ∧
      (((AVSyncManager.create v a).updateAudioClock now1 0 d1).updateAudioClock
        now2 0 d2).aclock_.isValid = true) ∧
    (((AVSyncManager.create v a).updateVideoClock now1 0 d1).1.vclock_.isValid = true ∧
      ((((AVSyncManager.create v a).updateVideoClock now1 0 d1).1.updateVideoClock
        now2 0 d2).1).vclock_.isValid = true) := by
  have key : ∀ (j : AVSyncManager) (t : Int) (c : Clock) (d : ℚ) (b : Bool),
      0 < nominalDuration j b →
      (updateClock j t c 0 d b).2.pts = 0 ∧
        ((updateClock j t c 0 d b).2.isValid = true ↔ c.pts = 0) := by
    intro j t c d b hn
    rw [updateClock_of_nominal_pos j t c 0 d b hn]
    simp [resolvePts, resolveValid]
  refine ⟨key m now clock duration audio hnominal, ?_, ?_⟩
  · have h1 := key (AVSyncManager.create v a) now1 (AVSyncManager.create v a).aclock_ d1 true ha
    have e1 := updateAudioClock_of_running (AVSyncManager.create v a) now1 0 d1 rfl
    rw [e1]
    refine ⟨h1.2.mpr rfl, ?_⟩
    rw [updateAudioClock_of_running _ now2 0 d2 rfl]
    exact (key { AVSyncManager.create v a with
      aclock_ := (updateClock (AVSyncManager.create v a) now1
        (AVSyncManager.create v a).aclock_ 0 d1 true).2 } now2 _ d2 true ha).2.mpr h1.1
  · have h1 := key (AVSyncManager.create v a) now1 (AVSyncManager.create v a).vclock_ d1 false hv
    have e1 := updateVideoClock_of_running (AVSyncManager.create v a) now1 0 d1 rfl
    rw [e1]
    refine ⟨h1.2.mpr rfl, ?_⟩
    rw [updateVideoClock_of_running _ now2 0 d2 rfl]
    exact (key { AVSyncManager.create v a with
      vclock_ := (updateClock (AVSyncManager.create v a) now1
        (AVSyncManager.create v a).vclock_ 0 d1 false).2 } now2 _ d2 false hv).2.mpr h1.1

/-- Witness for C18: a video clock at `pts = 0.5` fed `pts = 0` becomes invalid at `pts = 0`,
and a fresh engine with nominal durations 0.04 and 0.02 fed `pts = 0` twice. -/
theorem updateClock_zero_pts_witness :
    ((updateClock (AVSyncManager.create (4 / 100) (2 / 100)) 0
        { isValid := true, pts := 1 / 2, duration := 4 / 100, lastPts := 46 / 100,
          lastDuration := 4 / 100, updateTime := 0 } 0 (4 / 100) false).2.pts = 0 ∧
      ((updateClock (AVSyncManager.create (4 / 100) (2 / 100)) 0
        { isValid := true, pts := 1 / 2, duration := 4 / 100, lastPts := 46 / 100,
          lastDuration := 4 / 100, updateTime := 0 } 0 (4 / 100) false).2.isValid = true ↔
        (1 / 2 : ℚ) = 0)) ∧
    (((AVSyncManager.create (4 / 100) (2 / 100)).updateAudioClock 0 0
        (2 / 100)).aclock_.isValid = true ∧
      (((AVSyncManager.create (4 / 100) (2 / 100)).updateAudioClock 0 0
        (2 / 100)).updateAudioClock 1 0 (2 / 100)).aclock_.isValid = true) :=
  ⟨(updateClock_zero_pts (AVSyncManager.create (4 / 100) (2 / 100)) 0
      { isValid := true, pts := 1 / 2, duration := 4 / 100, lastPts := 46 / 100,
        lastDuration := 4 / 100, updateTime := 0 } (4 / 100) false
      (by norm_num [AVSyncManager.create]) (4 / 100) (2 / 100) (by norm_num) (by norm_num)
      0 1 (2 / 100) (2 / 100)).1,
    (updateClock_zero_pts (AVSyncManager.create (4 / 100) (2 / 100)) 0
      { isValid := true, pts := 1 / 2, duration := 4 / 100, lastPts := 46 / 100,
        lastDuration := 4 / 100, updateTime := 0 } (4 / 100) false
      (by norm_num [AVSyncManager.create]) (4 / 100) (2 / 100) (by norm_num) (by norm_num)
      0 1 (2 / 100) (2 / 100)).2.1⟩

/-! ## Clock continuity -/

theorem truncToInt_mono (x y : ℚ) (hx : 0 ≤ x) (hxy : x ≤ y) : truncToInt x ≤ truncToInt y := by
  unfold truncToInt
  rw [if_pos hx, if_pos (hx.trans hxy)]
  exact Int.floor_mono hxy

theorem truncToInt_intCast (n : Int) (h : 0 ≤ n) : truncToInt (n : ℚ) = n := by
  unfold truncToInt
  rw [if_pos (by exact_mod_cast h), Int.floor_intCast]

theorem clamp_mono (x y : ℚ) (h : x ≤ y) :
    max (1 / 1000) (min x (1 / 10)) ≤ max (1 / 1000) (min y (1 / 10)) :=
  max_le_max (le_refl _) (min_le_min h (le_refl _))

theorem clamp_scale_up (b k : ℚ) (hk : 1 ≤ k) :
    max (1 / 1000) (min b (1 / 10)) ≤ max (1 / 1000) (min (b * k) (1 / 10)) := by
  rcases le_or_lt 0 b with hb | hb
  · exact clamp_mono _ _ (by nlinarith)
  · have : max (1 / 1000) (min b (1 / 10)) = 1 / 1000 :=
      max_eq_left ((min_le_left _ _).trans (by linarith))
    rw [this]
    exact le_max_left _ _

theorem clamp_scale_down (b k : ℚ) (hk0 : 0 < k) (hk : k ≤ 1) :
    max (1 / 1000) (min (b * k) (1 / 10)) ≤ max (1 / 1000) (min b (1 / 10)) := by
  rcases le_or_lt 0 b with hb | hb
  · exact clamp_mono _ _ (by nlinarith)
  · have hneg : b * k < 0 := mul_neg_of_neg_of_pos hb hk0
    have : max (1 / 1000) (min (b * k) (1 / 10)) = 1 / 1000 :=
      max_eq_left ((min_le_left _ _).trans (by linarith))
    rw [this]
    exact le_max_left _ _

theorem adjustDelay_zero (speed delay : ℚ) : adjustDelay speed 0 delay = delay := by
  unfold adjustDelay
  norm_num

theorem adjustDelay_ahead (speed diff delay : ℚ) (h : 0 < diff) :
    ∃ k : ℚ, 1 ≤ k ∧ adjustDelay speed diff delay = delay * k := by
  unfold adjustDelay
  split_ifs
  all_goals first
    | exact ⟨15 / 10, by norm_num, rfl⟩
    | exact ⟨11 / 10, by norm_num, rfl⟩
    | exact ⟨12 / 10, by norm_num, rfl⟩
    | exact ⟨105 / 100, by norm_num, rfl⟩
    | exact ⟨1, le_refl 1, (mul_one _).symm⟩
    | (exfalso; linarith)

theorem adjustDelay_behind (speed diff delay : ℚ) (h : diff < 0) :
    ∃ k : ℚ, 0 < k ∧ k ≤ 1 ∧ adjustDelay speed diff delay = delay * k := by
  unfold adjustDelay
  split_ifs
  all_goals first
    | (exfalso; linarith)
    | exact ⟨5 / 10, by norm_num, by norm_num, rfl⟩
    | exact ⟨9 / 10, by norm_num, by norm_num, rfl⟩
    | exact ⟨8 / 10, by norm_num, by norm_num, rfl⟩
    | exact ⟨95 / 100, by norm_num, by norm_num, rfl⟩
    | exact ⟨1, by norm_num, le_refl 1, (mul_one _).symm⟩

theorem clamp_millis_nonneg (x : ℚ) : 0 ≤ max (1 / 1000) (min x (1 / 10)) * 1000 := by
  have h : (1 : ℚ) / 1000 ≤ max (1 / 1000) (min x (1 / 10)) := le_max_left _ _
  linarith

theorem drift_of_valid (m : AVSyncManager) (now : Int) (pts duration : ℚ)
    (ha : m.aclock_.isValid = true)
    (hv : (updateClock m now m.vclock_ pts duration false).2.isValid = true) :
    drift (afterVideoUpdate m now pts duration) =
      ((updateClock m now m.vclock_ pts duration false).2.pts - m.aclock_.pts) / m.speed_ := by
  unfold drift afterVideoUpdate
  simp only [ha, hv, Bool.and_self, if_true]

theorem updateVideoClock_level (m : AVSyncManager) (now : Int) (pts duration : ℚ)
    (hrun : m.paused_ = false) (hlevel : drift (afterVideoUpdate m now pts duration) = 0) :
    (m.updateVideoClock now pts duration).2 =
      truncToInt (max (1 / 1000)
        (min ((updateClock m now m.vclock_ pts duration false).2.duration / m.speed_)
          (1 / 10)) * 1000) := by
  rw [updateVideoClock_eq, if_neg (by simp [hrun]), hlevel, if_neg (by norm_num),
    adjustDelay_zero]
  rfl

/-- When the drift is positive the sleep is at least the sleep of the clamped base delay. -/
theorem updateVideoClock_ahead (m : AVSyncManager) (now : Int) (pts duration : ℚ)
    (hrun : m.paused_ = false) (hahead : 0 < drift (afterVideoUpdate m now pts duration)) :
    truncToInt (max (1 / 1000)
        (min ((updateClock m now m.vclock_ pts duration false).2.duration / m.speed_)
          (1 / 10)) * 1000) ≤ (m.updateVideoClock now pts duration).2 := by
  rw [updateVideoClock_eq, if_neg (by simp [hrun]), if_neg (by linarith)]
  obtain ⟨k, hk, hadj⟩ := adjustDelay_ahead m.speed_ (drift (afterVideoUpdate m now pts duration))
    ((afterVideoUpdate m now pts duration).vclock_.duration / m.speed_) hahead
  rw [hadj]
  exact truncToInt_mono _ _ (clamp_millis_nonneg _)
    (mul_le_mul_of_nonneg_right (clamp_scale_up _ k hk) (by norm_num))

/-- When the drift is negative the sleep is at most the sleep of the clamped base delay. -/
theorem updateVideoClock_behind (m : AVSyncManager) (now : Int) (pts duration : ℚ)
    (hrun : m.paused_ = false) (hbehind : drift (afterVideoUpdate m now pts duration) < 0) :
    (m.updateVideoClock now pts duration).2 ≤
      truncToInt (max (1 / 1000)
        (min ((updateClock m now m.vclock_ pts duration false).2.duration / m.speed_)
          (1 / 10)) * 1000) := by
  rw [updateVideoClock_eq, if_neg (by simp [hrun])]
  split_ifs with hfar
  · exact (truncToInt_clamp _).1
  · obtain ⟨k, hk0, hk, hadj⟩ := adjustDelay_behind m.speed_
      (drift (afterVideoUpdate m now pts duration))
      ((afterVideoUpdate m now pts duration).vclock_.duration / m.speed_) hbehind
    rw [hadj]
    exact truncToInt_mono _ _ (clamp_millis_nonneg _)
      (mul_le_mul_of_nonneg_right (clamp_scale_down _ k hk0 hk) (by norm_num))

theorem truncToInt_clamp_eq (x : ℚ) (n : Int) (h1 : 1 / 1000 ≤ x) (h2 : x ≤ 1 / 10)
    (hn : x * 1000 = (n : ℚ)) :
    truncToInt (max (1 / 1000) (min x (1 / 10)) * 1000) = n := by
  rw [min_eq_left h2, max_eq_right h1, hn]
  apply truncToInt_intCast
  have : (0 : ℚ) ≤ (n : ℚ) := by rw [← hn]; linarith
  exact_mod_cast this

theorem aheadEngine_eq :
    aheadEngine =
      { vduration_ := 4 / 100, aduration_ := 4 / 100, paused_ := false, speed_ := 1,
        vclock_ := { Clock.default with duration := 4 / 100 },
        aclock_ :=
          { isValid := true, pts := 0, duration := 4 / 100, lastPts := 0,
            lastDuration := 4 / 100, updateTime := 0 } } := by
  norm_num [aheadEngine, updateAudioClock, updateClock, AVSyncManager.create, Clock.default,
    systemClock]

theorem levelEngine_eq :
    levelEngine =
      { vduration_ := 4 / 100, aduration_ := 4 / 100, paused_ := false, speed_ := 1,
        vclock_ := { Clock.default with duration := 4 / 100 },
        aclock_ :=
          { isValid := true, pts := 4 / 100, duration := 4 / 100, lastPts := 0,
            lastDuration := 4 / 100, updateTime := 0 } } := by
  norm_num [levelEngine, updateAudioClock, updateClock, AVSyncManager.create, Clock.default,
    systemClock]

theorem behindEngine_eq :
    behindEngine =
      { vduration_ := 4 / 100, aduration_ := 4 / 100, paused_ := false, speed_ := 1,
        vclock_ := { Clock.default with duration := 4 / 100 },
        aclock_ :=
          { isValid := true, pts := 8 / 100, duration := 4 / 100, lastPts := 4 / 100,
            lastDuration := 4 / 100, updateTime := 0 } } := by
  rw [behindEngine, levelEngine_eq]
  norm_num [updateAudioClock, updateClock, Clock.default, systemClock]

/-- The first video update, with an unknown `pts`, of an engine whose video stream has the
nominal duration 0.04 and whose video clock is fresh. -/
theorem first_video_update (m : AVSyncManager) (hnominal : m.vduration_ = 4 / 100)
    (hclock : m.vclock_ = { Clock.default with duration := 4 / 100 }) :
    (updateClock m 0 m.vclock_ (-1) (4 / 100) false).2 =
      { isValid := true, pts := 4 / 100, duration := 4 / 100, lastPts := 0,
        lastDuration := 4 / 100, updateTime := 0 } := by
  rw [hclock]
  norm_num [updateClock, hnominal, Clock.default, systemClock]

/-- C20, as amended: take an unpaused engine `m` with both clocks valid after the video update
and an unpaused engine `m0` with both clocks valid and drift 0 after its video update, the two
having the same base delay (video clock duration divided by speed), at the same speed or not.
When
video is ahead of audio in `m` (`diff > 0`) the sleep stored for `m` is never smaller than the
sleep stored for `m0` (video waits longer); when video is behind audio in `m` (`diff < 0`) it
is never larger (video waits less). -/
theorem correction_direction (m m0 : AVSyncManager) (now now0 : Int)
    (pts duration pts0 duration0 : ℚ)
    (hrun : m.paused_ = false) (hrun0 : m0.paused_ = false)
    (ha : m.aclock_.isValid = true)
    (hv : (updateClock m now m.vclock_ pts duration false).2.isValid = true)
    (ha0 : m0.aclock_.isValid = true)
    (hv0 : (updateClock m0 now0 m0.vclock_ pts0 duration0 false).2.isValid = true)
    (hbase : (updateClock m now m.vclock_ pts duration false).2.duration / m.speed_ =
      (updateClock m0 now0 m0.vclock_ pts0 duration0 false).2.duration / m0.speed_)
    (hlevel : ((updateClock m0 now0 m0.vclock_ pts0 duration0 false).2.pts - m0.aclock_.pts) /
      m0.speed_ = 0) :
    (0 < ((updateClock m now m.vclock_ pts duration false).2.pts - m.aclock_.pts) / m.speed_ →
        (m0.updateVideoClock now0 pts0 duration0).2 ≤ (m.updateVideoClock now pts duration).2) ∧
      (((updateClock m now m.vclock_ pts duration false).2.pts - m.aclock_.pts) / m.speed_ < 0 →
        (m.updateVideoClock now pts duration).2 ≤ (m0.updateVideoClock now0 pts0 duration0).2) := by
  have hd := drift_of_valid m now pts duration ha hv
  have hd0 := drift_of_valid m0 now0 pts0 duration0 ha0 hv0
  have h0 := updateVideoClock_level m0 now0 pts0 duration0 hrun0 (hd0.trans hlevel)
  rw [h0, ← hbase]
  constructor
  · intro hahead
    exact updateVideoClock_ahead m now pts duration hrun (hd ▸ hahead)
  · intro hbehind
    exact updateVideoClock_behind m now pts duration hrun (hd ▸ hbehind)

theorem aheadEngine_sleep : (aheadEngine.updateVideoClock 0 (-1) (4 / 100)).2 = 48 := by
  have hc := first_video_update aheadEngine (by rw [aheadEngine_eq]) (by rw [aheadEngine_eq])
  have hrun : aheadEngine.paused_ = false := by rw [aheadEngine_eq]
  rw [updateVideoClock_eq, if_neg (by simp [hrun])]
  have hdrift : drift (afterVideoUpdate aheadEngine 0 (-1) (4 / 100)) = 4 / 100 := by
    rw [drift_of_valid _ _ _ _ (by rw [aheadEngine_eq]) (by rw [hc]), hc, aheadEngine_eq]
    norm_num
  have hspeed : aheadEngine.speed_ = 1 := by rw [aheadEngine_eq]
  have hdur : (afterVideoUpdate aheadEngine 0 (-1) (4 / 100)).vclock_.duration = 4 / 100 := by
    show (updateClock aheadEngine 0 aheadEngine.vclock_ (-1) (4 / 100) false).2.duration = _
    rw [hc]
  rw [hdrift, hdur, hspeed, if_neg (by norm_num)]
  have hadj : adjustDelay 1 (4 / 100) (4 / 100 / 1) = 48 / 1000 := by
    unfold adjustDelay
    norm_num
  rw [hadj]
  exact truncToInt_clamp_eq _ 48 (by norm_num) (by norm_num) (by norm_num)

theorem levelEngine_sleep : (levelEngine.updateVideoClock 0 (-1) (4 / 100)).2 = 40 := by
  have hc := first_video_update levelEngine (by rw [levelEngine_eq]) (by rw [levelEngine_eq])
  have hrun : levelEngine.paused_ = false := by rw [levelEngine_eq]
  have hdrift : drift (afterVideoUpdate levelEngine 0 (-1) (4 / 100)) = 0 := by
    rw [drift_of_valid _ _ _ _ (by rw [levelEngine_eq]) (by rw [hc]), hc, levelEngine_eq]
    norm_num
  rw [updateVideoClock_level _ _ _ _ hrun hdrift, hc]
  have hspeed : levelEngine.speed_ = 1 := by rw [levelEngine_eq]
  rw [hspeed]
  exact truncToInt_clamp_eq _ 40 (by norm_num) (by norm_num) (by norm_num)

theorem behindEngine_sleep : (behindEngine.updateVideoClock 0 (-1) (4 / 100)).2 = 32 := by
  have hc := first_video_update behindEngine (by rw [behindEngine_eq]) (by rw [behindEngine_eq])
  have hrun : behindEngine.paused_ = false := by rw [behindEngine_eq]
  rw [updateVideoClock_eq, if_neg (by simp [hrun])]
  have hdrift : drift (afterVideoUpdate behindEngine 0 (-1) (4 / 100)) = -(4 / 100) := by
    rw [drift_of_valid _ _ _ _ (by rw [behindEngine_eq]) (by rw [hc]), hc, behindEngine_eq]
    norm_num
  have hspeed : behindEngine.speed_ = 1 := by rw [behindEngine_eq]
  have hdur : (afterVideoUpdate behindEngine 0 (-1) (4 / 100)).vclock_.duration = 4 / 100 := by
    show (updateClock behindEngine 0 behindEngine.vclock_ (-1) (4 / 100) false).2.duration = _
    rw [hc]
  rw [hdrift, hdur, hspeed, if_neg (by norm_num)]
  have hadj : adjustDelay 1 (-(4 / 100)) (4 / 100 / 1) = 32 / 1000 := by
    unfold adjustDelay
    norm_num
  rw [hadj]
  exact truncToInt_clamp_eq _ 32 (by norm_num) (by norm_num) (by norm_num)

/-- Witness for C20 as amended: `aheadEngine` (video 0.04 ahead of audio after the update)
against `levelEngine` (drift 0), both at speed 1 with base delay 0.04. -/
theorem correction_direction_witness :
    (levelEngine.updateVideoClock 0 (-1) (4 / 100)).2 ≤
      (aheadEngine.updateVideoClock 0 (-1) (4 / 100)).2 :=
  (correction_direction aheadEngine levelEngine 0 0 (-1) (4 / 100) (-1) (4 / 100)
    (by rw [aheadEngine_eq]) (by rw [levelEngine_eq])
    (by rw [aheadEngine_eq])
    (by rw [first_video_update aheadEngine (by rw [aheadEngine_eq]) (by rw [aheadEngine_eq])])
    (by rw [levelEngine_eq])
    (by rw [first_video_update levelEngine (by rw [levelEngine_eq]) (by rw [levelEngine_eq])])
    (by
      rw [first_video_update aheadEngine (by rw [aheadEngine_eq]) (by rw [aheadEngine_eq]),
        first_video_update levelEngine (by rw [levelEngine_eq]) (by rw [levelEngine_eq]),
        aheadEngine_eq, levelEngine_eq])
    (by
      rw [first_video_update levelEngine (by rw [levelEngine_eq]) (by rw [levelEngine_eq]),
        levelEngine_eq]
      norm_num)).1
    (by
      rw [first_video_update aheadEngine (by rw [aheadEngine_eq]) (by rw [aheadEngine_eq]),
        aheadEngine_eq]
      norm_num)

/-- Counterexample to C20 as stated: three reachable engines at speed 1 whose video update
(unknown `pts`, duration 0.04) leaves both clocks valid with base delay 0.04.  With drift 0
(`levelEngine`) the call stores 40; with video 0.04 ahead of audio (`aheadEngine`) it stores
48, which is larger, not smaller; with video 0.04 behind audio (`behindEngine`) it stores 32,
which is smaller, not larger. -/
theorem correction_direction_is_reversed :
    (levelEngine.updateVideoClock 0 (-1) (4 / 100)).2 = 40 ∧
      (aheadEngine.updateVideoClock 0 (-1) (4 / 100)).2 = 48 ∧
      (behindEngine.updateVideoClock 0 (-1) (4 / 100)).2 = 32 ∧
      drift (afterVideoUpdate levelEngine 0 (-1) (4 / 100)) = 0 ∧
      drift (afterVideoUpdate aheadEngine 0 (-1) (4 / 100)) = 4 / 100 ∧
      drift (afterVideoUpdate behindEngine 0 (-1) (4 / 100)) = -(4 / 100) ∧
      ¬ (aheadEngine.updateVideoClock 0 (-1) (4 / 100)).2 ≤
        (levelEngine.updateVideoClock 0 (-1) (4 / 100)).2 ∧
      ¬ (levelEngine.updateVideoClock 0 (-1) (4 / 100)).2 ≤
        (behindEngine.updateVideoClock 0 (-1) (4 / 100)).2 := by
  have ha := first_video_update aheadEngine (by rw [aheadEngine_eq]) (by rw [aheadEngine_eq])
  have hl := first_video_update levelEngine (by rw [levelEngine_eq]) (by rw [levelEngine_eq])
  have hb := first_video_update behindEngine (by rw [behindEngine_eq]) (by rw [behindEngine_eq])
  refine ⟨levelEngine_sleep, aheadEngine_sleep, behindEngine_sleep, ?_, ?_, ?_, ?_, ?_⟩
  · rw [drift_of_valid _ _ _ _ (by rw [levelEngine_eq]) (by rw [hl]), hl, levelEngine_eq]
    norm_num
  · rw [drift_of_valid _ _ _ _ (by rw [aheadEngine_eq]) (by rw [ha]), ha, aheadEngine_eq]
    norm_num
  · rw [drift_of_valid _ _ _ _ (by rw [behindEngine_eq]) (by rw [hb]), hb, behindEngine_eq]
    norm_num
  · rw [aheadEngine_sleep, levelEngine_sleep]
    norm_num
  · rw [levelEngine_sleep, behindEngine_sleep]
    norm_num

/-! ## The delay table -/

theorem adjustDelay_eq_table (speed diff delay : ℚ) (h : -(1 / 10) < diff) :
    adjustDelay speed diff delay = tableMultiplier speed diff * delay := by
  unfold adjustDelay tableMultiplier
  split_ifs
  all_goals first
    | (exfalso; linarith)
    | ring1

theorem tableMultiplier_pos (speed diff : ℚ) : 0 < tableMultiplier speed diff := by
  unfold tableMultiplier
  split_ifs <;> norm_num

theorem tableMultiplier_mono (speed d1 d2 : ℚ) (h : d1 ≤ d2) :
    tableMultiplier speed d1 ≤ tableMultiplier speed d2 := by
  unfold tableMultiplier
  split_ifs
  all_goals first
    | (exfalso; linarith)
    | norm_num

/-! ## Monotonicity of the sleep in the drift -/

theorem clamp_scale_mono (b k1 k2 : ℚ) (hk1 : 0 < k1) (hk : k1 ≤ k2) :
    max (1 / 1000) (min (k1 * b) (1 / 10)) ≤ max (1 / 1000) (min (k2 * b) (1 / 10)) := by
  rcases le_or_lt 0 b with hb | hb
  · exact clamp_mono _ _ (mul_le_mul_of_nonneg_right hk hb)
  · have hneg : k1 * b < 0 := mul_neg_of_pos_of_neg hk1 hb
    have : max (1 / 1000) (min (k1 * b) (1 / 10)) = 1 / 1000 :=
      max_eq_left ((min_le_left _ _).trans (by linarith))
    rw [this]
    exact le_max_left _ _

theorem updateVideoClock_snd_running (m : AVSyncManager) (now : Int) (pts duration : ℚ)
    (hrun : m.paused_ = false) :
    (m.updateVideoClock now pts duration).2 =
      if drift (afterVideoUpdate m now pts duration) ≤ -(1 / 10) then (1 : Int)
      else truncToInt (max (1 / 1000) (min (adjustDelay m.speed_
        (drift (afterVideoUpdate m now pts duration))
        ((afterVideoUpdate m now pts duration).vclock_.duration / m.speed_)) (1 / 10)) * 1000) := by
  rw [updateVideoClock_eq, if_neg (by simp [hrun])]
  split_ifs <;> rfl

/-- The sleep as a function of the drift, for a fixed speed and base delay, is monotone. -/
theorem sleep_mono_in_drift (speed delay d1 d2 : ℚ) (h : d2 ≤ d1) :
    (if d2 ≤ -(1 / 10) then (1 : Int)
      else truncToInt (max (1 / 1000) (min (adjustDelay speed d2 delay) (1 / 10)) * 1000)) ≤
    (if d1 ≤ -(1 / 10) then (1 : Int)
      else truncToInt (max (1 / 1000) (min (adjustDelay speed d1 delay) (1 / 10)) * 1000)) := by
  by_cases h2 : d2 ≤ -(1 / 10)
  · rw [if_pos h2]
    split_ifs
    · exact le_refl 1
    · exact (truncToInt_clamp _).1
  · have h1 : ¬ d1 ≤ -(1 / 10) := fun hc => h2 (h.trans hc)
    rw [if_neg h2, if_neg h1, adjustDelay_eq_table _ _ _ (not_le.mp h2),
      adjustDelay_eq_table _ _ _ (not_le.mp h1)]
    exact truncToInt_mono _ _ (clamp_millis_nonneg _)
      (mul_le_mul_of_nonneg_right
        (clamp_scale_mono delay _ _ (tableMultiplier_pos speed d2)
          (tableMultiplier_mono speed d2 d1 h)) (by norm_num))

/-- C28: take two unpaused engines `m1` and `m2` with the same positive speed, the same
nominal video duration and the same video clock, whose audio clocks are both valid (whatever
their other fields) with `audioPts1 <= audioPts2`.  The same call
`updateVideoClock(pts, duration)` stores `sleep1 >= sleep2`: the further audio is ahead of
video, the shorter the sleep, in every speed regime and across the `diff <= -0.1` return. -/
theorem sleep_monotone_in_audio_pts (m1 m2 : AVSyncManager) (now : Int) (pts duration : ℚ)
    (hrun1 : m1.paused_ = false) (hrun2 : m2.paused_ = false)
    (hspeed : m1.speed_ = m2.speed_) (hpos : 0 < m1.speed_)
    (hnominal : m1.vduration_ = m2.vduration_) (hvideo : m1.vclock_ = m2.vclock_)
    (ha1 : m1.aclock_.isValid = true) (ha2 : m2.aclock_.isValid = true)
    (hpts : m1.aclock_.pts ≤ m2.aclock_.pts) :
    (m2.updateVideoClock now pts duration).2 ≤ (m1.updateVideoClock now pts duration).2 := by
  have hc : updateClock m1 now m1.vclock_ pts duration false =
      updateClock m2 now m2.vclock_ pts duration false := by
    rw [hvideo]
    exact updateClock_congr_nominal m1 m2 now m2.vclock_ pts duration false
      (by unfold nominalDuration; simpa using hnominal)
  have hdur : (afterVideoUpdate m1 now pts duration).vclock_.duration =
      (afterVideoUpdate m2 now pts duration).vclock_.duration := by
    show (updateClock m1 now m1.vclock_ pts duration false).2.duration =
      (updateClock m2 now m2.vclock_ pts duration false).2.duration
    rw [hc]
  have hdrift : drift (afterVideoUpdate m2 now pts duration) ≤
      drift (afterVideoUpdate m1 now pts duration) := by
    cases hv : (updateClock m2 now m2.vclock_ pts duration false).2.isValid
    · have e1 : drift (afterVideoUpdate m1 now pts duration) = 0 := by
        unfold drift afterVideoUpdate
        simp [hc, hv]
      have e2 : drift (afterVideoUpdate m2 now pts duration) = 0 := by
        unfold drift afterVideoUpdate
        simp [hv]
      rw [e1, e2]
    · rw [drift_of_valid m1 now pts duration ha1 (by rw [hc]; exact hv),
        drift_of_valid m2 now pts duration ha2 hv, hc, ← hspeed]
      exact div_le_div_of_nonneg_right (by linarith) hpos.le
  rw [updateVideoClock_snd_running m1 now pts duration hrun1,
    updateVideoClock_snd_running m2 now pts duration hrun2, ← hspeed, ← hdur]
  exact sleep_mono_in_drift m1.speed_
    ((afterVideoUpdate m1 now pts duration).vclock_.duration / m1.speed_)
    (drift (afterVideoUpdate m1 now pts duration))
    (drift (afterVideoUpdate m2 now pts duration)) hdrift

/-- Witness for C28: `aheadEngine` (audio at 0) and `behindEngine` (audio at 0.08) differ only
in the audio clock. -/
theorem sleep_monotone_in_audio_pts_witness :
    (behindEngine.updateVideoClock 0 (-1) (4 / 100)).2 ≤
      (aheadEngine.updateVideoClock 0 (-1) (4 / 100)).2 :=
  sleep_monotone_in_audio_pts aheadEngine behindEngine 0 (-1) (4 / 100)
    (by rw [aheadEngine_eq]) (by rw [behindEngine_eq])
    (by rw [aheadEngine_eq, behindEngine_eq]) (by rw [aheadEngine_eq]; norm_num)
    (by rw [aheadEngine_eq, behindEngine_eq]) (by rw [aheadEngine_eq, behindEngine_eq])
    (by rw [aheadEngine_eq]) (by rw [behindEngine_eq])
    (by rw [aheadEngine_eq, behindEngine_eq]; norm_num)

/-! ## The clock update: duration and timestamp resolution -/

theorem updateClock_eraseTime (m1 m2 : AVSyncManager) (n1 n2 : Int) (c1 c2 : Clock)
    (pts duration : ℚ) (audio : Bool)
    (hn : nominalDuration m1 audio = nominalDuration m2 audio)
    (hc : c1.eraseTime = c2.eraseTime) :
    (updateClock m1 n1 c1 pts duration audio).2.eraseTime =
      (updateClock m2 n2 c2 pts duration audio).2.eraseTime := by
  have hf : c1.isValid = c2.isValid ∧ c1.pts = c2.pts ∧ c1.duration = c2.duration ∧
      c1.lastPts = c2.lastPts ∧ c1.lastDuration = c2.lastDuration := by
    unfold Clock.eraseTime at hc
    injection hc with h1 h2 h3 h4 h5 _
    exact ⟨h1, h2, h3, h4, h5⟩
  obtain ⟨h1, h2, h3, h4, h5⟩ := hf
  rcases le_or_lt (nominalDuration m1 audio) 0 with h | h
  · rw [updateClock_of_nominal_nonpos m1 n1 c1 pts duration audio h,
      updateClock_of_nominal_nonpos m2 n2 c2 pts duration audio (hn ▸ h)]
    simp only [Clock.eraseTime, h2, h3, h4, h5]
  · rw [updateClock_of_nominal_pos m1 n1 c1 pts duration audio h,
      updateClock_of_nominal_pos m2 n2 c2 pts duration audio (hn ▸ h)]
    simp only [Clock.eraseTime, h1, h2, h3, hn]

theorem eraseTime_fields (m1 m2 : AVSyncManager) (h : m1.eraseTime = m2.eraseTime) :
    m1.vduration_ = m2.vduration_ ∧ m1.aduration_ = m2.aduration_ ∧
      m1.paused_ = m2.paused_ ∧ m1.speed_ = m2.speed_ ∧
      m1.vclock_.eraseTime = m2.vclock_.eraseTime ∧
      m1.aclock_.eraseTime = m2.aclock_.eraseTime := by
  unfold AVSyncManager.eraseTime at h
  injection h with h1 h2 h3 h4 h5 h6
  exact ⟨h1, h2, h3, h4, h5, h6⟩

theorem eraseTime_of_fields (m1 m2 : AVSyncManager)
    (h1 : m1.vduration_ = m2.vduration_) (h2 : m1.aduration_ = m2.aduration_)
    (h3 : m1.paused_ = m2.paused_) (h4 : m1.speed_ = m2.speed_)
    (h5 : m1.vclock_.eraseTime = m2.vclock_.eraseTime)
    (h6 : m1.aclock_.eraseTime = m2.aclock_.eraseTime) :
    m1.eraseTime = m2.eraseTime := by
  unfold AVSyncManager.eraseTime
  rw [h1, h2, h3, h4, h5, h6]

theorem clock_fields_of_eraseTime (c1 c2 : Clock) (hc : c1.eraseTime = c2.eraseTime) :
    c1.isValid = c2.isValid ∧ c1.pts = c2.pts ∧ c1.duration = c2.duration ∧
      c1.lastPts = c2.lastPts ∧ c1.lastDuration = c2.lastDuration := by
  unfold Clock.eraseTime at hc
  injection hc with h1 h2 h3 h4 h5 _
  exact ⟨h1, h2, h3, h4, h5⟩

theorem eraseTime_stamp (c : Clock) (t : ℚ) :
    ({ c with updateTime := t } : Clock).eraseTime = c.eraseTime :=
  rfl

theorem afterVideoUpdate_eraseTime (m1 m2 : AVSyncManager) (n1 n2 : Int) (pts duration : ℚ)
    (h : m1.eraseTime = m2.eraseTime) :
    (afterVideoUpdate m1 n1 pts duration).eraseTime =
      (afterVideoUpdate m2 n2 pts duration).eraseTime := by
  obtain ⟨h1, h2, h3, h4, h5, h6⟩ := eraseTime_fields m1 m2 h
  exact eraseTime_of_fields _ _ h1 h2 h3 h4
    (updateClock_eraseTime m1 m2 n1 n2 _ _ pts duration false
      (by unfold nominalDuration; simpa using h1) h5) h6

theorem updateVideoClock_snd_eraseTime (m1 m2 : AVSyncManager) (n1 n2 : Int)
    (pts duration : ℚ) (h : m1.eraseTime = m2.eraseTime) :
    (m1.updateVideoClock n1 pts duration).2 = (m2.updateVideoClock n2 pts duration).2 := by
  obtain ⟨_, _, h3, h4, _, _⟩ := eraseTime_fields m1 m2 h
  obtain ⟨_, _, _, _, k5, k6⟩ := eraseTime_fields _ _
    (afterVideoUpdate_eraseTime m1 m2 n1 n2 pts duration h)
  obtain ⟨v1, v2, v3, _, _⟩ := clock_fields_of_eraseTime _ _ k5
  obtain ⟨a1, a2, _, _, _⟩ := clock_fields_of_eraseTime _ _ k6
  have hdrift : drift (afterVideoUpdate m1 n1 pts duration) =
      drift (afterVideoUpdate m2 n2 pts duration) := by
    unfold drift
    rw [v1, v2, a1, a2]
    show (if _ then _ / m1.speed_ else 0) = (if _ then _ / m2.speed_ else 0)
    rw [h4]
  rw [updateVideoClock_eq, updateVideoClock_eq, h3, hdrift, v3, h4]
  split_ifs <;> rfl

theorem run_eraseTime (m1 m2 : AVSyncManager) (op : EngineOp) (t1 t2 : Int)
    (h : m1.eraseTime = m2.eraseTime) :
    ((op.withTime t1).run m1).eraseTime = ((op.withTime t2).run m2).eraseTime ∧
      (op.withTime t1).output m1 = (op.withTime t2).output m2 := by
  obtain ⟨h1, h2, h3, h4, h5, h6⟩ := eraseTime_fields m1 m2 h
  cases op with
  | reset =>
    refine ⟨?_, rfl⟩
    show m1.reset.eraseTime = m2.reset.eraseTime
    unfold reset AVSyncManager.eraseTime
    rw [h1, h2]
  | pause now =>
    refine ⟨?_, rfl⟩
    show (m1.pause t1).eraseTime = (m2.pause t2).eraseTime
    unfold pause
    rw [h3]
    split_ifs
    · exact eraseTime_of_fields _ _ h1 h2 rfl h4 h5 h6
    · exact h
  | resume now =>
    refine ⟨?_, rfl⟩
    show (m1.resume t1).eraseTime = (m2.resume t2).eraseTime
    unfold resume
    rw [h3]
    split_ifs
    · exact eraseTime_of_fields _ _ h1 h2 rfl h4 h5 h6
    · exact h
  | setSpeed speed =>
    refine ⟨?_, rfl⟩
    show (m1.setSpeed speed).eraseTime = (m2.setSpeed speed).eraseTime
    unfold setSpeed
    rw [h4]
    split_ifs
    · exact eraseTime_of_fields _ _ h1 h2 h3 rfl h5 h6
    · exact h
  | updateAudioClock now pts duration =>
    refine ⟨?_, rfl⟩
    show (m1.updateAudioClock t1 pts duration).eraseTime =
      (m2.updateAudioClock t2 pts duration).eraseTime
    rw [updateAudioClock_eq, updateAudioClock_eq, h3]
    split_ifs
    · exact h
    · exact eraseTime_of_fields _ _ h1 h2 rfl h4 h5
        (updateClock_eraseTime m1 m2 t1 t2 _ _ pts duration true
          (by unfold nominalDuration; simpa using h2) h6)
  | updateVideoClock now pts duration =>
    constructor
    · show (m1.updateVideoClock t1 pts duration).1.eraseTime =
        (m2.updateVideoClock t2 pts duration).1.eraseTime
      rw [updateVideoClock_fst, updateVideoClock_fst, h3]
      split_ifs
      · exact h
      · exact afterVideoUpdate_eraseTime m1 m2 t1 t2 pts duration h
    · show some (m1.updateVideoClock t1 pts duration).2 =
        some (m2.updateVideoClock t2 pts duration).2
      rw [updateVideoClock_snd_eraseTime m1 m2 t1 t2 pts duration h]

theorem runEngineTrace_eraseTime (ops : List EngineOp) :
    ∀ (m1 m2 : AVSyncManager) (clock1 clock2 : Nat → Int), m1.eraseTime = m2.eraseTime →
      (runEngineTrace m1 (retime ops clock1)).1.eraseTime =
          (runEngineTrace m2 (retime ops clock2)).1.eraseTime ∧
        (runEngineTrace m1 (retime ops clock1)).2 =
          (runEngineTrace m2 (retime ops clock2)).2 := by
  induction ops with
  | nil => exact fun m1 m2 _ _ h => ⟨h, rfl⟩
  | cons op ops ih =>
    intro m1 m2 clock1 clock2 h
    have hstep := run_eraseTime m1 m2 op (clock1 0) (clock2 0) h
    have hrest := ih _ _ (fun i => clock1 (i + 1)) (fun i => clock2 (i + 1)) hstep.1
    refine ⟨hrest.1, ?_⟩
    show _ :: _ = _ :: _
    rw [hstep.2, hrest.2]

theorem runEngineTrace_fst (ops : List EngineOp) :
    ∀ m : AVSyncManager, (runEngineTrace m ops).1 = runEngine m ops := by
  induction ops with
  | nil => exact fun _ => rfl
  | cons op ops ih => exact fun m => ih (op.run m)

/-- C29: wall-clock noninterference.  Two runs of the same sequence of calls with the same
arguments, from the same engine state, the `i`-th call reading the wall clock as `clock1 i` in
the first run and as `clock2 i` in the second: the values returned by `updateVideoClock` are
the same in both runs, and the final states agree on every field other than the `updateTime`
of the two clocks. -/
theorem wall_clock_noninterference (m : AVSyncManager) (ops : List EngineOp)
    (clock1 clock2 : Nat → Int) :
    (runEngineTrace m (retime ops clock1)).2 = (runEngineTrace m (retime ops clock2)).2 ∧
      (runEngine m (retime ops clock1)).eraseTime = (runEngine m (retime ops clock2)).eraseTime := by
  have h := runEngineTrace_eraseTime ops m m clock1 clock2 rfl
  rw [runEngineTrace_fst, runEngineTrace_fst] at h
  exact ⟨h.2, h.1⟩

/-! ## The bounded queue: size and limit -/

theorem enqueueLoop_size_le {T C : Type} (q : MediaQueue T C) (item : Option T)
    (h : q.size ≤ q.maxSize_) :
    (q.enqueueLoop item).state.size ≤ (q.enqueueLoop item).state.maxSize_ := by
  unfold enqueueLoop
  split_ifs with h1 h2 h3
  · exact h
  · simp only [Outcome.state, size, List.length_append, List.length_singleton]
    exact h3
  · exact h
  · exact h

theorem dequeueLoop_size_le {T C : Type} (q : MediaQueue T C) (h : q.size ≤ q.maxSize_) :
    q.dequeueLoop.state.size ≤ q.dequeueLoop.state.maxSize_ := by
  rcases dequeueLoop_state q with e | ⟨x, rest, hq, e⟩
  · rw [e]
    exact h
  · rw [e]
    unfold size at h ⊢
    rw [hq] at h
    simp only [List.length_cons] at h
    show rest.length ≤ q.maxSize_
    omega

/-- C30: `size <= maxSize` is preserved by every step on the queue other than `setLimit`
(`enqueue`, `dequeue` and their later segments, `clear`, `lock`, `unlock`,
`setClearCallback`), but not by `setLimit`, which never removes items: `overfullQueue`, three
items queued under `maxSize = 3` followed by `setLimit(0, 1)`, is a reachable state with three
items, `maxSize = 1` and `full() = true`.  From it `enqueue` waits without appending, also
after one and after two `dequeue` calls; after three, the size is below `maxSize` and `enqueue`
appends.  In general no segment of `enqueue` appends to a queue `r` with
`size >= maxSize`. -/
theorem size_le_max_unless_setLimit {T C : Type} (q : MediaQueue T C)
    (hsize : q.size ≤ q.maxSize_) (op : QueueOp T C)
    (hop : ∀ minSize maxSize, op ≠ QueueOp.setLimit minSize maxSize)
    (r : MediaQueue T C) (hfull : r.maxSize_ ≤ r.size) (item : Option T) (timeout : Bool) :
    (op.run q).size ≤ (op.run q).maxSize_ ∧
    (QueueReachable overfullQueue ∧ overfullQueue.size = 3 ∧ overfullQueue.maxSize_ = 1 ∧
      overfullQueue.full = true ∧
      overfullQueue.queue_ = [some 1, some 2, some 3]) ∧
    (overfullQueue.enqueue (some 4) = .waiting overfullQueue ∧
      (∀ k q1 values, k < 3 → dequeueTimes overfullQueue k = some (values, q1) →
        q1.enqueue (some 4) = .waiting q1) ∧
      (∀ q3 values, dequeueTimes overfullQueue 3 = some (values, q3) →
        q3.enqueue (some 4) = .returned true { q3 with queue_ := [some 4] })) ∧
    ((r.enqueue item).state = r ∧ (r.enqueueWake item timeout).state = r) := by
  refine ⟨?_, ?_, ?_, ?_⟩
  · cases op with
    | setLimit minSize maxSize => exact absurd rfl (hop minSize maxSize)
    | setClearCallback callback => exact hsize
    | enqueue item2 =>
      show (q.enqueue item2).state.size ≤ (q.enqueue item2).state.maxSize_
      unfold enqueue
      split_ifs
      · exact hsize
      · exact enqueueLoop_size_le q item2 hsize
    | enqueueWake item2 timeout2 =>
      show (q.enqueueWake (some item2) timeout2).state.size ≤
        (q.enqueueWake (some item2) timeout2).state.maxSize_
      unfold enqueueWake
      split_ifs
      · exact hsize
      · exact enqueueLoop_size_le q (some item2) hsize
    | dequeue =>
      show q.dequeue.state.size ≤ q.dequeue.state.maxSize_
      unfold dequeue
      split_ifs
      · exact hsize
      · exact dequeueLoop_size_le q hsize
    | dequeueWake timeout2 =>
      show (q.dequeueWake timeout2).state.size ≤ (q.dequeueWake timeout2).state.maxSize_
      unfold dequeueWake
      split_ifs
      · exact hsize
      · exact dequeueLoop_size_le q hsize
    | lock => exact hsize
    | unlock => exact hsize
    | clear =>
      show q.clear.1.size ≤ q.clear.1.maxSize_
      simp [clear, clearLoop_fst, size]
  · exact ⟨QueueReachable.step _ _ (QueueReachable.step _ _ (QueueReachable.step _ _
      (QueueReachable.step _ _ (QueueReachable.construct 0 3)))), rfl, rfl, rfl, rfl⟩
  · refine ⟨rfl, ?_, ?_⟩
    · intro k q1 values hk hdeq
      have hk3 : k = 0 ∨ k = 1 ∨ k = 2 := by omega
      rcases hk3 with rfl | rfl | rfl
      · have e : dequeueTimes overfullQueue 0 = some ([], overfullQueue) := rfl
        rw [e] at hdeq
        injection hdeq with hdeq
        injection hdeq with _ hq
        rw [← hq]
        rfl
      · have e : dequeueTimes overfullQueue 1 =
            some ([some 1], { overfullQueue with queue_ := [some 2, some 3] }) := rfl
        rw [e] at hdeq
        injection hdeq with hdeq
        injection hdeq with _ hq
        rw [← hq]
        rfl
      · have e : dequeueTimes overfullQueue 2 =
            some ([some 1, some 2], { overfullQueue with queue_ := [some 3] }) := rfl
        rw [e] at hdeq
        injection hdeq with hdeq
        injection hdeq with _ hq
        rw [← hq]
        rfl
    · intro q3 values hdeq
      have e : dequeueTimes overfullQueue 3 =
          some ([some 1, some 2, some 3], { overfullQueue with queue_ := [] }) := rfl
      rw [e] at hdeq
      injection hdeq with hdeq
      injection hdeq with _ hq
      rw [← hq]
      rfl
  · have hloop := enqueueLoop_of_full r item hfull
    constructor
    · unfold enqueue
      split_ifs
      · rfl
      · exact hloop.1
    · unfold enqueueWake
      split_ifs
      · rfl
      · exact hloop.1

/-- Witness for C30: a `dequeue` on `fullQueue` (two items, `maxSize = 2`), and
`overfullQueue` as the queue at or above its limit. -/
theorem size_le_max_unless_setLimit_witness :
    (QueueOp.dequeue.run fullQueue).size ≤ (QueueOp.dequeue.run fullQueue).maxSize_ ∧
      (overfullQueue.enqueue (some 4)).state = overfullQueue :=
  ⟨(size_le_max_unless_setLimit fullQueue (by decide) QueueOp.dequeue
      (fun _ _ h => QueueOp.noConfusion h) overfullQueue (by decide) (some 4) true).1,
    (size_le_max_unless_setLimit fullQueue (by decide) QueueOp.dequeue
      (fun _ _ h => QueueOp.noConfusion h) overfullQueue (by decide) (some 4) true).2.2.2.1⟩

/-! ## Binary64 arithmetic: rounding -/

namespace Dbl

theorem roundHalfEven_intCast (m : ℤ) : roundHalfEven (m : ℚ) = m := by
  simp [roundHalfEven]

theorem roundHalfEven_mono {x y : ℚ} (h : x ≤ y) : roundHalfEven x ≤ roundHalfEven y := by
  have hf : ⌊x⌋ ≤ ⌊y⌋ := Int.floor_mono h
  have hx1 : roundHalfEven x ≤ ⌊x⌋ + 1 := by
    unfold roundHalfEven
    split_ifs <;> omega
  have hy0 : ⌊y⌋ ≤ roundHalfEven y := by
    unfold roundHalfEven
    split_ifs <;> omega
  rcases hf.lt_or_eq with hlt | heq
  · omega
  · unfold roundHalfEven
    rw [heq]
    split_ifs <;> first | omega | (exfalso; linarith)

theorem le_roundHalfEven {a : ℤ} {x : ℚ} (h : (a : ℚ) ≤ x) : a ≤ roundHalfEven x := by
  have h1 := roundHalfEven_mono h
  rwa [roundHalfEven_intCast] at h1

theorem roundHalfEven_le {b : ℤ} {x : ℚ} (h : x ≤ (b : ℚ)) : roundHalfEven x ≤ b := by
  have h1 := roundHalfEven_mono h
  rwa [roundHalfEven_intCast] at h1

theorem roundHalfEven_of_near (x : ℚ) (m : ℤ) (h : |x - m| < 1 / 2) : roundHalfEven x = m := by
  have h1 := abs_lt.mp h
  have hfl : ⌊x⌋ = m ∨ ⌊x⌋ = m - 1 := by
    have ha : m - 1 ≤ ⌊x⌋ := Int.le_floor.mpr (by push_cast; linarith [h1.1])
    have hb : ⌊x⌋ < m + 1 := Int.floor_lt.mpr (by push_cast; linarith [h1.2])
    omega
  have hx0 := Int.floor_le x
  have hx1 := Int.lt_floor_add_one x
  unfold roundHalfEven
  rcases hfl with hf | hf
  · rw [hf]
    rw [if_pos (by linarith [h1.2])]
  · have hc : ((m - 1 : ℤ) : ℚ) = (m : ℚ) - 1 := by push_cast; ring
    rw [hf, hc]
    rw [if_neg (by linarith [h1.1]), if_pos (by linarith [h1.1])]
    ring

theorem ulpExponent_ge (x : ℚ) : -1074 ≤ ulpExponent x := by
  unfold ulpExponent
  have := le_max_right (Int.log 2 x) (-1022)
  omega

theorem log_le_ulpExponent (x : ℚ) : Int.log 2 x ≤ ulpExponent x + 52 := by
  unfold ulpExponent
  have := le_max_left (Int.log 2 x) (-1022)
  omega

theorem ulpExponent_mono {x y : ℚ} (hx : 0 < x) (h : x ≤ y) :
    ulpExponent x ≤ ulpExponent y := by
  unfold ulpExponent
  have := Int.log_mono_right (b := 2) hx h
  have h1 := max_le_max this (le_refl (-1022 : ℤ))
  omega

theorem two_zpow_pos (k : ℤ) : (0 : ℚ) < 2 ^ k := by positivity

theorem lt_two_zpow_ulp {x : ℚ} : x < 2 ^ (ulpExponent x + 53) := by
  have h1 := Int.lt_zpow_succ_log_self (b := 2) (by norm_num) x
  have h2 : ((2 : ℕ) : ℚ) ^ (Int.log 2 x + 1) ≤ 2 ^ (ulpExponent x + 53) := by
    push_cast
    apply zpow_le_zpow_right₀ (by norm_num)
    have := log_le_ulpExponent x
    omega
  exact lt_of_lt_of_le h1 h2

theorem roundMag_zero : roundMag 0 = 0 := by
  simp [roundMag, roundHalfEven]

theorem roundMag_nonneg {x : ℚ} (hx : 0 ≤ x) : 0 ≤ roundMag x := by
  unfold roundMag
  have h0 : (0 : ℤ) ≤ roundHalfEven (x / 2 ^ ulpExponent x) :=
    le_roundHalfEven (by push_cast; exact div_nonneg hx (two_zpow_pos _).le)
  have h1 : (0 : ℚ) ≤ (roundHalfEven (x / 2 ^ ulpExponent x) : ℚ) := by exact_mod_cast h0
  exact mul_nonneg h1 (two_zpow_pos _).le

theorem roundMag_le {x : ℚ} : roundMag x ≤ 2 ^ (ulpExponent x + 53) := by
  unfold roundMag
  have h1 : x / 2 ^ ulpExponent x ≤ ((2 ^ 53 : ℤ) : ℚ) := by
    rw [div_le_iff₀ (two_zpow_pos _)]
    have := lt_two_zpow_ulp (x := x)
    rw [zpow_add₀ (by norm_num : (2 : ℚ) ≠ 0)] at this
    push_cast
    have h53 : (2 : ℚ) ^ (53 : ℤ) = 2 ^ 53 := by norm_num
    rw [h53] at this
    linarith
  have h2 : roundHalfEven (x / 2 ^ ulpExponent x) ≤ 2 ^ 53 := roundHalfEven_le h1
  have h3 : (roundHalfEven (x / 2 ^ ulpExponent x) : ℚ) ≤ 2 ^ 53 := by exact_mod_cast h2
  rw [zpow_add₀ (by norm_num : (2 : ℚ) ≠ 0)]
  have h53 : (2 : ℚ) ^ (53 : ℤ) = 2 ^ 53 := by norm_num
  rw [h53, mul_comm ((2 : ℚ) ^ ulpExponent x)]
  exact mul_le_mul_of_nonneg_right h3 (two_zpow_pos _).le

/-- Above the subnormal range the rounded magnitude is at least the power of two below. -/
theorem le_roundMag {x : ℚ} (hx : 0 < x) (hu : -1074 < ulpExponent x) :
    2 ^ (ulpExponent x + 52) ≤ roundMag x := by
  have hlog : Int.log 2 x = ulpExponent x + 52 := by
    unfold ulpExponent at hu ⊢
    rcases max_cases (Int.log 2 x) (-1022) with h | h
    · rw [h.1]; ring
    · rw [h.1] at hu; omega
  have h1 := Int.zpow_log_le_self (b := 2) (by norm_num) hx
  rw [hlog] at h1
  push_cast at h1
  unfold roundMag
  have h2 : ((2 ^ 52 : ℤ) : ℚ) ≤ x / 2 ^ ulpExponent x := by
    rw [le_div_iff₀ (two_zpow_pos _)]
    rw [zpow_add₀ (by norm_num : (2 : ℚ) ≠ 0)] at h1
    have h52 : (2 : ℚ) ^ (52 : ℤ) = 2 ^ 52 := by norm_num
    rw [h52] at h1
    push_cast
    linarith
  have h3 : 2 ^ 52 ≤ roundHalfEven (x / 2 ^ ulpExponent x) := le_roundHalfEven h2
  have h4 : (2 : ℚ) ^ 52 ≤ (roundHalfEven (x / 2 ^ ulpExponent x) : ℚ) := by exact_mod_cast h3
  rw [zpow_add₀ (by norm_num : (2 : ℚ) ≠ 0)]
  have h52 : (2 : ℚ) ^ (52 : ℤ) = 2 ^ 52 := by norm_num
  rw [h52, mul_comm ((2 : ℚ) ^ ulpExponent x)]
  exact mul_le_mul_of_nonneg_right h4 (two_zpow_pos _).le

theorem roundMag_mono {x y : ℚ} (hx : 0 ≤ x) (h : x ≤ y) : roundMag x ≤ roundMag y := by
  rcases hx.eq_or_lt with h0 | hpos
  · rw [← h0, roundMag_zero]
    exact roundMag_nonneg (le_trans hx h)
  · have hu := ulpExponent_mono hpos h
    rcases hu.eq_or_lt with heq | hlt
    · unfold roundMag
      rw [heq]
      have h1 : x / 2 ^ ulpExponent y ≤ y / 2 ^ ulpExponent y :=
        div_le_div_of_nonneg_right h (two_zpow_pos _).le
      have h2 := roundHalfEven_mono h1
      have h3 : (roundHalfEven (x / 2 ^ ulpExponent y) : ℚ) ≤
          roundHalfEven (y / 2 ^ ulpExponent y) := by
        exact_mod_cast h2
      exact mul_le_mul_of_nonneg_right h3 (two_zpow_pos _).le
    · have h1 := roundMag_le (x := x)
      have h2 := le_roundMag (lt_of_lt_of_le hpos h)
        (lt_of_le_of_lt (ulpExponent_ge x) hlt)
      have h3 : (2 : ℚ) ^ (ulpExponent x + 53) ≤ 2 ^ (ulpExponent y + 52) :=
        zpow_le_zpow_right₀ (by norm_num) (by omega)
      linarith

theorem ulpExponent_le_of_lt {x : ℚ} {k : ℤ} (hx : 0 < x) (hk : -1074 ≤ k)
    (h : x < 2 ^ (k + 53)) : ulpExponent x ≤ k := by
  have h1 : Int.log 2 x < k + 53 := by
    rw [← Int.lt_zpow_iff_log_lt (by norm_num) hx]
    push_cast
    exact h
  unfold ulpExponent
  rcases max_cases (Int.log 2 x) (-1022) with h2 | h2
  · rw [h2.1]; omega
  · rw [h2.1]; omega

theorem roundMag_of_int_mul {x : ℚ} (n : ℤ) (h : x = (n : ℚ) * 2 ^ ulpExponent x) :
    roundMag x = x := by
  unfold roundMag
  have h1 : x / 2 ^ ulpExponent x = (n : ℚ) := by
    rw [div_eq_iff (two_zpow_pos _).ne.symm]
    exact h
  rw [h1, roundHalfEven_intCast]
  exact h.symm

/-- A magnitude with at most 53 significant binary digits, not below the subnormal spacing,
is its own rounding. -/
theorem roundMag_dyadic_lt (m k : ℤ) (hm0 : 0 < m) (hm : m < 2 ^ 53) (hk : -1074 ≤ k) :
    roundMag ((m : ℚ) * 2 ^ k) = (m : ℚ) * 2 ^ k := by
  have hpos : (0 : ℚ) < (m : ℚ) * 2 ^ k :=
    mul_pos (by exact_mod_cast hm0) (two_zpow_pos _)
  have hlt : (m : ℚ) * 2 ^ k < 2 ^ (k + 53) := by
    rw [zpow_add₀ (by norm_num : (2 : ℚ) ≠ 0), mul_comm ((2 : ℚ) ^ k)]
    have h53 : (2 : ℚ) ^ (53 : ℤ) = 2 ^ 53 := by norm_num
    rw [h53]
    have : (m : ℚ) < 2 ^ 53 := by exact_mod_cast hm
    exact mul_lt_mul_of_pos_right this (two_zpow_pos _)
  have hu := ulpExponent_le_of_lt hpos hk hlt
  obtain ⟨n, hn⟩ := Int.eq_ofNat_of_zero_le (sub_nonneg.mpr hu)
  apply roundMag_of_int_mul (m * 2 ^ n)
  have hk2 : k = ulpExponent ((m : ℚ) * 2 ^ k) + n := by omega
  have h2 : (2 : ℚ) ^ k = 2 ^ (n : ℤ) * 2 ^ ulpExponent ((m : ℚ) * 2 ^ k) := by
    rw [← zpow_add₀ (by norm_num : (2 : ℚ) ≠ 0)]
    congr 1
    omega
  push_cast
  rw [mul_assoc, ← zpow_natCast, ← h2]

theorem roundMag_dyadic (m k : ℤ) (hm0 : 0 ≤ m) (hm : m ≤ 2 ^ 53) (hk : -1074 ≤ k) :
    roundMag ((m : ℚ) * 2 ^ k) = (m : ℚ) * 2 ^ k := by
  rcases hm0.eq_or_lt with h0 | hpos
  · rw [← h0]
    simp [roundMag_zero]
  rcases hm.eq_or_lt with h53 | hlt
  · have h1 : (m : ℚ) * 2 ^ k = ((2 ^ 52 : ℤ) : ℚ) * 2 ^ (k + 1) := by
      rw [h53, zpow_add₀ (by norm_num : (2 : ℚ) ≠ 0)]
      push_cast
      ring
    rw [h1]
    exact roundMag_dyadic_lt (2 ^ 52) (k + 1) (by norm_num) (by norm_num) (by omega)
  · exact roundMag_dyadic_lt m k hpos hlt hk

theorem roundMag_idem {x : ℚ} (hx : 0 ≤ x) : roundMag (roundMag x) = roundMag x := by
  have h0 : (0 : ℤ) ≤ roundHalfEven (x / 2 ^ ulpExponent x) :=
    le_roundHalfEven (by push_cast; exact div_nonneg hx (two_zpow_pos _).le)
  have h1 : x / 2 ^ ulpExponent x ≤ ((2 ^ 53 : ℤ) : ℚ) := by
    rw [div_le_iff₀ (two_zpow_pos _)]
    have := lt_two_zpow_ulp (x := x)
    rw [zpow_add₀ (by norm_num : (2 : ℚ) ≠ 0)] at this
    push_cast
    have h53 : (2 : ℚ) ^ (53 : ℤ) = 2 ^ 53 := by norm_num
    rw [h53] at this
    linarith
  have h2 : roundHalfEven (x / 2 ^ ulpExponent x) ≤ 2 ^ 53 := roundHalfEven_le h1
  exact roundMag_dyadic _ _ h0 h2 (ulpExponent_ge x)

/-! ### The rounding of a result -/

theorem round_ne_nan (x : ℚ) : round x ≠ nan := by
  unfold round
  split_ifs <;> simp

theorem round_zero : round 0 = fin 0 := by
  unfold round
  rw [abs_zero, roundMag_zero, if_pos (two_zpow_pos _), if_pos (le_refl _)]

theorem round_neg (x : ℚ) : round (-x) = neg (round x) := by
  rcases lt_trichotomy x 0 with h | h | h
  · have h1 : ¬ (0 ≤ x) := not_le.mpr h
    have h2 : (0 : ℚ) ≤ -x := by linarith
    unfold round
    rw [abs_neg, if_pos h2, if_pos h2, if_neg h1, if_neg h1]
    split_ifs <;> simp [neg]
  · rw [h]
    simp [round_zero, neg]
  · have h1 : ¬ (0 ≤ -x) := by linarith
    have h2 : (0 : ℚ) ≤ x := h.le
    unfold round
    rw [abs_neg, if_pos h2, if_pos h2, if_neg h1, if_neg h1]
    split_ifs <;> simp [neg]

/-- Rounding is monotone. -/
theorem round_mono {x y : ℚ} (h : x ≤ y) : le (round x) (round y) = true := by
  rcases le_or_lt 0 x with hx | hx
  · have hy : 0 ≤ y := le_trans hx h
    have hm : roundMag |x| ≤ roundMag |y| := by
      rw [abs_of_nonneg hx, abs_of_nonneg hy]
      exact roundMag_mono hx h
    unfold round
    rw [if_pos hx, if_pos hx, if_pos hy, if_pos hy]
    split_ifs with h1 h2 h2
    · simpa [le] using hm
    · rfl
    · exact absurd (lt_of_le_of_lt hm h2) h1
    · rfl
  · have hx0 : ¬ (0 ≤ x) := not_le.mpr hx
    rcases le_or_lt 0 y with hy | hy
    · have hmx := roundMag_nonneg (abs_nonneg x)
      have hmy := roundMag_nonneg (abs_nonneg y)
      unfold round
      rw [if_neg hx0, if_neg hx0, if_pos hy, if_pos hy]
      split_ifs
      · simp only [le, decide_eq_true_eq]
        linarith
      · rfl
      · rfl
      · rfl
    · have hy0 : ¬ (0 ≤ y) := not_le.mpr hy
      have hm : roundMag |y| ≤ roundMag |x| := by
        rw [abs_of_neg hx, abs_of_neg hy]
        exact roundMag_mono (by linarith) (by linarith)
      unfold round
      rw [if_neg hx0, if_neg hx0, if_neg hy0, if_neg hy0]
      split_ifs with h1 h2 h2
      · simp only [le, decide_eq_true_eq]
        linarith
      · exact absurd (lt_of_le_of_lt hm h1) h2
      · rfl
      · rfl

/-- The value of a rounding is its own rounding: every finite result of an operation is a
value of the format. -/
theorem round_idem {x q : ℚ} (h : round x = fin q) : round q = fin q := by
  unfold round at h
  split_ifs at h with h1 h2
  · have hq : q = roundMag |x| := by injection h with h; exact h.symm
    have hq0 : 0 ≤ q := hq ▸ roundMag_nonneg (abs_nonneg x)
    unfold round
    rw [abs_of_nonneg hq0, if_pos hq0, hq, roundMag_idem (abs_nonneg x), if_pos h1]
  · have hq : q = -roundMag |x| := by injection h with h; exact h.symm
    have hm := roundMag_nonneg (abs_nonneg x)
    rcases hm.eq_or_lt with h0 | hpos
    · rw [hq, ← h0]
      simp [round_zero]
    · have hq0 : ¬ (0 ≤ q) := by rw [hq]; linarith
      have habs : |q| = roundMag |x| := by rw [hq, abs_neg, abs_of_nonneg hm]
      unfold round
      rw [habs, roundMag_idem (abs_nonneg x), if_pos h1, if_neg hq0, hq]

/-- A number with at most 53 significant binary digits inside the range of the format is a
value of the format. -/
theorem round_dyadic (m k : ℤ) (hm : |m| < 2 ^ 53) (hk : -1074 ≤ k) (hk2 : k ≤ 971) :
    round ((m : ℚ) * 2 ^ k) = fin ((m : ℚ) * 2 ^ k) := by
  have hmag : roundMag |(m : ℚ) * 2 ^ k| = |(m : ℚ)| * 2 ^ k := by
    rw [abs_mul, abs_of_pos (two_zpow_pos k), ← Int.cast_abs]
    exact roundMag_dyadic |m| k (abs_nonneg m) hm.le hk
  have hlt : |(m : ℚ)| * 2 ^ k < 2 ^ (1024 : ℤ) := by
    have h1 : |(m : ℚ)| < 2 ^ 53 := by
      rw [← Int.cast_abs]
      exact_mod_cast hm
    have h2 : (2 : ℚ) ^ k ≤ 2 ^ (971 : ℤ) := zpow_le_zpow_right₀ (by norm_num) hk2
    have h3 : (2 : ℚ) ^ (1024 : ℤ) = 2 ^ 53 * 2 ^ (971 : ℤ) := by
      rw [← zpow_natCast, ← zpow_add₀ (by norm_num : (2 : ℚ) ≠ 0)]
      norm_num
    rw [h3]
    calc |(m : ℚ)| * 2 ^ k ≤ |(m : ℚ)| * 2 ^ (971 : ℤ) :=
          mul_le_mul_of_nonneg_left h2 (abs_nonneg _)
      _ < 2 ^ 53 * 2 ^ (971 : ℤ) := mul_lt_mul_of_pos_right h1 (two_zpow_pos _)
  unfold round
  rw [hmag, if_pos hlt]
  congr 1
  split_ifs with h0
  · have : (0 : ℚ) ≤ m := by
      by_contra hneg
      have : (m : ℚ) * 2 ^ k < 0 := mul_neg_of_neg_of_pos (not_le.mp hneg) (two_zpow_pos _)
      linarith
    rw [abs_of_nonneg this]
  · have : (m : ℚ) < 0 := by
      by_contra hnn
      exact h0 (mul_nonneg (not_lt.mp hnn) (two_zpow_pos _).le)
    rw [abs_of_neg this]
    ring

end Dbl

/-! ## Binary64 arithmetic: comparisons -/

namespace Dbl

theorem lt_fin (a b : ℚ) : lt (fin a) (fin b) = decide (a < b) := rfl

theorem le_fin (a b : ℚ) : le (fin a) (fin b) = decide (a ≤ b) := rfl

theorem eq_fin (a b : ℚ) : eq (fin a) (fin b) = decide (a = b) := rfl

theorem le_nan_left (a : Dbl) : le nan a = false := by cases a <;> rfl

theorem le_nan_right (a : Dbl) : le a nan = false := by cases a <;> rfl

theorem lt_nan_left (a : Dbl) : lt nan a = false := by cases a <;> rfl

theorem lt_nan_right (a : Dbl) : lt a nan = false := by cases a <;> rfl

theorem eq_nan_left (a : Dbl) : eq nan a = false := by cases a <;> rfl

theorem ne_nan_of_le_left {a b : Dbl} (h : le a b = true) : a ≠ nan := by
  rintro rfl
  rw [le_nan_left] at h
  exact Bool.noConfusion h

theorem ne_nan_of_le_right {a b : Dbl} (h : le a b = true) : b ≠ nan := by
  rintro rfl
  rw [le_nan_right] at h
  exact Bool.noConfusion h

theorem ne_nan_of_lt_left {a b : Dbl} (h : lt a b = true) : a ≠ nan := by
  rintro rfl
  rw [lt_nan_left] at h
  exact Bool.noConfusion h

theorem ne_nan_of_lt_right {a b : Dbl} (h : lt a b = true) : b ≠ nan := by
  rintro rfl
  rw [lt_nan_right] at h
  exact Bool.noConfusion h

theorem le_refl_of_ne_nan {a : Dbl} (h : a ≠ nan) : le a a = true := by
  cases a <;> simp [le] at h ⊢

theorem le_of_lt_true {a b : Dbl} (h : lt a b = true) : le a b = true := by
  cases a <;> cases b <;> simp [le, lt] at h ⊢
  exact h.le

theorem le_chain {a b c : Dbl} (h1 : le a b = true) (h2 : le b c = true) : le a c = true := by
  cases a <;> cases b <;> cases c <;> simp [le] at h1 h2 ⊢
  exact h1.trans h2

theorem lt_chain_le {a b c : Dbl} (h1 : lt a b = true) (h2 : le b c = true) :
    lt a c = true := by
  cases a <;> cases b <;> cases c <;> simp [le, lt] at h1 h2 ⊢
  exact h1.trans_le h2

theorem le_chain_lt {a b c : Dbl} (h1 : le a b = true) (h2 : lt b c = true) :
    lt a c = true := by
  cases a <;> cases b <;> cases c <;> simp [le, lt] at h1 h2 ⊢
  exact h1.trans_lt h2

/-- Two values that are not NaN are comparable: `a <= b` fails exactly when `b < a`. -/
theorem le_eq_false_iff {a b : Dbl} (ha : a ≠ nan) (hb : b ≠ nan) :
    le a b = false ↔ lt b a = true := by
  cases a <;> cases b <;> simp [le, lt] at ha hb ⊢

theorem lt_eq_false_iff {a b : Dbl} (ha : a ≠ nan) (hb : b ≠ nan) :
    lt a b = false ↔ le b a = true := by
  cases a <;> cases b <;> simp [le, lt] at ha hb ⊢

theorem lt_self (a : Dbl) : lt a a = false := by
  cases a <;> simp [lt]

theorem lt_false_of_le {a b : Dbl} (h : le a b = true) : lt b a = false := by
  cases a <;> cases b <;> simp [le, lt] at h ⊢
  exact h

theorem neg_twice (a : Dbl) : neg (neg a) = a := by
  cases a <;> simp [neg]

theorem neg_ne_nan {a : Dbl} (h : a ≠ nan) : neg a ≠ nan := by
  cases a <;> simp [neg] at h ⊢

theorem le_neg_neg {a b : Dbl} (h : le a b = true) : le (neg b) (neg a) = true := by
  cases a <;> cases b <;> simp [le, neg] at h ⊢
  exact h

theorem lt_neg_neg {a b : Dbl} (h : lt a b = true) : lt (neg b) (neg a) = true := by
  cases a <;> cases b <;> simp [lt, neg] at h ⊢
  exact h

theorem fabs_neg (a : Dbl) : fabs (neg a) = fabs a := by
  cases a <;> simp [fabs, neg]

theorem fabs_ne_nan {a : Dbl} (h : a ≠ nan) : fabs a ≠ nan := by
  cases a <;> simp [fabs] at h ⊢

theorem le_fabs {a : Dbl} (h : a ≠ nan) : le a (fabs a) = true := by
  cases a <;> simp [fabs, le] at h ⊢
  exact le_abs_self _

theorem fabs_nonneg {a : Dbl} (h : a ≠ nan) : le (fin 0) (fabs a) = true := by
  cases a <;> simp [fabs, le] at h ⊢

theorem lit_ne_nan (x : ℚ) : lit x ≠ nan := round_ne_nan x

theorem lit_mono {x y : ℚ} (h : x ≤ y) : le (lit x) (lit y) = true := round_mono h

theorem round_nonneg {x : ℚ} (h : 0 ≤ x) : le (fin 0) (round x) = true := by
  have := round_mono h
  rwa [round_zero] at this

theorem round_nonpos {x : ℚ} (h : x ≤ 0) : le (round x) (fin 0) = true := by
  have := round_mono h
  rwa [round_zero] at this

/-- A rational that is `m * 2 ^ k` with `|m| < 2 ^ 53` and `-1074 <= k <= 971` is a value of
the format (the form in which a concrete number is checked). -/
theorem round_of_dyadic (q : ℚ) (m k : ℤ) (hq : q = (m : ℚ) * 2 ^ k) (hm : |m| < 2 ^ 53)
    (hk : -1074 ≤ k) (hk2 : k ≤ 971) : round q = fin q := by
  rw [hq]
  exact round_dyadic m k hm hk hk2

end Dbl

/-! ## Binary64 arithmetic: the value of a concrete rounding -/

namespace Dbl

theorem log_eq_of_bounds {x : ℚ} {e : ℤ} (h1 : (2 : ℚ) ^ e ≤ x) (h2 : x < 2 ^ (e + 1)) :
    Int.log 2 x = e := by
  have hx : 0 < x := lt_of_lt_of_le (two_zpow_pos e) h1
  have ha : e ≤ Int.log 2 x := by
    rw [← Int.zpow_le_iff_le_log (by norm_num) hx]
    push_cast
    exact h1
  have hb : Int.log 2 x < e + 1 := by
    rw [← Int.lt_zpow_iff_log_lt (by norm_num) hx]
    push_cast
    exact h2
  omega

/-- The rounding of a positive `x` in the binade `[2 ^ e, 2 ^ (e + 1))` of the normal range:
it is the multiple `v` of `2 ^ (e - 52)` that lies less than half that spacing from `x`. -/
theorem round_eval (x v : ℚ) (e M : ℤ) (hv : v = (M : ℚ) * 2 ^ (e - 52))
    (h1 : (2 : ℚ) ^ e ≤ x) (h2 : x < 2 ^ (e + 1)) (he : -1022 ≤ e) (he2 : e ≤ 1022)
    (hlo : v - x < 2 ^ (e - 53)) (hhi : x - v < 2 ^ (e - 53)) : round x = fin v := by
  have hx : 0 < x := lt_of_lt_of_le (two_zpow_pos e) h1
  have hu : ulpExponent x = e - 52 := by
    unfold ulpExponent
    rw [log_eq_of_bounds h1 h2, max_eq_left he]
  have hhalf : (2 : ℚ) ^ (e - 53) = 2 ^ (e - 52) / 2 := by
    rw [show e - 53 = e - 52 - 1 by ring, zpow_sub_one₀ (by norm_num : (2 : ℚ) ≠ 0)]
    ring
  have hM : roundHalfEven (x / 2 ^ (e - 52)) = M := by
    apply roundHalfEven_of_near
    have hp := two_zpow_pos (e - 52)
    have hd : x / 2 ^ (e - 52) - M = (x - v) / 2 ^ (e - 52) := by
      rw [hv]
      field_simp
      ring
    rw [hd, abs_lt, lt_div_iff₀ hp, div_lt_iff₀ hp]
    rw [hhalf] at hlo hhi
    constructor <;> linarith
  have hmag : roundMag x = v := by
    unfold roundMag
    rw [hu, hM, hv]
  have hle := roundMag_le (x := x)
  rw [hmag, hu] at hle
  have hlt : v < 2 ^ (1024 : ℤ) := by
    have h3 : (2 : ℚ) ^ (e - 52 + 53) ≤ 2 ^ (1023 : ℤ) :=
      zpow_le_zpow_right₀ (by norm_num) (by omega)
    have h4 : (2 : ℚ) ^ (1023 : ℤ) < 2 ^ (1024 : ℤ) :=
      zpow_lt_zpow_right₀ (by norm_num) (by norm_num)
    linarith
  unfold round
  rw [abs_of_pos hx, hmag, if_pos hlt, if_pos hx.le]

end Dbl

namespace Dbl

/-- The rounding of a negative `x` whose magnitude lies in the binade `[2 ^ e, 2 ^ (e + 1))`
of the normal range. -/
theorem round_eval_of_neg (x v : ℚ) (e M : ℤ) (hv : v = (M : ℚ) * 2 ^ (e - 52))
    (h1 : (2 : ℚ) ^ e ≤ -x) (h2 : -x < 2 ^ (e + 1)) (he : -1022 ≤ e) (he2 : e ≤ 1022)
    (hlo : v - -x < 2 ^ (e - 53)) (hhi : -x - v < 2 ^ (e - 53)) : round x = fin (-v) := by
  have h := round_eval (-x) v e M hv h1 h2 he he2 hlo hhi
  have h3 := round_neg (-x)
  rw [neg_neg, h] at h3
  rw [h3]
  rfl

theorem roundHalfEven_tie_odd (x : ℚ) (f : ℤ) (hodd : f % 2 = 1) (h : x = (f : ℚ) + 1 / 2) :
    roundHalfEven x = f + 1 := by
  have hfl : ⌊x⌋ = f := by
    rw [Int.floor_eq_iff, h]
    constructor <;> linarith
  unfold roundHalfEven
  rw [hfl, h]
  have h1 : ¬ ((f : ℚ) + 1 / 2 - f < 1 / 2) := by
    rw [add_sub_cancel_left]
    exact lt_irrefl _
  have h2 : ¬ ((1 : ℚ) / 2 < (f : ℚ) + 1 / 2 - f) := by
    rw [add_sub_cancel_left]
    exact lt_irrefl _
  rw [if_neg h1, if_neg h2, if_neg (by omega)]

/-- The rounding of a positive `x` half-way between two neighbours of the format, the lower
one with an odd significand `M`: the tie goes to the upper, even, neighbour. -/
theorem round_eval_tie_odd (x v : ℚ) (e M : ℤ) (hodd : M % 2 = 1)
    (hx : x = ((M : ℚ) + 1 / 2) * 2 ^ (e - 52)) (hv : v = ((M : ℚ) + 1) * 2 ^ (e - 52))
    (h1 : (2 : ℚ) ^ e ≤ x) (h2 : x < 2 ^ (e + 1)) (he : -1022 ≤ e) (he2 : e ≤ 1022) :
    round x = fin v := by
  have hpos : 0 < x := lt_of_lt_of_le (two_zpow_pos e) h1
  have hu : ulpExponent x = e - 52 := by
    unfold ulpExponent
    rw [log_eq_of_bounds h1 h2, max_eq_left he]
  have hM : roundHalfEven (x / 2 ^ (e - 52)) = M + 1 := by
    apply roundHalfEven_tie_odd _ _ hodd
    rw [hx]
    field_simp
    ring
  have hmag : roundMag x = v := by
    unfold roundMag
    rw [hu, hM, hv]
    push_cast
    ring
  have hle := roundMag_le (x := x)
  rw [hmag, hu] at hle
  have hlt : v < 2 ^ (1024 : ℤ) := by
    have h3 : (2 : ℚ) ^ (e - 52 + 53) ≤ 2 ^ (1023 : ℤ) :=
      zpow_le_zpow_right₀ (by norm_num) (by omega)
    have h4 : (2 : ℚ) ^ (1023 : ℤ) < 2 ^ (1024 : ℤ) :=
      zpow_lt_zpow_right₀ (by norm_num) (by norm_num)
    linarith
  unfold round
  rw [abs_of_pos hpos, hmag, if_pos hlt, if_pos hpos.le]

end Dbl

/-! ## The engine in binary64 arithmetic: characterisation -/

namespace Binary64

theorem updateVideoClock_eq_dbl (m : AVSyncManager) (now : Int) (pts duration : Dbl) :
    m.updateVideoClock now pts duration =
      if m.paused_ then (m, 100)
      else if Dbl.le (drift (afterVideoUpdate m now pts duration))
          (Dbl.neg (Dbl.lit (1 / 10))) then
        (afterVideoUpdate m now pts duration, 1)
      else
        (afterVideoUpdate m now pts duration,
          Dbl.toInt (Dbl.mul
            (clampDelay (adjustDelay m.speed_ (drift (afterVideoUpdate m now pts duration))
              (Dbl.div (afterVideoUpdate m now pts duration).vclock_.duration m.speed_)))
            (Dbl.fin 1000))) :=
  rfl

theorem updateClock_of_nominal_nonpos_dbl (m : AVSyncManager) (now : Int) (clock : Clock)
    (pts duration : Dbl) (audio : Bool) (h : Dbl.le (nominalDuration m audio) (Dbl.fin 0) = true) :
    (m.updateClock now clock pts duration audio).2 =
      { clock with isValid := false, updateTime := AVSyncManager.systemClock now } := by
  unfold nominalDuration at h
  simp only [AVSyncManager.updateClock, h, if_true]

theorem updateClock_of_nominal_pos_dbl (m : AVSyncManager) (now : Int) (clock : Clock)
    (pts duration : Dbl) (audio : Bool)
    (h : Dbl.le (nominalDuration m audio) (Dbl.fin 0) = false) :
    (m.updateClock now clock pts duration audio).2 =
      { isValid := resolveValid clock.isValid clock.pts
          (resolveDuration (nominalDuration m audio) clock.duration duration) pts
        pts := resolvePts clock.pts
          (resolveDuration (nominalDuration m audio) clock.duration duration) pts
        duration := resolveDuration (nominalDuration m audio) clock.duration duration
        lastPts := clock.pts
        lastDuration := clock.duration
        updateTime := AVSyncManager.systemClock now } := by
  unfold nominalDuration at h ⊢
  simp only [AVSyncManager.updateClock]
  generalize (if audio = true then m.aduration_ else m.vduration_) = n at h ⊢
  simp only [h, Bool.false_eq_true, if_false]
  cases hd : Dbl.le duration (Dbl.fin 0)
  · cases hdev : (Dbl.ge (Dbl.fabs (Dbl.sub duration clock.duration)) (Dbl.div n (Dbl.fin 2)) ||
        Dbl.ge (Dbl.fabs (Dbl.sub duration n)) (Dbl.div n (Dbl.fin 2)))
    · simp only [resolveDuration, resolvePts, resolveValid, hd, hdev, Bool.false_eq_true,
        if_false]
      split_ifs <;> rfl
    · simp only [resolveDuration, resolvePts, resolveValid, hd, hdev, Bool.false_eq_true,
        if_false, if_true]
      split_ifs <;> rfl
  · simp only [resolveDuration, resolvePts, resolveValid, hd, if_true]
    split_ifs <;> rfl

end Binary64

/-! ## Binary64 arithmetic: operations on finite values and the literals of the engine -/

namespace Dbl

theorem add_fin (a b : ℚ) : add (fin a) (fin b) = round (a + b) := rfl

theorem sub_fin (a b : ℚ) : sub (fin a) (fin b) = round (a - b) := by
  simp only [sub, neg, add, sub_eq_add_neg]

theorem mul_fin (a b : ℚ) : mul (fin a) (fin b) = round (a * b) := rfl

theorem div_fin (a b : ℚ) (hb : b ≠ 0) : div (fin a) (fin b) = round (a / b) := by
  simp only [div, if_neg hb]

theorem round_eval_neg (x v : ℚ) (h : round x = fin v) : round (-x) = fin (-v) := by
  rw [round_neg, h]
  rfl

theorem lit_1_1000 : lit (1 / 1000) = fin (1152921504606847 / 1152921504606846976) :=
  round_eval _ _ (-10) 4611686018427388 (by norm_num) (by norm_num) (by norm_num) (by norm_num)
    (by norm_num) (by norm_num) (by norm_num)

theorem lit_1_100 : lit (1 / 100) = fin (5764607523034235 / 576460752303423488) :=
  round_eval _ _ (-7) 5764607523034235 (by norm_num) (by norm_num) (by norm_num) (by norm_num)
    (by norm_num) (by norm_num) (by norm_num)

theorem lit_2_100 : lit (2 / 100) = fin (5764607523034235 / 288230376151711744) :=
  round_eval _ _ (-6) 5764607523034235 (by norm_num) (by norm_num) (by norm_num) (by norm_num)
    (by norm_num) (by norm_num) (by norm_num)

theorem lit_4_100 : lit (4 / 100) = fin (5764607523034235 / 144115188075855872) :=
  round_eval _ _ (-5) 5764607523034235 (by norm_num) (by norm_num) (by norm_num) (by norm_num)
    (by norm_num) (by norm_num) (by norm_num)

theorem lit_5_100 : lit (5 / 100) = fin (3602879701896397 / 72057594037927936) :=
  round_eval _ _ (-5) 7205759403792794 (by norm_num) (by norm_num) (by norm_num) (by norm_num)
    (by norm_num) (by norm_num) (by norm_num)

theorem lit_6_100 : lit (6 / 100) = fin (1080863910568919 / 18014398509481984) :=
  round_eval _ _ (-5) 8646911284551352 (by norm_num) (by norm_num) (by norm_num) (by norm_num)
    (by norm_num) (by norm_num) (by norm_num)

theorem lit_1_10 : lit (1 / 10) = fin (3602879701896397 / 36028797018963968) :=
  round_eval _ _ (-4) 7205759403792794 (by norm_num) (by norm_num) (by norm_num) (by norm_num)
    (by norm_num) (by norm_num) (by norm_num)

theorem lit_8_10 : lit (8 / 10) = fin (3602879701896397 / 4503599627370496) :=
  round_eval _ _ (-1) 7205759403792794 (by norm_num) (by norm_num) (by norm_num) (by norm_num)
    (by norm_num) (by norm_num) (by norm_num)

theorem lit_12_10 : lit (12 / 10) = fin (5404319552844595 / 4503599627370496) :=
  round_eval _ _ 0 5404319552844595 (by norm_num) (by norm_num) (by norm_num) (by norm_num)
    (by norm_num) (by norm_num) (by norm_num)

theorem lit_95_100 : lit (95 / 100) = fin (4278419646001971 / 4503599627370496) :=
  round_eval _ _ (-1) 8556839292003942 (by norm_num) (by norm_num) (by norm_num) (by norm_num)
    (by norm_num) (by norm_num) (by norm_num)

theorem lit_101_100 : lit (101 / 100) = fin (4548635623644201 / 4503599627370496) :=
  round_eval _ _ 0 4548635623644201 (by norm_num) (by norm_num) (by norm_num) (by norm_num)
    (by norm_num) (by norm_num) (by norm_num)

end Dbl

/-! ## The engine in binary64 arithmetic: the far-behind return and the speed -/

namespace Binary64

theorem updateVideoClock_short_circuit (m : AVSyncManager) (now : Int) (pts duration : Dbl)
    (hrun : m.paused_ = false)
    (hfar : Dbl.le (drift (afterVideoUpdate m now pts duration))
      (Dbl.neg (Dbl.lit (1 / 10))) = true) :
    (m.updateVideoClock now pts duration).2 = 1 := by
  rw [updateVideoClock_eq_dbl, hrun]
  simp only [Bool.false_eq_true, if_false, hfar, if_true]

theorem drift_of_valid_dbl (m : AVSyncManager) (now : Int) (pts duration : Dbl)
    (ha : m.aclock_.isValid = true)
    (hv : (m.updateClock now m.vclock_ pts duration false).2.isValid = true) :
    drift (afterVideoUpdate m now pts duration) =
      Dbl.div (Dbl.sub (m.updateClock now m.vclock_ pts duration false).2.pts m.aclock_.pts)
        m.speed_ := by
  unfold drift afterVideoUpdate
  simp only [ha, hv, Bool.and_self, if_true]

/-- C3: for an unpaused engine, when both clocks are valid after the video clock update and
the drift `(videoPts - audioPts) / speed`, as the machine computes it from them, satisfies
`diff <= -0.1`, `updateVideoClock` stores exactly 1, whatever the speed and the durations. -/
theorem far_behind_returns_one (m : AVSyncManager) (now : Int) (pts duration : Dbl)
    (hp : m.paused_ = false)
    (ha : m.aclock_.isValid = true)
    (hv : (m.updateClock now m.vclock_ pts duration false).2.isValid = true)
    (hd : Dbl.le
      (Dbl.div (Dbl.sub (m.updateClock now m.vclock_ pts duration false).2.pts m.aclock_.pts)
        m.speed_)
      (Dbl.neg (Dbl.lit (1 / 10))) = true) :
    (m.updateVideoClock now pts duration).2 = 1 := by
  apply updateVideoClock_short_circuit m now pts duration hp
  rw [drift_of_valid_dbl m now pts duration ha hv]
  exact hd

theorem resolveDuration_self (n last : Dbl) : resolveDuration n last n = n := by
  unfold resolveDuration
  split_ifs <;> rfl

theorem nominal_4_100_pos : Dbl.le (Dbl.lit (4 / 100)) (Dbl.fin 0) = false := by
  rw [Dbl.lit_4_100, Dbl.le_fin]
  norm_num

/-- The first update of a clock of a stream with nominal duration 0.04, with an unknown `pts`
and the nominal duration: the clock is extrapolated from 0 to 0.04 and becomes valid. -/
theorem first_update (m : AVSyncManager) (audio : Bool) (clock : Clock)
    (hn : nominalDuration m audio = Dbl.lit (4 / 100))
    (hc : clock = { Clock.default with duration := Dbl.lit (4 / 100) }) :
    (m.updateClock 0 clock (Dbl.fin (-1)) (Dbl.lit (4 / 100)) audio).2 =
      { isValid := true, pts := Dbl.lit (4 / 100), duration := Dbl.lit (4 / 100),
        lastPts := Dbl.fin 0, lastDuration := Dbl.lit (4 / 100),
        updateTime := AVSyncManager.systemClock 0 } := by
  rw [updateClock_of_nominal_pos_dbl _ _ _ _ _ _ (by rw [hn]; exact nominal_4_100_pos), hn, hc,
    resolveDuration_self]
  have hadd : Dbl.add (Dbl.fin 0) (Dbl.lit (4 / 100)) = Dbl.lit (4 / 100) := by
    have h := Dbl.round_idem Dbl.lit_4_100
    rw [Dbl.lit_4_100, Dbl.add_fin, zero_add, h]
  have hlt : Dbl.lt (Dbl.fin (-1)) (Dbl.fin 0) = true := by
    rw [Dbl.lt_fin]
    norm_num
  have hge : Dbl.ge (Dbl.fin 0) (Dbl.fin 0) = true := by
    rw [Dbl.ge, Dbl.le_fin]
    norm_num
  simp only [Clock.default, resolvePts, resolveValid, hlt, hge, if_true, hadd]

theorem farBehindEngine_video_update :
    (farBehindEngine.updateClock 0 farBehindEngine.vclock_ (Dbl.fin (-1)) (Dbl.lit (4 / 100))
        false).2 =
      { isValid := true, pts := Dbl.lit (4 / 100), duration := Dbl.lit (4 / 100),
        lastPts := Dbl.fin 0, lastDuration := Dbl.lit (4 / 100),
        updateTime := AVSyncManager.systemClock 0 } :=
  first_update farBehindEngine false _ rfl rfl

theorem far_behind_returns_one_witness :
    farBehindEngine.paused_ = false ∧ farBehindEngine.aclock_.isValid = true ∧
      (farBehindEngine.updateVideoClock 0 (Dbl.fin (-1)) (Dbl.lit (4 / 100))).2 = 1 :=
  ⟨rfl, rfl,
    far_behind_returns_one farBehindEngine 0 (Dbl.fin (-1)) (Dbl.lit (4 / 100)) rfl rfl
      (by rw [farBehindEngine_video_update])
      (by
        rw [farBehindEngine_video_update]
        have h1 : farBehindEngine.aclock_.pts = Dbl.fin 1 := rfl
        have h2 : farBehindEngine.speed_ = Dbl.fin 1 := rfl
        have h3 : Dbl.round (138350580552821637 / 144115188075855872) =
            Dbl.fin (1080863910568919 / 1125899906842624) :=
          Dbl.round_eval _ _ (-1) 8646911284551352 (by norm_num) (by norm_num) (by norm_num)
            (by norm_num) (by norm_num) (by norm_num) (by norm_num)
        have h4 := Dbl.round_eval_neg _ _ h3
        have h5 := Dbl.round_eval_neg _ _ (Dbl.round_idem h3)
        simp only [h1, h2]
        rw [Dbl.lit_4_100, Dbl.sub_fin,
          show (5764607523034235 / 144115188075855872 - 1 : ℚ) =
            -(138350580552821637 / 144115188075855872) by norm_num,
          h4, Dbl.div_fin _ _ (by norm_num), div_one, h5, Dbl.lit_1_10]
        simp only [Dbl.neg, Dbl.le_fin]
        norm_num)⟩

end Binary64

namespace Binary64

theorem updateVideoClock_fst_dbl (m : AVSyncManager) (now : Int) (pts duration : Dbl) :
    (m.updateVideoClock now pts duration).1 =
      if m.paused_ then m else afterVideoUpdate m now pts duration := by
  rw [updateVideoClock_eq_dbl]
  split_ifs <;> rfl

/-- Every call leaves the nominal durations as they are, and leaves the speed as it is or
sets it to `1.0` (`reset`) or to a positive argument (`setSpeed`). -/
theorem run_speed (m : AVSyncManager) (op : EngineOp) :
    (op.run m).speed_ = m.speed_ ∨ (op.run m).speed_ = Dbl.fin 1 ∨
      Dbl.gt (op.run m).speed_ (Dbl.fin 0) = true := by
  cases op with
  | reset => exact Or.inr (Or.inl rfl)
  | pause now =>
    left
    simp only [EngineOp.run, AVSyncManager.pause]
    split_ifs <;> rfl
  | resume now =>
    left
    simp only [EngineOp.run, AVSyncManager.resume]
    split_ifs <;> rfl
  | setSpeed speed =>
    simp only [EngineOp.run, AVSyncManager.setSpeed]
    split_ifs with h
    · rw [Bool.and_eq_true] at h
      exact Or.inr (Or.inr h.1)
    · exact Or.inl rfl
  | updateAudioClock now pts duration =>
    left
    simp only [EngineOp.run, AVSyncManager.updateAudioClock]
    split_ifs <;> rfl
  | updateVideoClock now pts duration =>
    left
    simp only [EngineOp.run, updateVideoClock_fst_dbl]
    split_ifs <;> rfl

theorem speed_pos_of_reachable_dbl (r : AVSyncManager) (h : EngineReachable r) :
    Dbl.gt r.speed_ (Dbl.fin 0) = true := by
  have h1 : Dbl.gt (Dbl.fin 1) (Dbl.fin 0) = true := by
    rw [Dbl.gt, Dbl.lt_fin]
    norm_num
  induction h with
  | create v a => exact h1
  | call m op _ ih =>
    rcases run_speed m op with h | h | h
    · rw [h]; exact ih
    · rw [h]; exact h1
    · exact h

/-- C11: `setSpeed(s)` stores `s` as the speed when the two tests of the method, `s > 0` and
`|speed - s| > 0.01` as the machine evaluates them, both succeed (engine `m`); in every other
case (engine `k`, argument `t`) it leaves the whole state unchanged; in both cases (engine
`j`, argument `u`) the two clocks, the pause flag and the nominal durations keep their values;
and the speed is positive in every reachable state. -/
theorem setSpeed_accepts_exactly (m : AVSyncManager) (s : Dbl)
    (haccept : (Dbl.gt s (Dbl.fin 0) &&
      Dbl.gt (Dbl.fabs (Dbl.sub m.speed_ s)) (Dbl.lit (1 / 100))) = true)
    (k : AVSyncManager) (t : Dbl)
    (hreject : (Dbl.gt t (Dbl.fin 0) &&
      Dbl.gt (Dbl.fabs (Dbl.sub k.speed_ t)) (Dbl.lit (1 / 100))) = false)
    (j : AVSyncManager) (u : Dbl) (r : AVSyncManager) (hreach : EngineReachable r) :
    (m.setSpeed s = { m with speed_ := s } ∧ (m.setSpeed s).speed_ = s) ∧
      k.setSpeed t = k ∧
      ((j.setSpeed u).vclock_ = j.vclock_ ∧ (j.setSpeed u).aclock_ = j.aclock_ ∧
        (j.setSpeed u).paused_ = j.paused_ ∧ (j.setSpeed u).vduration_ = j.vduration_ ∧
        (j.setSpeed u).aduration_ = j.aduration_) ∧
      Dbl.gt r.speed_ (Dbl.fin 0) = true := by
  refine ⟨?_, ?_, ?_, speed_pos_of_reachable_dbl r hreach⟩
  · unfold AVSyncManager.setSpeed
    rw [if_pos haccept]
    exact ⟨rfl, rfl⟩
  · unfold AVSyncManager.setSpeed
    rw [hreject]
    rfl
  · unfold AVSyncManager.setSpeed
    split_ifs <;> exact ⟨rfl, rfl, rfl, rfl, rfl⟩

/-- The engine at speed `1.0` accepts `setSpeed(1.01)`: the machine computes
`|1.0 - 1.01| = 0.010000000000000009`, which is above the literal `0.01`. -/
theorem setSpeed_1_01_accepted :
    (Dbl.gt (Dbl.lit (101 / 100)) (Dbl.fin 0) &&
      Dbl.gt (Dbl.fabs (Dbl.sub freshEngine.speed_ (Dbl.lit (101 / 100))))
        (Dbl.lit (1 / 100))) = true := by
  have h1 : freshEngine.speed_ = Dbl.fin 1 := rfl
  have h2 : Dbl.round (-(45035996273705 / 4503599627370496)) =
      Dbl.fin (-(45035996273705 / 4503599627370496)) :=
    Dbl.round_of_dyadic _ (-45035996273705) (-52) (by norm_num) (by norm_num) (by norm_num)
      (by norm_num)
  rw [h1, Dbl.lit_101_100, Dbl.sub_fin,
    show (1 - 4548635623644201 / 4503599627370496 : ℚ) =
      -(45035996273705 / 4503599627370496) by norm_num, h2, Dbl.lit_1_100]
  simp only [Dbl.fabs, Dbl.gt, Dbl.lt_fin, Bool.and_eq_true, decide_eq_true_eq]
  norm_num [abs_of_pos]

/-- The engine at speed `1.0` ignores `setSpeed(1.0)`. -/
theorem setSpeed_same_rejected :
    (Dbl.gt (Dbl.fin 1) (Dbl.fin 0) &&
      Dbl.gt (Dbl.fabs (Dbl.sub freshEngine.speed_ (Dbl.fin 1))) (Dbl.lit (1 / 100))) =
      false := by
  have h1 : freshEngine.speed_ = Dbl.fin 1 := rfl
  rw [h1, Dbl.sub_fin, sub_self, Dbl.round_zero, Dbl.lit_1_100]
  simp only [Dbl.fabs, Dbl.gt, Dbl.lt_fin, abs_zero]
  norm_num

theorem setSpeed_accepts_exactly_witness :
    (freshEngine.setSpeed (Dbl.lit (101 / 100)) =
        { freshEngine with speed_ := Dbl.lit (101 / 100) } ∧
      (freshEngine.setSpeed (Dbl.lit (101 / 100))).speed_ = Dbl.lit (101 / 100)) ∧
      freshEngine.setSpeed (Dbl.fin 1) = freshEngine ∧
      ((freshEngine.setSpeed (Dbl.fin 2)).vclock_ = freshEngine.vclock_ ∧
        (freshEngine.setSpeed (Dbl.fin 2)).aclock_ = freshEngine.aclock_ ∧
        (freshEngine.setSpeed (Dbl.fin 2)).paused_ = freshEngine.paused_ ∧
        (freshEngine.setSpeed (Dbl.fin 2)).vduration_ = freshEngine.vduration_ ∧
        (freshEngine.setSpeed (Dbl.fin 2)).aduration_ = freshEngine.aduration_) ∧
      Dbl.gt ((EngineOp.setSpeed (Dbl.lit (101 / 100))).run freshEngine).speed_ (Dbl.fin 0) =
        true :=
  setSpeed_accepts_exactly freshEngine (Dbl.lit (101 / 100)) setSpeed_1_01_accepted
    freshEngine (Dbl.fin 1) setSpeed_same_rejected freshEngine (Dbl.fin 2)
    ((EngineOp.setSpeed (Dbl.lit (101 / 100))).run freshEngine)
    (EngineReachable.call freshEngine (EngineOp.setSpeed (Dbl.lit (101 / 100)))
      (EngineReachable.create _ _))

end Binary64

/-! ## The engine in binary64 arithmetic: validity and duration of a clock -/

namespace Binary64

/-- On a stream whose nominal duration is not `<= 0`, the duration that `updateClock` stores
is not `<= 0` either. -/
theorem resolveDuration_not_nonpos (n last d : Dbl) (hn : Dbl.le n (Dbl.fin 0) = false) :
    Dbl.le (resolveDuration n last d) (Dbl.fin 0) = false := by
  unfold resolveDuration
  split_ifs with h1 h2
  · exact hn
  · exact hn
  · simpa using h1

theorem updateClock_sound (m : AVSyncManager) (now : Int) (clock : Clock) (pts duration : Dbl)
    (audio : Bool) :
    ((m.updateClock now clock pts duration audio).2.isValid = true →
      Dbl.le (m.updateClock now clock pts duration audio).2.duration (Dbl.fin 0) = false) ∧
    (Dbl.le (nominalDuration m audio) (Dbl.fin 0) = true →
      (m.updateClock now clock pts duration audio).2.isValid = false) := by
  cases hn : Dbl.le (nominalDuration m audio) (Dbl.fin 0)
  · rw [updateClock_of_nominal_pos_dbl m now clock pts duration audio hn]
    exact ⟨fun _ => resolveDuration_not_nonpos _ _ _ hn, fun h => Bool.noConfusion h⟩
  · rw [updateClock_of_nominal_nonpos_dbl m now clock pts duration audio hn]
    exact ⟨fun h => Bool.noConfusion h, fun _ => rfl⟩

/-- The soundness of the two clocks of an engine. -/
theorem run_sound (m : AVSyncManager) (op : EngineOp)
    (hv : (m.vclock_.isValid = true → Dbl.le m.vclock_.duration (Dbl.fin 0) = false) ∧
      (Dbl.le m.vduration_ (Dbl.fin 0) = true → m.vclock_.isValid = false))
    (ha : (m.aclock_.isValid = true → Dbl.le m.aclock_.duration (Dbl.fin 0) = false) ∧
      (Dbl.le m.aduration_ (Dbl.fin 0) = true → m.aclock_.isValid = false)) :
    (((op.run m).vclock_.isValid = true →
        Dbl.le (op.run m).vclock_.duration (Dbl.fin 0) = false) ∧
      (Dbl.le (op.run m).vduration_ (Dbl.fin 0) = true → (op.run m).vclock_.isValid = false)) ∧
    (((op.run m).aclock_.isValid = true →
        Dbl.le (op.run m).aclock_.duration (Dbl.fin 0) = false) ∧
      (Dbl.le (op.run m).aduration_ (Dbl.fin 0) = true →
        (op.run m).aclock_.isValid = false)) := by
  cases op with
  | reset =>
    exact ⟨⟨fun h => Bool.noConfusion h, fun _ => rfl⟩,
      ⟨fun h => Bool.noConfusion h, fun _ => rfl⟩⟩
  | pause now =>
    simp only [EngineOp.run, AVSyncManager.pause]
    split_ifs
    · exact ⟨hv, ha⟩
    · exact ⟨hv, ha⟩
  | resume now =>
    simp only [EngineOp.run, AVSyncManager.resume]
    split_ifs
    · exact ⟨hv, ha⟩
    · exact ⟨hv, ha⟩
  | setSpeed speed =>
    simp only [EngineOp.run, AVSyncManager.setSpeed]
    split_ifs
    · exact ⟨hv, ha⟩
    · exact ⟨hv, ha⟩
  | updateAudioClock now pts duration =>
    simp only [EngineOp.run, AVSyncManager.updateAudioClock]
    split_ifs
    · exact ⟨hv, ha⟩
    · exact ⟨hv, updateClock_sound m now m.aclock_ pts duration true⟩
  | updateVideoClock now pts duration =>
    simp only [EngineOp.run, updateVideoClock_fst_dbl]
    split_ifs
    · exact ⟨hv, ha⟩
    · exact ⟨updateClock_sound m now m.vclock_ pts duration false, ha⟩

theorem sound_of_reachable (r : AVSyncManager) (h : EngineReachable r) :
    ((r.vclock_.isValid = true → Dbl.le r.vclock_.duration (Dbl.fin 0) = false) ∧
      (Dbl.le r.vduration_ (Dbl.fin 0) = true → r.vclock_.isValid = false)) ∧
    ((r.aclock_.isValid = true → Dbl.le r.aclock_.duration (Dbl.fin 0) = false) ∧
      (Dbl.le r.aduration_ (Dbl.fin 0) = true → r.aclock_.isValid = false)) := by
  induction h with
  | create v a =>
    exact ⟨⟨fun h => Bool.noConfusion h, fun _ => rfl⟩,
      ⟨fun h => Bool.noConfusion h, fun _ => rfl⟩⟩
  | call m op _ ih => exact run_sound m op ih.1 ih.2

theorem pos_or_nan_of_not_nonpos {d : Dbl} (h : Dbl.le d (Dbl.fin 0) = false) :
    Dbl.gt d (Dbl.fin 0) = true ∨ d = Dbl.nan := by
  cases d with
  | nan => exact Or.inr rfl
  | ninf => exact Bool.noConfusion h
  | fin q =>
    left
    simpa [Dbl.gt, Dbl.lt, Dbl.le] using h
  | pinf => exact Or.inl rfl

/-- The first video update of a fresh engine with an unknown `pts` and the duration NaN. -/
theorem freshEngine_nan_update :
    (freshEngine.updateClock 0 freshEngine.vclock_ (Dbl.fin (-1)) Dbl.nan false).2 =
      { isValid := true, pts := Dbl.nan, duration := Dbl.nan, lastPts := Dbl.fin 0,
        lastDuration := Dbl.lit (4 / 100), updateTime := AVSyncManager.systemClock 0 } := by
  have hn : nominalDuration freshEngine false = Dbl.lit (4 / 100) := rfl
  rw [updateClock_of_nominal_pos_dbl _ _ _ _ _ _ (by rw [hn]; exact nominal_4_100_pos), hn]
  have hc : freshEngine.vclock_ = { Clock.default with duration := Dbl.lit (4 / 100) } := rfl
  have hlt : Dbl.lt (Dbl.fin (-1)) (Dbl.fin 0) = true := by
    rw [Dbl.lt_fin]
    norm_num
  have hge : Dbl.ge (Dbl.fin 0) (Dbl.fin 0) = true := by
    rw [Dbl.ge, Dbl.le_fin]
    norm_num
  have hd : resolveDuration (Dbl.lit (4 / 100)) (Dbl.lit (4 / 100)) Dbl.nan = Dbl.nan := by
    simp [resolveDuration, Dbl.le, Dbl.sub, Dbl.neg, Dbl.add, Dbl.fabs, Dbl.ge, Dbl.le_nan_right]
  rw [hc]
  simp only [Clock.default, hd, resolvePts, resolveValid, hlt, hge, if_true]
  rfl

/-- Counterexample to C14 as stated: the state of a fresh engine (nominal durations 0.04)
after `updateVideoClock(-1, NaN)` is reachable, its video clock is valid, and the duration of
that clock is NaN, which is not `> 0`. -/
theorem valid_clock_with_nan_duration :
    EngineReachable (freshEngine.updateVideoClock 0 (Dbl.fin (-1)) Dbl.nan).1 ∧
      (freshEngine.updateVideoClock 0 (Dbl.fin (-1)) Dbl.nan).1.vclock_.isValid = true ∧
      (freshEngine.updateVideoClock 0 (Dbl.fin (-1)) Dbl.nan).1.vclock_.duration = Dbl.nan ∧
      Dbl.gt (freshEngine.updateVideoClock 0 (Dbl.fin (-1)) Dbl.nan).1.vclock_.duration
        (Dbl.fin 0) = false := by
  have h : (freshEngine.updateVideoClock 0 (Dbl.fin (-1)) Dbl.nan).1.vclock_ =
      { isValid := true, pts := Dbl.nan, duration := Dbl.nan, lastPts := Dbl.fin 0,
        lastDuration := Dbl.lit (4 / 100), updateTime := AVSyncManager.systemClock 0 } := by
    rw [updateVideoClock_fst_dbl]
    have hp : freshEngine.paused_ = false := rfl
    rw [hp]
    simp only [Bool.false_eq_true, if_false, afterVideoUpdate]
    exact freshEngine_nan_update
  refine ⟨EngineReachable.call _ (EngineOp.updateVideoClock 0 (Dbl.fin (-1)) Dbl.nan)
    (EngineReachable.create _ _), ?_, ?_, ?_⟩
  · rw [h]
  · rw [h]
  · rw [h]
    rfl

/-- C14, as amended: in every reachable engine state, for the video clock and for the audio
clock, `isValid = true` implies that the test `duration <= 0` fails, so that the duration is
`> 0` or NaN; and the clock of a stream whose nominal duration is `<= 0` is never valid. -/
theorem valid_clock_duration_pos_or_nan (r : AVSyncManager) (hreach : EngineReachable r) :
    ((r.vclock_.isValid = true →
        Dbl.le r.vclock_.duration (Dbl.fin 0) = false ∧
          (Dbl.gt r.vclock_.duration (Dbl.fin 0) = true ∨ r.vclock_.duration = Dbl.nan)) ∧
      (r.aclock_.isValid = true →
        Dbl.le r.aclock_.duration (Dbl.fin 0) = false ∧
          (Dbl.gt r.aclock_.duration (Dbl.fin 0) = true ∨ r.aclock_.duration = Dbl.nan))) ∧
    ((Dbl.le r.vduration_ (Dbl.fin 0) = true → r.vclock_.isValid = false) ∧
      (Dbl.le r.aduration_ (Dbl.fin 0) = true → r.aclock_.isValid = false)) := by
  have h := sound_of_reachable r hreach
  exact ⟨⟨fun hv => ⟨h.1.1 hv, pos_or_nan_of_not_nonpos (h.1.1 hv)⟩,
    fun ha => ⟨h.2.1 ha, pos_or_nan_of_not_nonpos (h.2.1 ha)⟩⟩, h.1.2, h.2.2⟩

end Binary64

/-! ## The engine in binary64 arithmetic: the delay table -/

namespace Dbl

theorem mul_comm_dbl (a b : Dbl) : mul a b = mul b a := by
  cases a <;> cases b <;> simp [mul, mul_comm]

/-- The values of type `Dbl` that the format holds: a finite one is its own rounding. -/
theorem div_is_value (a b : Dbl) (q : ℚ) (h : div a b = fin q) : round q = fin q := by
  cases a with
  | nan => simp [div] at h
  | ninf =>
    cases b with
    | fin y => simp only [div, infOfSign, sign] at h; split_ifs at h
    | _ => simp [div] at h
  | pinf =>
    cases b with
    | fin y => simp only [div, infOfSign, sign] at h; split_ifs at h
    | _ => simp [div] at h
  | fin x =>
    cases b with
    | nan => simp [div] at h
    | ninf =>
      simp only [div] at h
      injection h with h
      rw [← h, round_zero]
    | pinf =>
      simp only [div] at h
      injection h with h
      rw [← h, round_zero]
    | fin y =>
      simp only [div] at h
      split_ifs at h with hy
      · simp only [infOfSign, sign] at h
        split_ifs at h
      · exact round_idem h

theorem one_mul_of_value (y : Dbl) (h : ∀ q, y = fin q → round q = fin q) :
    mul (fin 1) y = y := by
  cases y with
  | nan => rfl
  | ninf => simp [mul, sign, infOfSign]
  | pinf => simp [mul, sign, infOfSign]
  | fin q =>
    simp only [mul, one_mul]
    exact h q rfl

theorem one_mul_div (a b : Dbl) : mul (fin 1) (div a b) = div a b :=
  one_mul_of_value _ (fun q h => div_is_value a b q h)

/-- The clamp of a value that is not NaN between two finite bounds, in the order of the
source (`std::max(lo, std::min(x, hi))`) and in the order of the specification. -/
theorem clamp_swap (x : Dbl) (lo hi : ℚ) (hx : x ≠ nan) (h : lo < hi) :
    stdMax (fin lo) (stdMin x (fin hi)) = stdMin (stdMax x (fin lo)) (fin hi) := by
  cases x with
  | nan => exact absurd rfl hx
  | ninf => simp [stdMax, stdMin, lt, not_lt.mpr h.le]
  | pinf => simp [stdMax, stdMin, lt, h]
  | fin q =>
    simp only [stdMax, stdMin]
    split_ifs <;> simp only [lt_fin, decide_eq_true_eq, not_lt] at * <;> first
      | rfl
      | (exfalso; linarith)
      | (congr 1; linarith)

theorem clamp_nan (lo hi : Dbl) : stdMax lo (stdMin nan hi) = lo := by
  simp [stdMax, stdMin, lt_nan_right]

end Dbl

namespace Binary64

theorem lit_001_lt_lit_01 :
    (1152921504606847 / 1152921504606846976 : ℚ) < 3602879701896397 / 36028797018963968 := by
  norm_num

theorem clampDelay_eq (x : Dbl) (hx : x ≠ Dbl.nan) :
    clampDelay x = Dbl.stdMin (Dbl.stdMax x (Dbl.lit (1 / 1000))) (Dbl.lit (1 / 10)) := by
  unfold clampDelay
  rw [Dbl.lit_1_1000, Dbl.lit_1_10]
  exact Dbl.clamp_swap x _ _ hx lit_001_lt_lit_01

/-- The branch `diff < -0.15` of the fast regime is not taken by a drift above `-0.1`. -/
theorem not_below_015 (diff : Dbl) (hband : Dbl.gt diff (Dbl.neg (Dbl.lit (1 / 10))) = true) :
    Dbl.lt diff (Dbl.neg (Dbl.lit (15 / 100))) = false := by
  have h1 : Dbl.le (Dbl.neg (Dbl.lit (15 / 100))) (Dbl.neg (Dbl.lit (1 / 10))) = true :=
    Dbl.le_neg_neg (Dbl.lit_mono (by norm_num))
  have h2 : Dbl.lt (Dbl.neg (Dbl.lit (15 / 100))) diff = true := Dbl.le_chain_lt h1 hband
  exact Dbl.lt_false_of_le (Dbl.le_of_lt_true h2)

theorem adjustDelay_eq_table_dbl (speed diff a b : Dbl)
    (hband : Dbl.gt diff (Dbl.neg (Dbl.lit (1 / 10))) = true) :
    adjustDelay speed diff (Dbl.div a b) =
      Dbl.mul (tableMultiplier speed diff) (Dbl.div a b) := by
  have hdead := not_below_015 diff hband
  unfold adjustDelay tableMultiplier
  simp only [hdead, Bool.false_eq_true, if_false]
  split_ifs <;> first
    | exact Dbl.mul_comm_dbl _ _
    | exact (Dbl.one_mul_div a b).symm

end Binary64

namespace Binary64

theorem updateVideoClock_table (m : AVSyncManager) (now : Int) (pts duration : Dbl)
    (hrun : m.paused_ = false)
    (hband : Dbl.gt (drift (afterVideoUpdate m now pts duration))
      (Dbl.neg (Dbl.lit (1 / 10))) = true) :
    (m.updateVideoClock now pts duration).2 =
      Dbl.toInt (Dbl.mul
        (clampDelay (Dbl.mul
          (tableMultiplier m.speed_ (drift (afterVideoUpdate m now pts duration)))
          (Dbl.div (afterVideoUpdate m now pts duration).vclock_.duration m.speed_)))
        (Dbl.fin 1000)) := by
  have hnot : Dbl.le (drift (afterVideoUpdate m now pts duration))
      (Dbl.neg (Dbl.lit (1 / 10))) = false := by
    cases h : Dbl.le (drift (afterVideoUpdate m now pts duration)) (Dbl.neg (Dbl.lit (1 / 10)))
    · rfl
    · have := Dbl.lt_false_of_le h
      rw [Dbl.gt, this] at hband
      exact Bool.noConfusion hband
  rw [updateVideoClock_eq_dbl, hrun, hnot, adjustDelay_eq_table_dbl _ _ _ _ hband]
  simp only [Bool.false_eq_true, if_false]

/-- The lower bound of the clamp in milliseconds: `0.001 * 1000` is exactly 1. -/
theorem lower_bound_millis :
    Dbl.mul (Dbl.lit (1 / 1000)) (Dbl.fin 1000) = Dbl.fin 1 := by
  rw [Dbl.lit_1_1000, Dbl.mul_fin]
  exact Dbl.round_eval _ _ 0 4503599627370496 (by norm_num) (by norm_num) (by norm_num)
    (by norm_num) (by norm_num) (by norm_num) (by norm_num)

/-- C21: for an unpaused engine, with `B` the video clock duration after the update divided by
the speed and `diff` the drift computed after the update (`(videoPts - audioPts) / speed` if
both clocks are valid, else 0), all in the arithmetic of the machine, whenever `diff > -0.1`
the call stores `trunc(1000 * min(max(m * B, 0.001), 0.1))`, `m` being the multiplier that the
delay table gives for the speed and `diff`.  The formula is read on numbers: when the product
`m * B` is NaN (a clock duration that is NaN), the clamp of the source yields its lower bound
and the call stores 1. -/
theorem delay_table (m : AVSyncManager) (now : Int) (pts duration : Dbl)
    (hrun : m.paused_ = false)
    (hband : Dbl.gt (drift (afterVideoUpdate m now pts duration))
      (Dbl.neg (Dbl.lit (1 / 10))) = true) :
    (Dbl.mul (tableMultiplier m.speed_ (drift (afterVideoUpdate m now pts duration)))
        (Dbl.div (afterVideoUpdate m now pts duration).vclock_.duration m.speed_) ≠ Dbl.nan →
      (m.updateVideoClock now pts duration).2 =
        tableSleep (tableMultiplier m.speed_ (drift (afterVideoUpdate m now pts duration)))
          (Dbl.div (afterVideoUpdate m now pts duration).vclock_.duration m.speed_)) ∧
    (Dbl.mul (tableMultiplier m.speed_ (drift (afterVideoUpdate m now pts duration)))
        (Dbl.div (afterVideoUpdate m now pts duration).vclock_.duration m.speed_) = Dbl.nan →
      (m.updateVideoClock now pts duration).2 = 1) := by
  rw [updateVideoClock_table m now pts duration hrun hband]
  constructor
  · intro hx
    rw [clampDelay_eq _ hx, Dbl.mul_comm_dbl]
    rfl
  · intro hx
    rw [hx]
    unfold clampDelay
    rw [Dbl.clamp_nan, lower_bound_millis]
    simp [Dbl.toInt, truncToInt]

end Binary64

/-! ## The engine in binary64 arithmetic: the base delay -/

namespace Binary64

theorem drift_of_invalid_audio (m : AVSyncManager) (now : Int) (pts duration : Dbl)
    (h : m.aclock_.isValid = false) :
    drift (afterVideoUpdate m now pts duration) = Dbl.fin 0 := by
  unfold drift afterVideoUpdate
  simp [h]

theorem adjustDelay_of_noAdjustment (speed diff delay : Dbl)
    (h : noAdjustment speed diff = true) : adjustDelay speed diff delay = delay := by
  unfold noAdjustment at h
  unfold adjustDelay
  cases h1 : Dbl.le speed (Dbl.lit (8 / 10))
  · cases h2 : Dbl.ge speed (Dbl.lit (12 / 10))
    · simp only [h1, h2, Bool.false_eq_true, if_false, Bool.and_eq_true,
        Bool.not_eq_true'] at h ⊢
      simp only [h.1.1.1, h.1.1.2, h.1.2, h.2, Bool.false_eq_true, if_false]
    · simp only [h1, h2, Bool.false_eq_true, if_false, if_true, Bool.and_eq_true,
        Bool.not_eq_true'] at h ⊢
      simp only [h.1.1.1, h.1.1.2, h.1.2, h.2, Bool.false_eq_true, if_false]
  · simp only [h1, if_true, Bool.and_eq_true, Bool.not_eq_true'] at h ⊢
    simp only [h.1.1.1, h.1.1.2, h.1.2, h.2, Bool.false_eq_true, if_false]

theorem not_nonpos_of_pos {d : Dbl} (h : Dbl.gt d (Dbl.fin 0) = true) :
    Dbl.le d (Dbl.fin 0) = false := by
  cases hle : Dbl.le d (Dbl.fin 0)
  · rfl
  · have := Dbl.lt_false_of_le hle
    rw [Dbl.gt, this] at h
    exact Bool.noConfusion h

theorem not_far_of_band {diff : Dbl}
    (hband : Dbl.gt diff (Dbl.neg (Dbl.lit (1 / 10))) = true) :
    Dbl.le diff (Dbl.neg (Dbl.lit (1 / 10))) = false := by
  cases h : Dbl.le diff (Dbl.neg (Dbl.lit (1 / 10)))
  · rfl
  · have := Dbl.lt_false_of_le h
    rw [Dbl.gt, this] at hband
    exact Bool.noConfusion hband

/-- C22, as amended: for an unpaused engine with positive nominal video duration, the delay
that `updateVideoClock` adjusts and clamps is `D / speed`, where `D` is the duration of the
video clock after the update: the incoming duration unless the test `duration <= 0` or one of
the two outlier tests of `updateClock` succeeds, the nominal video duration otherwise (in
particular when the incoming duration is `<= 0`).  Whenever the drift is above `-0.1` and no
row of the table matches (multiplier 1), the call stores
`trunc(1000 * min(max(D / speed, 0.001), 0.1))`, all in the arithmetic of the machine; the
formula is read on numbers, and the call stores 1 when `D / speed` is NaN. -/
theorem base_delay_is_clock_duration (m : AVSyncManager) (now : Int) (pts duration : Dbl)
    (hrun : m.paused_ = false) (hnominal : Dbl.gt m.vduration_ (Dbl.fin 0) = true) :
    (m.updateClock now m.vclock_ pts duration false).2.duration =
        resolveDuration m.vduration_ m.vclock_.duration duration ∧
      (Dbl.le duration (Dbl.fin 0) = true →
        (m.updateClock now m.vclock_ pts duration false).2.duration = m.vduration_) ∧
      (Dbl.gt (drift (afterVideoUpdate m now pts duration)) (Dbl.neg (Dbl.lit (1 / 10))) = true →
        noAdjustment m.speed_ (drift (afterVideoUpdate m now pts duration)) = true →
        (Dbl.div (resolveDuration m.vduration_ m.vclock_.duration duration) m.speed_ ≠ Dbl.nan →
          (m.updateVideoClock now pts duration).2 =
            Dbl.toInt (Dbl.mul (Dbl.fin 1000)
              (Dbl.stdMin (Dbl.stdMax
                (Dbl.div (resolveDuration m.vduration_ m.vclock_.duration duration) m.speed_)
                (Dbl.lit (1 / 1000))) (Dbl.lit (1 / 10))))) ∧
        (Dbl.div (resolveDuration m.vduration_ m.vclock_.duration duration) m.speed_ = Dbl.nan →
          (m.updateVideoClock now pts duration).2 = 1)) := by
  have hd : (m.updateClock now m.vclock_ pts duration false).2.duration =
      resolveDuration m.vduration_ m.vclock_.duration duration := by
    rw [updateClock_of_nominal_pos_dbl m now m.vclock_ pts duration false
      (not_nonpos_of_pos hnominal)]
    rfl
  refine ⟨hd, ?_, ?_⟩
  · intro h0
    rw [hd]
    unfold resolveDuration
    rw [if_pos h0]
  · intro hband hone
    have hv : (afterVideoUpdate m now pts duration).vclock_.duration =
        resolveDuration m.vduration_ m.vclock_.duration duration := hd
    rw [updateVideoClock_eq_dbl, hrun, not_far_of_band hband,
      adjustDelay_of_noAdjustment _ _ _ hone, hv]
    simp only [Bool.false_eq_true, if_false]
    constructor
    · intro hx
      rw [clampDelay_eq _ hx, Dbl.mul_comm_dbl]
    · intro hx
      rw [hx]
      unfold clampDelay
      rw [Dbl.clamp_nan, lower_bound_millis]
      simp [Dbl.toInt, truncToInt]

end Binary64

/-! ## The engine in binary64 arithmetic: duration resolution -/

namespace Dbl

theorem le_pinf {a : Dbl} (h : a ≠ nan) : le a pinf = true := by
  cases a <;> simp [le] at h ⊢

theorem le_ninf {a : Dbl} (h : a ≠ nan) : le ninf a = true := by
  cases a <;> simp [le] at h ⊢

theorem div_fin_two (y : ℚ) : div (fin y) (fin 2) = round (y / 2) :=
  div_fin y 2 (by norm_num)

/-- The deviation test of `updateClock` on finite values: when `|x - y| >= y / 2` fails in
the machine, `x` lies strictly between `y / 2` and `3y / 2`. -/
theorem bounds_of_near (x y : ℚ)
    (h : ge (fabs (sub (fin x) (fin y))) (div (fin y) (fin 2)) = false) :
    y / 2 < x ∧ x < 3 * y / 2 := by
  rw [sub_fin, div_fin_two] at h
  have key : ∀ t : ℚ, y / 2 ≤ t → fabs (round t) = fabs (round (x - y)) → False := by
    intro t ht hf
    have h1 : le (round (y / 2)) (round t) = true := round_mono ht
    have h2 : le (round t) (fabs (round t)) = true := le_fabs (round_ne_nan t)
    have h3 := le_chain h1 h2
    rw [hf] at h3
    rw [ge, h3] at h
    exact Bool.noConfusion h
  constructor
  · by_contra hc
    apply key (y - x) (by linarith)
    rw [show x - y = -(y - x) by ring, round_neg, fabs_neg]
  · by_contra hc
    exact key (x - y) (by linarith) rfl

end Dbl

namespace Binary64

/-- The outcome of the duration resolution for a finite nominal duration `y > 0` and an
incoming and a previous duration that are not NaN. -/
theorem resolveDuration_cases (y : ℚ) (p d : Dbl) (hd : d ≠ Dbl.nan) (hp : p ≠ Dbl.nan) :
    resolveDuration (Dbl.fin y) p d =
      if Dbl.gt d (Dbl.fin 0) &&
          Dbl.lt (Dbl.fabs (Dbl.sub d p)) (Dbl.div (Dbl.fin y) (Dbl.fin 2)) &&
          Dbl.lt (Dbl.fabs (Dbl.sub d (Dbl.fin y))) (Dbl.div (Dbl.fin y) (Dbl.fin 2))
      then d else Dbl.fin y := by
  have hh : Dbl.div (Dbl.fin y) (Dbl.fin 2) ≠ Dbl.nan := by
    rw [Dbl.div_fin_two]
    exact Dbl.round_ne_nan _
  unfold resolveDuration
  generalize Dbl.div (Dbl.fin y) (Dbl.fin 2) = h at hh ⊢
  cases h0 : Dbl.le d (Dbl.fin 0)
  · have hpos : Dbl.gt d (Dbl.fin 0) = true :=
      (Dbl.le_eq_false_iff hd (by simp)).mp h0
    have hB : Dbl.fabs (Dbl.sub d (Dbl.fin y)) ≠ Dbl.nan := by
      cases d with
      | nan => exact absurd rfl hd
      | ninf => simp [Dbl.sub, Dbl.neg, Dbl.add, Dbl.fabs]
      | pinf => simp [Dbl.sub, Dbl.neg, Dbl.add, Dbl.fabs]
      | fin x =>
        rw [Dbl.sub_fin]
        exact Dbl.fabs_ne_nan (Dbl.round_ne_nan _)
    have hBlt : Dbl.lt (Dbl.fabs (Dbl.sub d (Dbl.fin y))) h =
        !Dbl.ge (Dbl.fabs (Dbl.sub d (Dbl.fin y))) h := by
      cases hge : Dbl.ge (Dbl.fabs (Dbl.sub d (Dbl.fin y))) h
      · exact (Dbl.le_eq_false_iff hh hB).mp hge
      · exact Dbl.lt_false_of_le hge
    by_cases hA : Dbl.fabs (Dbl.sub d p) = Dbl.nan
    · have hinf : Dbl.ge (Dbl.fabs (Dbl.sub d (Dbl.fin y))) h = true := by
        cases d with
        | nan => exact absurd rfl hd
        | ninf => exact Dbl.le_pinf hh
        | pinf => exact Dbl.le_pinf hh
        | fin x =>
          exfalso
          cases p with
          | nan => exact hp rfl
          | ninf => simp [Dbl.sub, Dbl.neg, Dbl.add, Dbl.fabs] at hA
          | pinf => simp [Dbl.sub, Dbl.neg, Dbl.add, Dbl.fabs] at hA
          | fin z =>
            rw [Dbl.sub_fin] at hA
            exact Dbl.fabs_ne_nan (Dbl.round_ne_nan _) hA
      have hAge : Dbl.ge (Dbl.fabs (Dbl.sub d p)) h = false := by
        rw [hA]
        exact Dbl.le_nan_right h
      have hAlt : Dbl.lt (Dbl.fabs (Dbl.sub d p)) h = false := by
        rw [hA]
        exact Dbl.lt_nan_left h
      simp only [hpos, hAge, hAlt, hinf, Bool.false_eq_true, if_false, Bool.or_true, if_true,
        Bool.and_false, Bool.false_and]
    · have hAlt : Dbl.lt (Dbl.fabs (Dbl.sub d p)) h = !Dbl.ge (Dbl.fabs (Dbl.sub d p)) h := by
        cases hge : Dbl.ge (Dbl.fabs (Dbl.sub d p)) h
        · exact (Dbl.le_eq_false_iff hh hA).mp hge
        · exact Dbl.lt_false_of_le hge
      simp only [hpos, h0, hAlt, hBlt, Bool.false_eq_true, if_false, Bool.true_and]
      cases Dbl.ge (Dbl.fabs (Dbl.sub d p)) h <;>
        cases Dbl.ge (Dbl.fabs (Dbl.sub d (Dbl.fin y))) h <;> simp
  · have hpos : Dbl.gt d (Dbl.fin 0) = false := Dbl.lt_false_of_le h0
    simp only [hpos, if_true, Bool.false_and, Bool.false_eq_true, if_false]

/-- The resolved duration for a finite nominal duration `y > 0` and an incoming duration that
is not NaN is finite and lies strictly between `y / 2` and `3y / 2`. -/
theorem resolveDuration_bounds (y : ℚ) (hy : 0 < y) (p d : Dbl) (hd : d ≠ Dbl.nan) :
    ∃ z : ℚ, resolveDuration (Dbl.fin y) p d = Dbl.fin z ∧ y / 2 < z ∧ z < 3 * y / 2 := by
  unfold resolveDuration
  split_ifs with h1 h2
  · exact ⟨y, rfl, by linarith, by linarith⟩
  · exact ⟨y, rfl, by linarith, by linarith⟩
  · rw [Bool.or_eq_true, not_or] at h2
    have hB : Dbl.ge (Dbl.fabs (Dbl.sub d (Dbl.fin y))) (Dbl.div (Dbl.fin y) (Dbl.fin 2)) =
        false := by simpa using h2.2
    have hh : Dbl.div (Dbl.fin y) (Dbl.fin 2) ≠ Dbl.nan := by
      rw [Dbl.div_fin_two]
      exact Dbl.round_ne_nan _
    cases d with
    | nan => exact absurd rfl hd
    | ninf =>
      exfalso
      have : Dbl.ge (Dbl.fabs (Dbl.sub Dbl.ninf (Dbl.fin y)))
          (Dbl.div (Dbl.fin y) (Dbl.fin 2)) = true := Dbl.le_pinf hh
      rw [this] at hB
      exact Bool.noConfusion hB
    | pinf =>
      exfalso
      have : Dbl.ge (Dbl.fabs (Dbl.sub Dbl.pinf (Dbl.fin y)))
          (Dbl.div (Dbl.fin y) (Dbl.fin 2)) = true := Dbl.le_pinf hh
      rw [this] at hB
      exact Bool.noConfusion hB
    | fin x => exact ⟨x, rfl, Dbl.bounds_of_near x y hB⟩

/-- C24, as amended: with a finite nominal duration `n > 0`, after `updateClock` the clock's
`lastPts` and `lastDuration` are the clock's `pts` and `duration` from before the call; when
neither the incoming duration nor the previous duration of the clock is NaN, the clock's
`duration` is the incoming duration when that is `> 0` and the machine finds it less than
`n / 2` away from both the previous duration and `n`, and it is `n` in every other case; and
when the incoming duration is not NaN, the stored duration is a finite number with
`n / 2 < duration < 3n / 2`. -/
theorem duration_resolution (m : AVSyncManager) (now : Int) (clock : Clock)
    (pts duration : Dbl) (audio : Bool) (y : ℚ)
    (hn : nominalDuration m audio = Dbl.fin y) (hy : 0 < y) (hd : duration ≠ Dbl.nan) :
    ((m.updateClock now clock pts duration audio).2.lastPts = clock.pts ∧
      (m.updateClock now clock pts duration audio).2.lastDuration = clock.duration) ∧
    (clock.duration ≠ Dbl.nan →
      (m.updateClock now clock pts duration audio).2.duration =
        if Dbl.gt duration (Dbl.fin 0) &&
            Dbl.lt (Dbl.fabs (Dbl.sub duration clock.duration))
              (Dbl.div (nominalDuration m audio) (Dbl.fin 2)) &&
            Dbl.lt (Dbl.fabs (Dbl.sub duration (nominalDuration m audio)))
              (Dbl.div (nominalDuration m audio) (Dbl.fin 2))
        then duration else nominalDuration m audio) ∧
    (∃ z : ℚ, (m.updateClock now clock pts duration audio).2.duration = Dbl.fin z ∧
      y / 2 < z ∧ z < 3 * y / 2) := by
  have hpos : Dbl.le (nominalDuration m audio) (Dbl.fin 0) = false := by
    rw [hn, Dbl.le_fin]
    simpa using hy
  rw [updateClock_of_nominal_pos_dbl m now clock pts duration audio hpos, hn]
  exact ⟨⟨rfl, rfl⟩, fun hp => resolveDuration_cases y clock.duration duration hd hp,
    resolveDuration_bounds y hy clock.duration duration hd⟩

end Binary64

/-! ## The engine in binary64 arithmetic: the pts of a clock -/

namespace Dbl

theorem ne_nan_of_isNaN {a : Dbl} (h : a.isNaN = false) : a ≠ nan := by
  rintro rfl
  exact Bool.noConfusion h

theorem isNaN_of_ne_nan {a : Dbl} (h : a ≠ nan) : a.isNaN = false := by
  cases a <;> first | rfl | exact absurd rfl h

theorem add_nonneg_dbl {a b : Dbl} (ha : le (fin 0) a = true) (hb : lt (fin 0) b = true) :
    le (fin 0) (add a b) = true := by
  cases a with
  | nan => simp [le] at ha
  | ninf => simp [le] at ha
  | pinf =>
    cases b with
    | nan => simp [lt] at hb
    | ninf => simp [lt] at hb
    | pinf => rfl
    | fin y => rfl
  | fin x =>
    cases b with
    | nan => simp [lt] at hb
    | ninf => simp [lt] at hb
    | pinf => rfl
    | fin y =>
      rw [add_fin]
      apply round_nonneg
      simp only [le_fin, lt_fin, decide_eq_true_eq] at ha hb
      linarith

theorem lt_asymm_dbl {a b : Dbl} (h : lt a b = true) : lt b a = false :=
  lt_false_of_le (le_of_lt_true h)

theorem eq_false_of_lt {a b : Dbl} (h : lt a b = true) : eq b a = false := by
  cases a <;> cases b <;> simp [lt, eq] at h ⊢
  exact h.ne'

theorem pos_of_not_neg_not_zero {a : Dbl} (hn : a ≠ nan) (h1 : lt a (fin 0) = false)
    (h2 : eq a (fin 0) = false) : lt (fin 0) a = true := by
  cases a with
  | nan => exact absurd rfl hn
  | ninf => simp [lt] at h1
  | pinf => rfl
  | fin x =>
    simp only [lt_fin, eq_fin, decide_eq_false_iff_not, decide_eq_true_eq, not_lt] at h1 h2 ⊢
    exact lt_of_le_of_ne h1 (Ne.symm h2)

theorem eq_zero_of_eq {a : Dbl} (h : eq a (fin 0) = true) : a = fin 0 := by
  cases a <;> simp [eq] at h ⊢
  exact h

end Dbl

namespace Binary64

theorem resolveDuration_pos (n p d : Dbl) (hn : n ≠ Dbl.nan)
    (hpos : Dbl.le n (Dbl.fin 0) = false) (hd : d ≠ Dbl.nan) :
    Dbl.lt (Dbl.fin 0) (resolveDuration n p d) = true := by
  have h0 : (Dbl.fin 0) ≠ Dbl.nan := by simp
  unfold resolveDuration
  split_ifs with h1 h2
  · exact (Dbl.le_eq_false_iff hn h0).mp hpos
  · exact (Dbl.le_eq_false_iff hn h0).mp hpos
  · exact (Dbl.le_eq_false_iff hd h0).mp (by simpa using h1)

theorem resolvePts_nonneg (last d pts : Dbl) (hlast : Dbl.ge last (Dbl.fin 0) = true)
    (hd : Dbl.lt (Dbl.fin 0) d = true) (hpts : pts ≠ Dbl.nan) :
    Dbl.ge (resolvePts last d pts) (Dbl.fin 0) = true := by
  have hz : Dbl.ge (Dbl.fin 0) (Dbl.fin 0) = true := by simp [Dbl.ge, Dbl.le]
  unfold resolvePts
  rw [hlast]
  simp only [if_true]
  split_ifs with h1 h2 h3 h4
  · exact Dbl.add_nonneg_dbl hlast hd
  · rw [Dbl.eq_zero_of_eq h2]
    exact hz
  · exact hz
  · exact Dbl.add_nonneg_dbl hlast hd
  · exact Dbl.le_of_lt_true
      (Dbl.pos_of_not_neg_not_zero hpts (by simpa using h1) (by simpa using h2))

theorem updateClock_pts_nonneg (m : AVSyncManager) (now : Int) (clock : Clock)
    (pts duration : Dbl) (audio : Bool) (hn : nominalDuration m audio ≠ Dbl.nan)
    (hc : Dbl.ge clock.pts (Dbl.fin 0) = true) (hpts : pts ≠ Dbl.nan)
    (hdur : duration ≠ Dbl.nan) :
    Dbl.ge (m.updateClock now clock pts duration audio).2.pts (Dbl.fin 0) = true := by
  cases hpos : Dbl.le (nominalDuration m audio) (Dbl.fin 0)
  · rw [updateClock_of_nominal_pos_dbl m now clock pts duration audio hpos]
    exact resolvePts_nonneg _ _ _ hc (resolveDuration_pos _ _ _ hn hpos hdur) hpts
  · rw [updateClock_of_nominal_nonpos_dbl m now clock pts duration audio hpos]
    exact hc

/-- The invariant of the runs without NaN: the nominal durations are not NaN and the `pts` of
both clocks is `>= 0`. -/
theorem run_pts_nonneg (m : AVSyncManager) (op : EngineOp) (hop : op.numeric = true)
    (h : (m.vduration_ ≠ Dbl.nan ∧ m.aduration_ ≠ Dbl.nan) ∧
      Dbl.ge m.vclock_.pts (Dbl.fin 0) = true ∧ Dbl.ge m.aclock_.pts (Dbl.fin 0) = true) :
    ((op.run m).vduration_ ≠ Dbl.nan ∧ (op.run m).aduration_ ≠ Dbl.nan) ∧
      Dbl.ge (op.run m).vclock_.pts (Dbl.fin 0) = true ∧
      Dbl.ge (op.run m).aclock_.pts (Dbl.fin 0) = true := by
  have hz : Dbl.ge (Dbl.fin 0) (Dbl.fin 0) = true := by simp [Dbl.ge, Dbl.le]
  cases op with
  | reset => exact ⟨h.1, hz, hz⟩
  | pause now =>
    simp only [EngineOp.run, AVSyncManager.pause]
    split_ifs
    · exact h
    · exact h
  | resume now =>
    simp only [EngineOp.run, AVSyncManager.resume]
    split_ifs
    · exact h
    · exact h
  | setSpeed speed =>
    simp only [EngineOp.run, AVSyncManager.setSpeed]
    split_ifs
    · exact h
    · exact h
  | updateAudioClock now pts duration =>
    simp only [EngineOp.numeric, Bool.and_eq_true, Bool.not_eq_true'] at hop
    simp only [EngineOp.run, AVSyncManager.updateAudioClock]
    split_ifs
    · exact h
    · exact ⟨h.1, h.2.1, updateClock_pts_nonneg m now m.aclock_ pts duration true h.1.2 h.2.2
        (Dbl.ne_nan_of_isNaN hop.1) (Dbl.ne_nan_of_isNaN hop.2)⟩
  | updateVideoClock now pts duration =>
    simp only [EngineOp.numeric, Bool.and_eq_true, Bool.not_eq_true'] at hop
    simp only [EngineOp.run, updateVideoClock_fst_dbl]
    split_ifs
    · exact h
    · exact ⟨h.1, updateClock_pts_nonneg m now m.vclock_ pts duration false h.1.1 h.2.1
        (Dbl.ne_nan_of_isNaN hop.1) (Dbl.ne_nan_of_isNaN hop.2), h.2.2⟩

theorem pts_nonneg_of_reachable (r : AVSyncManager) (h : NumericReachable r) :
    (r.vduration_ ≠ Dbl.nan ∧ r.aduration_ ≠ Dbl.nan) ∧
      Dbl.ge r.vclock_.pts (Dbl.fin 0) = true ∧ Dbl.ge r.aclock_.pts (Dbl.fin 0) = true := by
  have hz : Dbl.ge (Dbl.fin 0) (Dbl.fin 0) = true := by simp [Dbl.ge, Dbl.le]
  induction h with
  | create v a hv ha => exact ⟨⟨Dbl.ne_nan_of_isNaN hv, Dbl.ne_nan_of_isNaN ha⟩, hz, hz⟩
  | call m op _ hop ih => exact run_pts_nonneg m op hop ih

theorem streamClock_pts_nonneg (r : AVSyncManager) (h : NumericReachable r) (audio : Bool) :
    Dbl.ge (streamClock r audio).pts (Dbl.fin 0) = true := by
  unfold streamClock
  split_ifs
  · exact (pts_nonneg_of_reachable r h).2.2
  · exact (pts_nonneg_of_reachable r h).2.1

/-- An update with an incoming `pts < 0`, or with a positive `pts` that the jump test of
`updateClock` rejects, on a clock whose `pts` is `>= 0`: the clock is extrapolated. -/
theorem updateClock_extrapolates (m : AVSyncManager) (now : Int) (clock : Clock)
    (pts duration : Dbl) (audio : Bool)
    (hpos : Dbl.le (nominalDuration m audio) (Dbl.fin 0) = false)
    (hc : Dbl.ge clock.pts (Dbl.fin 0) = true)
    (h : Dbl.lt pts (Dbl.fin 0) = true ∨
      (Dbl.gt pts (Dbl.fin 0) = true ∧
        Dbl.ge (Dbl.fabs (Dbl.sub pts clock.pts))
          (Dbl.div (m.updateClock now clock pts duration audio).2.duration (Dbl.fin 2)) =
          true)) :
    (m.updateClock now clock pts duration audio).2.isValid = true ∧
      (m.updateClock now clock pts duration audio).2.pts =
        Dbl.add clock.pts (m.updateClock now clock pts duration audio).2.duration := by
  rw [updateClock_of_nominal_pos_dbl m now clock pts duration audio hpos] at h ⊢
  simp only [resolvePts, resolveValid, hc, if_true]
  rcases h with h | ⟨h1, h2⟩
  · simp only [h, if_true, and_self]
  · have h3 : Dbl.lt pts (Dbl.fin 0) = false := Dbl.lt_asymm_dbl h1
    have h4 : Dbl.eq pts (Dbl.fin 0) = false := Dbl.eq_false_of_lt h1
    simp only [h3, h4, h2, Bool.false_eq_true, if_false, if_true, and_self]

/-- C25, as amended: in every engine state reachable without NaN (nominal durations, `pts`
and `duration` arguments that are not NaN) the `pts` of both clocks is `>= 0`, so the test
`lastPts >= 0` of `updateClock`, made after `lastPts` has been overwritten with the clock's
`pts`, always succeeds: on a stream with positive nominal duration, every update with incoming
`pts < 0`, and every update with a positive `pts` that the machine finds at least half the
stored duration away from the clock's `pts`, leaves `isValid = true` and
`pts = previous pts + stored duration`, never the invalid clock at `pts = 0` of the other
branch.  Fresh and reset engines are such states. -/
theorem clock_pts_nonneg (r : AVSyncManager) (hreach : NumericReachable r) (audio : Bool)
    (hnominal : Dbl.gt (nominalDuration r audio) (Dbl.fin 0) = true) (now : Int)
    (pts duration : Dbl) :
    (Dbl.ge r.vclock_.pts (Dbl.fin 0) = true ∧ Dbl.ge r.aclock_.pts (Dbl.fin 0) = true) ∧
    (Dbl.lt pts (Dbl.fin 0) = true →
      (r.updateClock now (streamClock r audio) pts duration audio).2.isValid = true ∧
        (r.updateClock now (streamClock r audio) pts duration audio).2.pts =
          Dbl.add (streamClock r audio).pts
            (r.updateClock now (streamClock r audio) pts duration audio).2.duration) ∧
    (Dbl.gt pts (Dbl.fin 0) = true →
      Dbl.ge (Dbl.fabs (Dbl.sub pts (streamClock r audio).pts))
        (Dbl.div (r.updateClock now (streamClock r audio) pts duration audio).2.duration
          (Dbl.fin 2)) = true →
      (r.updateClock now (streamClock r audio) pts duration audio).2.isValid = true ∧
        (r.updateClock now (streamClock r audio) pts duration audio).2.pts =
          Dbl.add (streamClock r audio).pts
            (r.updateClock now (streamClock r audio) pts duration audio).2.duration) :=
  ⟨(pts_nonneg_of_reachable r hreach).2,
    fun h => updateClock_extrapolates r now _ pts duration audio (not_nonpos_of_pos hnominal)
      (streamClock_pts_nonneg r hreach audio) (Or.inl h),
    fun h1 h2 => updateClock_extrapolates r now _ pts duration audio
      (not_nonpos_of_pos hnominal) (streamClock_pts_nonneg r hreach audio) (Or.inr ⟨h1, h2⟩)⟩

end Binary64

/-! ## The engine in binary64 arithmetic: forward jumps of the timestamps -/

namespace Dbl

theorem round_of_isValue {q : ℚ} (h : isValue (fin q) = true) : round q = fin q := by
  simpa [isValue] using h

/-- An incoming `pts` that the jump test of `updateClock` accepts is at most the sum that the
machine computes for the previous `pts` and the duration `z > 0`. -/
theorem le_add_of_near (pts prev : Dbl) (z : ℚ) (hz : 0 < z) (hpts : pts ≠ nan)
    (hval : pts.isValue = true) (hprev : le (fin 0) prev = true)
    (h : ge (fabs (sub pts prev)) (div (fin z) (fin 2)) = false) :
    le pts (add prev (fin z)) = true := by
  have hh : div (fin z) (fin 2) ≠ nan := by
    rw [div_fin_two]
    exact round_ne_nan _
  cases prev with
  | nan => simp [le] at hprev
  | ninf => simp [le] at hprev
  | pinf => exact le_pinf hpts
  | fin a =>
    cases pts with
    | nan => exact absurd rfl hpts
    | ninf => exact le_ninf (by rw [add_fin]; exact round_ne_nan _)
    | pinf =>
      exfalso
      have : ge (fabs (sub pinf (fin a))) (div (fin z) (fin 2)) = true := le_pinf hh
      rw [this] at h
      exact Bool.noConfusion h
    | fin q =>
      rw [add_fin]
      by_cases hq : q ≤ a + z
      · have := round_mono hq
        rwa [round_of_isValue hval] at this
      · exfalso
        rw [sub_fin, div_fin_two] at h
        have h1 : le (round (z / 2)) (round (q - a)) = true :=
          round_mono (by linarith [not_le.mp hq])
        have h2 : le (round (q - a)) (fabs (round (q - a))) = true :=
          le_fabs (round_ne_nan _)
        have h3 := le_chain h1 h2
        rw [ge, h3] at h
        exact Bool.noConfusion h

theorem add_ne_nan_of_nonneg {a : Dbl} (z : ℚ) (ha : le (fin 0) a = true) :
    add a (fin z) ≠ nan := by
  cases a with
  | nan => simp [le] at ha
  | ninf => simp [le] at ha
  | pinf => simp [add]
  | fin x =>
    rw [add_fin]
    exact round_ne_nan _

end Dbl

namespace Binary64

theorem resolvePts_le (last pts : Dbl) (z : ℚ) (hz : 0 < z)
    (hlast : Dbl.ge last (Dbl.fin 0) = true) (hpts : pts ≠ Dbl.nan)
    (hval : pts.isValue = true) :
    Dbl.le (resolvePts last (Dbl.fin z) pts) (Dbl.add last (Dbl.fin z)) = true := by
  have hsum : Dbl.le (Dbl.add last (Dbl.fin z)) (Dbl.add last (Dbl.fin z)) = true :=
    Dbl.le_refl_of_ne_nan (Dbl.add_ne_nan_of_nonneg z hlast)
  have hzero : Dbl.le (Dbl.fin 0) (Dbl.add last (Dbl.fin z)) = true :=
    Dbl.add_nonneg_dbl hlast (by simpa [Dbl.lt] using hz)
  unfold resolvePts
  rw [hlast]
  simp only [if_true]
  split_ifs with h1 h2 h3 h4
  · exact hsum
  · rw [Dbl.eq_zero_of_eq h2]
    exact hzero
  · exact hzero
  · exact hsum
  · exact Dbl.le_add_of_near pts last z hz hpts hval hlast (by simpa using h4)

/-- A fresh engine with nominal video duration 0.04 fed `pts = 2` with duration 0.04. -/
theorem jump_to_two (other : Dbl) (now : Int) :
    ((AVSyncManager.create (Dbl.lit (4 / 100)) other).updateVideoClock now (Dbl.fin 2)
      (Dbl.lit (4 / 100))).1.vclock_.pts = Dbl.lit (4 / 100) := by
  rw [updateVideoClock_fst_dbl]
  have hp : (AVSyncManager.create (Dbl.lit (4 / 100)) other).paused_ = false := rfl
  have hn : nominalDuration (AVSyncManager.create (Dbl.lit (4 / 100)) other) false =
      Dbl.lit (4 / 100) := rfl
  have hc : (AVSyncManager.create (Dbl.lit (4 / 100)) other).vclock_ =
      { Clock.default with duration := Dbl.lit (4 / 100) } := rfl
  rw [hp]
  simp only [Bool.false_eq_true, if_false, afterVideoUpdate]
  rw [updateClock_of_nominal_pos_dbl _ _ _ _ _ _ (by rw [hn]; exact nominal_4_100_pos), hn, hc,
    resolveDuration_self]
  have hadd : Dbl.add (Dbl.fin 0) (Dbl.lit (4 / 100)) = Dbl.lit (4 / 100) := by
    have h := Dbl.round_idem Dbl.lit_4_100
    rw [Dbl.lit_4_100, Dbl.add_fin, zero_add, h]
  have hlt : Dbl.lt (Dbl.fin 2) (Dbl.fin 0) = false := by
    rw [Dbl.lt_fin]
    norm_num
  have heq : Dbl.eq (Dbl.fin 2) (Dbl.fin 0) = false := by
    rw [Dbl.eq_fin]
    norm_num
  have hge : Dbl.ge (Dbl.fin 0) (Dbl.fin 0) = true := by
    rw [Dbl.ge, Dbl.le_fin]
    norm_num
  have hjump : Dbl.ge (Dbl.fabs (Dbl.sub (Dbl.fin 2) (Dbl.fin 0)))
      (Dbl.div (Dbl.lit (4 / 100)) (Dbl.fin 2)) = true := by
    have h2 : Dbl.round 2 = Dbl.fin 2 :=
      Dbl.round_of_dyadic 2 2 0 (by norm_num) (by norm_num) (by norm_num) (by norm_num)
    have h3 : Dbl.le (Dbl.round (5764607523034235 / 144115188075855872 / 2)) (Dbl.round 2) =
        true := Dbl.round_mono (by norm_num)
    rw [Dbl.sub_fin, sub_zero, h2, Dbl.lit_4_100, Dbl.div_fin_two]
    rw [h2] at h3
    simpa [Dbl.fabs, Dbl.ge] using h3
  simp only [Clock.default, resolvePts, hlt, heq, hge, hjump, Bool.false_eq_true, if_false,
    if_true, hadd]

/-- C26, as amended: in every state reachable without NaN, on a stream with a finite nominal
duration `n > 0`, for every update whose `pts` and `duration` are values of the format other
than NaN, the new clock `pts` is at most the sum that the machine computes for the previous
clock `pts` and the stored duration, the stored duration being less than `1.5 n`; an incoming
`pts > 0` that the machine finds at least half the stored duration away from the previous
clock `pts` is replaced by that sum; e.g. a fresh engine with nominal video duration 0.04 fed
`pts = 2` (with duration 0.04) ends at video `pts = 0.04`. -/
theorem clock_cannot_jump_forward (r : AVSyncManager) (hreach : NumericReachable r)
    (audio : Bool) (y : ℚ) (hn : nominalDuration r audio = Dbl.fin y) (hy : 0 < y) (now : Int)
    (pts duration : Dbl) (hpts : pts ≠ Dbl.nan) (hval : pts.isValue = true)
    (hdur : duration ≠ Dbl.nan) (other : Dbl) :
    (Dbl.le (r.updateClock now (streamClock r audio) pts duration audio).2.pts
        (Dbl.add (streamClock r audio).pts
          (r.updateClock now (streamClock r audio) pts duration audio).2.duration) = true ∧
      ∃ z : ℚ, (r.updateClock now (streamClock r audio) pts duration audio).2.duration =
        Dbl.fin z ∧ z < 3 / 2 * y) ∧
    (Dbl.gt pts (Dbl.fin 0) = true →
      Dbl.ge (Dbl.fabs (Dbl.sub pts (streamClock r audio).pts))
        (Dbl.div (r.updateClock now (streamClock r audio) pts duration audio).2.duration
          (Dbl.fin 2)) = true →
      (r.updateClock now (streamClock r audio) pts duration audio).2.pts =
        Dbl.add (streamClock r audio).pts
          (r.updateClock now (streamClock r audio) pts duration audio).2.duration) ∧
    ((AVSyncManager.create (Dbl.lit (4 / 100)) other).updateVideoClock now (Dbl.fin 2)
      (Dbl.lit (4 / 100))).1.vclock_.pts = Dbl.lit (4 / 100) := by
  have hpos : Dbl.le (nominalDuration r audio) (Dbl.fin 0) = false := by
    rw [hn, Dbl.le_fin]
    simpa using hy
  have hc := streamClock_pts_nonneg r hreach audio
  obtain ⟨z, hz, hz1, hz2⟩ := resolveDuration_bounds y hy (streamClock r audio).duration
    duration hdur
  refine ⟨⟨?_, z, ?_, by linarith⟩, ?_, jump_to_two other now⟩
  · rw [updateClock_of_nominal_pos_dbl r now _ pts duration audio hpos, hn]
    show Dbl.le (resolvePts _ (resolveDuration _ _ _) _)
      (Dbl.add _ (resolveDuration _ _ _)) = true
    rw [hz]
    exact resolvePts_le _ _ z (by linarith) hc hpts hval
  · rw [updateClock_of_nominal_pos_dbl r now _ pts duration audio hpos, hn]
    exact hz
  · intro h1 h2
    exact (updateClock_extrapolates r now _ pts duration audio hpos hc (Or.inr ⟨h1, h2⟩)).2

end Binary64

/-! ## The engine in binary64 arithmetic: values at concrete inputs

The machine arithmetic of the calls used as witnesses and counterexamples, operation by
operation. -/

namespace Binary64

theorem sub_004_005 :
    Dbl.sub (Dbl.fin (5764607523034235 / 144115188075855872))
      (Dbl.fin (3602879701896397 / 72057594037927936)) =
    Dbl.fin (-(1441151880758559 / 144115188075855872)) := by
  rw [Dbl.sub_fin]
  exact Dbl.round_eval_of_neg _ _ (-7) 5764607523034236 (by norm_num) (by norm_num) (by norm_num)
    (by norm_num) (by norm_num) (by norm_num) (by norm_num)

theorem mul_095_004 :
    Dbl.mul (Dbl.fin (4278419646001971 / 4503599627370496))
      (Dbl.fin (5764607523034235 / 144115188075855872)) =
    Dbl.fin (5476377146882523 / 144115188075855872) := by
  rw [Dbl.mul_fin]
  exact Dbl.round_eval _ _ (-5) 5476377146882523 (by norm_num) (by norm_num) (by norm_num)
    (by norm_num) (by norm_num) (by norm_num) (by norm_num)

theorem mul_1000_0038 :
    Dbl.mul (Dbl.fin 1000)
      (Dbl.fin (5476377146882523 / 144115188075855872)) =
    Dbl.fin 38 := by
  rw [Dbl.mul_fin]
  exact Dbl.round_eval _ _ 5 5348024557502464 (by norm_num) (by norm_num) (by norm_num)
    (by norm_num) (by norm_num) (by norm_num) (by norm_num)

theorem sub_005_004 :
    Dbl.sub (Dbl.fin (3602879701896397 / 72057594037927936))
      (Dbl.fin (5764607523034235 / 144115188075855872)) =
    Dbl.fin (1441151880758559 / 144115188075855872) := by
  rw [Dbl.sub_fin]
  exact Dbl.round_eval _ _ (-7) 5764607523034236 (by norm_num) (by norm_num) (by norm_num)
    (by norm_num) (by norm_num) (by norm_num) (by norm_num)

theorem div_004_2 :
    Dbl.div (Dbl.fin (5764607523034235 / 144115188075855872))
      (Dbl.fin 2) =
    Dbl.fin (5764607523034235 / 288230376151711744) := by
  rw [Dbl.div_fin _ _ (by norm_num)]
  exact Dbl.round_eval _ _ (-6) 5764607523034235 (by norm_num) (by norm_num) (by norm_num)
    (by norm_num) (by norm_num) (by norm_num) (by norm_num)

theorem mul_005_1000 :
    Dbl.mul (Dbl.fin (3602879701896397 / 72057594037927936))
      (Dbl.fin 1000) =
    Dbl.fin 50 := by
  rw [Dbl.mul_fin]
  exact Dbl.round_eval _ _ 5 7036874417766400 (by norm_num) (by norm_num) (by norm_num)
    (by norm_num) (by norm_num) (by norm_num) (by norm_num)

theorem mul_004_1000 :
    Dbl.mul (Dbl.fin (5764607523034235 / 144115188075855872))
      (Dbl.fin 1000) =
    Dbl.fin 40 := by
  rw [Dbl.mul_fin]
  exact Dbl.round_eval _ _ 5 5629499534213120 (by norm_num) (by norm_num) (by norm_num)
    (by norm_num) (by norm_num) (by norm_num) (by norm_num)

theorem div_004_08 :
    Dbl.div (Dbl.fin (5764607523034235 / 144115188075855872))
      (Dbl.fin (3602879701896397 / 4503599627370496)) =
    Dbl.fin (7205759403792793 / 144115188075855872) := by
  rw [Dbl.div_fin _ _ (by norm_num)]
  exact Dbl.round_eval _ _ (-5) 7205759403792793 (by norm_num) (by norm_num) (by norm_num)
    (by norm_num) (by norm_num) (by norm_num) (by norm_num)

theorem mul_1000_0049 :
    Dbl.mul (Dbl.fin 1000)
      (Dbl.fin (7205759403792793 / 144115188075855872)) =
    Dbl.fin (7036874417766399 / 140737488355328) := by
  rw [Dbl.mul_fin]
  exact Dbl.round_eval _ _ 5 7036874417766399 (by norm_num) (by norm_num) (by norm_num)
    (by norm_num) (by norm_num) (by norm_num) (by norm_num)

theorem sub_006_004 :
    Dbl.sub (Dbl.fin (1080863910568919 / 18014398509481984))
      (Dbl.fin (5764607523034235 / 144115188075855872)) =
    Dbl.fin (2882303761517117 / 144115188075855872) := by
  rw [Dbl.sub_fin]
  exact Dbl.round_eval _ _ (-6) 5764607523034234 (by norm_num) (by norm_num) (by norm_num)
    (by norm_num) (by norm_num) (by norm_num) (by norm_num)

theorem truncToInt_eq (x : ℚ) (n : ℤ) (h0 : 0 ≤ x) (h1 : (n : ℚ) ≤ x)
    (h2 : x < (n : ℚ) + 1) :
    truncToInt x = n := by
  unfold truncToInt
  rw [if_pos h0, Int.floor_eq_iff]
  exact ⟨h1, h2⟩

theorem neg_zero_dbl : Dbl.neg (Dbl.fin 0) = Dbl.fin 0 := by
  simp [Dbl.neg]

theorem not_gt_lit_zero (x : ℚ) (hx : 0 ≤ x) : Dbl.gt (Dbl.fin 0) (Dbl.lit x) = false :=
  Dbl.lt_false_of_le (Dbl.round_nonneg hx)

theorem not_lt_neg_lit_zero (x : ℚ) (hx : 0 ≤ x) :
    Dbl.lt (Dbl.fin 0) (Dbl.neg (Dbl.lit x)) = false := by
  apply Dbl.lt_false_of_le
  have h := Dbl.le_neg_neg (Dbl.round_nonneg hx)
  rwa [neg_zero_dbl] at h

/-- The drift 0 matches no row of the delay table, at any speed. -/
theorem noAdjustment_zero (speed : Dbl) : noAdjustment speed (Dbl.fin 0) = true := by
  unfold noAdjustment
  simp only [not_gt_lit_zero _ (by norm_num : (0 : ℚ) ≤ 5 / 100),
    not_gt_lit_zero _ (by norm_num : (0 : ℚ) ≤ 2 / 100),
    not_gt_lit_zero _ (by norm_num : (0 : ℚ) ≤ 15 / 100),
    not_gt_lit_zero _ (by norm_num : (0 : ℚ) ≤ 6 / 100),
    not_gt_lit_zero _ (by norm_num : (0 : ℚ) ≤ 1 / 100),
    not_lt_neg_lit_zero _ (by norm_num : (0 : ℚ) ≤ 5 / 100),
    not_lt_neg_lit_zero _ (by norm_num : (0 : ℚ) ≤ 2 / 100),
    not_lt_neg_lit_zero _ (by norm_num : (0 : ℚ) ≤ 15 / 100),
    not_lt_neg_lit_zero _ (by norm_num : (0 : ℚ) ≤ 6 / 100),
    not_lt_neg_lit_zero _ (by norm_num : (0 : ℚ) ≤ 1 / 100),
    Bool.not_false, Bool.and_self, ite_self]

/-- The drift 0 is above `-0.1`. -/
theorem zero_in_band : Dbl.gt (Dbl.fin 0) (Dbl.neg (Dbl.lit (1 / 10))) = true := by
  rw [Dbl.lit_1_10]
  simp only [Dbl.neg, Dbl.gt, Dbl.lt_fin, decide_eq_true_eq]
  norm_num

/-- The clamp of a finite delay between the two bounds, in the order of the source and in the
order of the specification. -/
theorem clampDelay_mid (x : ℚ) (hlo : 1152921504606847 / 1152921504606846976 < x)
    (hhi : x ≤ 3602879701896397 / 36028797018963968) :
    clampDelay (Dbl.fin x) = Dbl.fin x ∧
      Dbl.stdMin (Dbl.stdMax (Dbl.fin x) (Dbl.lit (1 / 1000))) (Dbl.lit (1 / 10)) =
        Dbl.fin x := by
  unfold clampDelay
  rw [Dbl.lit_1_1000, Dbl.lit_1_10]
  simp only [Dbl.stdMax, Dbl.stdMin, Dbl.lt_fin, decide_eq_true_eq, not_lt.mpr hhi, if_false,
    hlo, if_true, not_lt.mpr hlo.le, and_self]

theorem resolveDuration_accept (n p d : Dbl) (h0 : Dbl.le d (Dbl.fin 0) = false)
    (h1 : Dbl.ge (Dbl.fabs (Dbl.sub d p)) (Dbl.div n (Dbl.fin 2)) = false)
    (h2 : Dbl.ge (Dbl.fabs (Dbl.sub d n)) (Dbl.div n (Dbl.fin 2)) = false) :
    resolveDuration n p d = d := by
  unfold resolveDuration
  simp only [h0, h1, h2, Bool.false_eq_true, if_false, Bool.or_self]

/-- The first update of a clock of a stream with nominal duration 0.04, with an unknown `pts`
and an incoming duration that `updateClock` stores as `D`. -/
theorem first_update_with (m : AVSyncManager) (audio : Bool) (clock : Clock) (d D : Dbl)
    (hn : nominalDuration m audio = Dbl.lit (4 / 100))
    (hc : clock = { Clock.default with duration := Dbl.lit (4 / 100) })
    (hD : resolveDuration (Dbl.lit (4 / 100)) (Dbl.lit (4 / 100)) d = D)
    (hadd : Dbl.add (Dbl.fin 0) D = D) :
    (m.updateClock 0 clock (Dbl.fin (-1)) d audio).2 =
      { isValid := true, pts := D, duration := D, lastPts := Dbl.fin 0,
        lastDuration := Dbl.lit (4 / 100), updateTime := AVSyncManager.systemClock 0 } := by
  rw [updateClock_of_nominal_pos_dbl _ _ _ _ _ _ (by rw [hn]; exact nominal_4_100_pos), hn, hc]
  have hlt : Dbl.lt (Dbl.fin (-1)) (Dbl.fin 0) = true := by
    rw [Dbl.lt_fin]
    norm_num
  have hge : Dbl.ge (Dbl.fin 0) (Dbl.fin 0) = true := by
    rw [Dbl.ge, Dbl.le_fin]
    norm_num
  simp only [Clock.default, hD, resolvePts, resolveValid, hlt, hge, if_true, hadd]

theorem add_zero_of_round {x q : ℚ} (h : Dbl.round x = Dbl.fin q) :
    Dbl.add (Dbl.fin 0) (Dbl.fin q) = Dbl.fin q := by
  rw [Dbl.add_fin, zero_add, Dbl.round_idem h]

theorem div_one_of_round {x q : ℚ} (h : Dbl.round x = Dbl.fin q) :
    Dbl.div (Dbl.fin q) (Dbl.fin 1) = Dbl.fin q := by
  rw [Dbl.div_fin _ _ (by norm_num), div_one, Dbl.round_idem h]

/-- The incoming duration 0.05 is stored by a clock of nominal and previous duration 0.04. -/
theorem resolveDuration_005 :
    resolveDuration (Dbl.lit (4 / 100)) (Dbl.lit (4 / 100)) (Dbl.lit (5 / 100)) =
      Dbl.lit (5 / 100) := by
  have h : Dbl.ge (Dbl.fabs (Dbl.sub (Dbl.lit (5 / 100)) (Dbl.lit (4 / 100))))
      (Dbl.div (Dbl.lit (4 / 100)) (Dbl.fin 2)) = false := by
    rw [Dbl.lit_5_100, Dbl.lit_4_100, sub_005_004, div_004_2]
    simp only [Dbl.fabs, Dbl.ge, Dbl.le_fin, decide_eq_false_iff_not]
    norm_num [abs_of_pos]
  apply resolveDuration_accept _ _ _ _ h h
  rw [Dbl.lit_5_100, Dbl.le_fin]
  norm_num

/-- The incoming duration 0.06 is stored by a clock of nominal and previous duration 0.04:
the machine computes `0.06 - 0.04 = 0.019999999999999997`, which is below `0.04 / 2`. -/
theorem resolveDuration_006 :
    resolveDuration (Dbl.lit (4 / 100)) (Dbl.lit (4 / 100)) (Dbl.lit (6 / 100)) =
      Dbl.lit (6 / 100) := by
  have h : Dbl.ge (Dbl.fabs (Dbl.sub (Dbl.lit (6 / 100)) (Dbl.lit (4 / 100))))
      (Dbl.div (Dbl.lit (4 / 100)) (Dbl.fin 2)) = false := by
    rw [Dbl.lit_6_100, Dbl.lit_4_100, sub_006_004, div_004_2]
    simp only [Dbl.fabs, Dbl.ge, Dbl.le_fin, decide_eq_false_iff_not]
    norm_num [abs_of_pos]
  apply resolveDuration_accept _ _ _ _ h h
  rw [Dbl.lit_6_100, Dbl.le_fin]
  norm_num

end Binary64

namespace Binary64

/-- The value stored by `updateVideoClock` on an unpaused engine whose audio clock is not
valid (drift 0, no adjustment), from the duration `D` that the video clock stores, the delay
`D / speed = x` between the bounds of the clamp and the product `x * 1000 = v`. -/
theorem sleep_without_audio (m : AVSyncManager) (now : Int) (pts d D : Dbl) (x v : ℚ)
    (hrun : m.paused_ = false) (ha : m.aclock_.isValid = false)
    (hdur : (m.updateClock now m.vclock_ pts d false).2.duration = D)
    (hdelay : Dbl.div D m.speed_ = Dbl.fin x)
    (hlo : 1152921504606847 / 1152921504606846976 < x)
    (hhi : x ≤ 3602879701896397 / 36028797018963968)
    (hmul : Dbl.mul (Dbl.fin x) (Dbl.fin 1000) = Dbl.fin v) :
    (m.updateVideoClock now pts d).2 = truncToInt v := by
  have hv : (afterVideoUpdate m now pts d).vclock_.duration = D := hdur
  rw [updateVideoClock_eq_dbl, hrun, drift_of_invalid_audio m now pts d ha,
    not_far_of_band zero_in_band, adjustDelay_of_noAdjustment _ _ _ (noAdjustment_zero _), hv,
    hdelay, (clampDelay_mid x hlo hhi).1, hmul]
  simp only [Bool.false_eq_true, if_false, Dbl.toInt]

theorem freshEngine_update_005 :
    (freshEngine.updateClock 0 freshEngine.vclock_ (Dbl.fin (-1)) (Dbl.lit (5 / 100))
        false).2 =
      { isValid := true, pts := Dbl.lit (5 / 100), duration := Dbl.lit (5 / 100),
        lastPts := Dbl.fin 0, lastDuration := Dbl.lit (4 / 100),
        updateTime := AVSyncManager.systemClock 0 } :=
  first_update_with freshEngine false _ _ _ rfl rfl resolveDuration_005
    (by rw [Dbl.lit_5_100]; exact add_zero_of_round Dbl.lit_5_100)

/-- Counterexample to C22 as stated: on a fresh unpaused engine with nominal video duration
0.04 at speed 1 (audio clock invalid, so drift 0 and no row of the table), the call with
incoming duration 0.05 stores 50, not the 40 that `nominalVideoDuration / speed` gives, while
the same call with incoming duration 0.04 stores 40: the result depends on the incoming
duration. -/
theorem base_delay_follows_incoming_duration :
    (freshEngine.updateVideoClock 0 (Dbl.fin (-1)) (Dbl.lit (5 / 100))).2 = 50 ∧
      (freshEngine.updateVideoClock 0 (Dbl.fin (-1)) (Dbl.lit (4 / 100))).2 = 40 ∧
      drift (afterVideoUpdate freshEngine 0 (Dbl.fin (-1)) (Dbl.lit (5 / 100))) = Dbl.fin 0 ∧
      noAdjustment freshEngine.speed_ (Dbl.fin 0) = true ∧
      Dbl.toInt (Dbl.mul (Dbl.fin 1000)
        (Dbl.stdMin (Dbl.stdMax (Dbl.div freshEngine.vduration_ freshEngine.speed_)
          (Dbl.lit (1 / 1000))) (Dbl.lit (1 / 10)))) = 40 := by
  have hs : freshEngine.speed_ = Dbl.fin 1 := rfl
  have hn : freshEngine.vduration_ = Dbl.lit (4 / 100) := rfl
  have h4 : Dbl.div (Dbl.lit (4 / 100)) (Dbl.fin 1) =
      Dbl.fin (5764607523034235 / 144115188075855872) := by
    rw [Dbl.lit_4_100]
    exact div_one_of_round Dbl.lit_4_100
  have h5 : Dbl.div (Dbl.lit (5 / 100)) (Dbl.fin 1) =
      Dbl.fin (3602879701896397 / 72057594037927936) := by
    rw [Dbl.lit_5_100]
    exact div_one_of_round Dbl.lit_5_100
  have t40 : truncToInt 40 = 40 := truncToInt_eq 40 40 (by norm_num) (by norm_num) (by norm_num)
  have t50 : truncToInt 50 = 50 := truncToInt_eq 50 50 (by norm_num) (by norm_num) (by norm_num)
  refine ⟨?_, ?_, drift_of_invalid_audio _ _ _ _ rfl, noAdjustment_zero _, ?_⟩
  · rw [sleep_without_audio freshEngine 0 _ _ (Dbl.lit (5 / 100)) _ 50 rfl rfl
      (by rw [freshEngine_update_005]) (by rw [hs]; exact h5) (by norm_num) (by norm_num)
      mul_005_1000]
    exact t50
  · rw [sleep_without_audio freshEngine 0 _ _ (Dbl.lit (4 / 100)) _ 40 rfl rfl
      (by rw [first_update freshEngine false freshEngine.vclock_ rfl rfl])
      (by rw [hs]; exact h4) (by norm_num)
      (by norm_num) mul_004_1000]
    exact t40
  · rw [hs, hn, h4, (clampDelay_mid _ (by norm_num) (by norm_num)).2, Dbl.mul_comm_dbl,
      mul_004_1000]
    exact t40

/-- Witness for C22 as amended: a fresh engine at speed 0.8 fed a video frame of the nominal
duration 0.04: the machine computes `0.04 / 0.8 = 0.049999999999999996` and the call stores
49. -/
theorem base_delay_is_clock_duration_witness :
    slowEngine.paused_ = false ∧ Dbl.gt slowEngine.vduration_ (Dbl.fin 0) = true ∧
      (slowEngine.updateVideoClock 0 (Dbl.fin (-1)) (Dbl.lit (4 / 100))).2 = 49 := by
  have hpos : Dbl.gt slowEngine.vduration_ (Dbl.fin 0) = true := by
    have hn : slowEngine.vduration_ = Dbl.lit (4 / 100) := rfl
    rw [hn, Dbl.lit_4_100, Dbl.gt, Dbl.lt_fin]
    norm_num
  have hdrift := drift_of_invalid_audio slowEngine 0 (Dbl.fin (-1)) (Dbl.lit (4 / 100)) rfl
  have hdelay : Dbl.div (resolveDuration slowEngine.vduration_ slowEngine.vclock_.duration
      (Dbl.lit (4 / 100))) slowEngine.speed_ =
      Dbl.fin (7205759403792793 / 144115188075855872) := by
    have hn : slowEngine.vduration_ = Dbl.lit (4 / 100) := rfl
    have hs : slowEngine.speed_ = Dbl.lit (8 / 10) := rfl
    rw [hn, hs, resolveDuration_self, Dbl.lit_4_100, Dbl.lit_8_10]
    exact div_004_08
  refine ⟨rfl, hpos, ?_⟩
  rw [((base_delay_is_clock_duration slowEngine 0 (Dbl.fin (-1)) (Dbl.lit (4 / 100)) rfl
    hpos).2.2 (by rw [hdrift]; exact zero_in_band)
    (by rw [hdrift]; exact noAdjustment_zero _)).1 (by rw [hdelay]; simp),
    hdelay, (clampDelay_mid _ (by norm_num) (by norm_num)).2, mul_1000_0049]
  exact truncToInt_eq _ 49 (by norm_num) (by norm_num) (by norm_num)

end Binary64

namespace Binary64

theorem nearEngine_drift :
    drift (afterVideoUpdate nearEngine 0 (Dbl.fin (-1)) (Dbl.lit (4 / 100))) =
      Dbl.fin (-(1441151880758559 / 144115188075855872)) := by
  have hv := first_update nearEngine false nearEngine.vclock_ rfl rfl
  have ha : nearEngine.aclock_.pts = Dbl.lit (5 / 100) := rfl
  have hs : nearEngine.speed_ = Dbl.fin 1 := rfl
  have hr : Dbl.round (5764607523034235 / 144115188075855872 -
      3602879701896397 / 72057594037927936) =
      Dbl.fin (-(1441151880758559 / 144115188075855872)) := by
    rw [← Dbl.sub_fin]
    exact sub_004_005
  rw [drift_of_valid_dbl nearEngine 0 _ _ rfl (by rw [hv]), hv, ha, hs]
  show Dbl.div (Dbl.sub (Dbl.lit (4 / 100)) (Dbl.lit (5 / 100))) (Dbl.fin 1) = _
  rw [Dbl.lit_4_100, Dbl.lit_5_100, sub_004_005]
  exact div_one_of_round hr

theorem nearEngine_multiplier :
    tableMultiplier (Dbl.fin 1) (Dbl.fin (-(1441151880758559 / 144115188075855872))) =
      Dbl.lit (95 / 100) := by
  have h1 : Dbl.le (Dbl.fin 1) (Dbl.lit (8 / 10)) = false := by
    rw [Dbl.lit_8_10, Dbl.le_fin]
    norm_num
  have h2 : Dbl.ge (Dbl.fin 1) (Dbl.lit (12 / 10)) = false := by
    rw [Dbl.lit_12_10, Dbl.ge, Dbl.le_fin]
    norm_num
  have h3 : Dbl.gt (Dbl.fin (-(1441151880758559 / 144115188075855872)))
      (Dbl.lit (2 / 100)) = false := by
    rw [Dbl.lit_2_100, Dbl.gt, Dbl.lt_fin]
    norm_num
  have h4 : Dbl.gt (Dbl.fin (-(1441151880758559 / 144115188075855872)))
      (Dbl.lit (1 / 100)) = false := by
    rw [Dbl.lit_1_100, Dbl.gt, Dbl.lt_fin]
    norm_num
  have h5 : Dbl.lt (Dbl.fin (-(1441151880758559 / 144115188075855872)))
      (Dbl.neg (Dbl.lit (2 / 100))) = false := by
    rw [Dbl.lit_2_100]
    simp only [Dbl.neg, Dbl.lt_fin]
    norm_num
  have h6 : Dbl.lt (Dbl.fin (-(1441151880758559 / 144115188075855872)))
      (Dbl.neg (Dbl.lit (1 / 100))) = true := by
    rw [Dbl.lit_1_100]
    simp only [Dbl.neg, Dbl.lt_fin]
    norm_num
  unfold tableMultiplier
  simp only [h1, h2, h3, h4, h5, h6, Bool.false_eq_true, if_false, if_true]

/-- Witness for C21: an engine at speed 1 with the audio clock at 0.05 and the video clock
extrapolated to 0.04.  The machine computes the drift `0.04 - 0.05 = -0.010000000000000002`,
which is below `-0.01`: the table gives the multiplier 0.95 and the call stores 38. -/
theorem delay_table_witness :
    nearEngine.paused_ = false ∧
      Dbl.gt (drift (afterVideoUpdate nearEngine 0 (Dbl.fin (-1)) (Dbl.lit (4 / 100))))
        (Dbl.neg (Dbl.lit (1 / 10))) = true ∧
      tableMultiplier nearEngine.speed_
        (drift (afterVideoUpdate nearEngine 0 (Dbl.fin (-1)) (Dbl.lit (4 / 100)))) =
        Dbl.lit (95 / 100) ∧
      (nearEngine.updateVideoClock 0 (Dbl.fin (-1)) (Dbl.lit (4 / 100))).2 = 38 := by
  have hs : nearEngine.speed_ = Dbl.fin 1 := rfl
  have hband : Dbl.gt (drift (afterVideoUpdate nearEngine 0 (Dbl.fin (-1))
      (Dbl.lit (4 / 100)))) (Dbl.neg (Dbl.lit (1 / 10))) = true := by
    rw [nearEngine_drift, Dbl.lit_1_10]
    simp only [Dbl.neg, Dbl.gt, Dbl.lt_fin, decide_eq_true_eq]
    norm_num
  have hd : (afterVideoUpdate nearEngine 0 (Dbl.fin (-1)) (Dbl.lit (4 / 100))).vclock_.duration =
      Dbl.lit (4 / 100) := by
    show (nearEngine.updateClock 0 nearEngine.vclock_ _ _ false).2.duration = _
    rw [first_update nearEngine false nearEngine.vclock_ rfl rfl]
  have hB : Dbl.div (Dbl.lit (4 / 100)) (Dbl.fin 1) =
      Dbl.fin (5764607523034235 / 144115188075855872) := by
    rw [Dbl.lit_4_100]
    exact div_one_of_round Dbl.lit_4_100
  have hm : Dbl.mul (tableMultiplier nearEngine.speed_
      (drift (afterVideoUpdate nearEngine 0 (Dbl.fin (-1)) (Dbl.lit (4 / 100)))))
      (Dbl.div (afterVideoUpdate nearEngine 0 (Dbl.fin (-1))
        (Dbl.lit (4 / 100))).vclock_.duration nearEngine.speed_) =
      Dbl.fin (5476377146882523 / 144115188075855872) := by
    rw [hs, hd, nearEngine_drift, nearEngine_multiplier, hB, Dbl.lit_95_100]
    exact mul_095_004
  refine ⟨rfl, hband, by rw [hs, nearEngine_drift]; exact nearEngine_multiplier, ?_⟩
  rw [(delay_table nearEngine 0 (Dbl.fin (-1)) (Dbl.lit (4 / 100)) rfl hband).1
    (by rw [hm]; simp)]
  unfold tableSleep
  rw [hm, (clampDelay_mid _ (by norm_num) (by norm_num)).2, mul_1000_0038]
  exact truncToInt_eq 38 38 (by norm_num) (by norm_num) (by norm_num)

/-- Witness for C14 as amended: the state of a fresh engine after one video update. -/
theorem valid_clock_duration_pos_or_nan_witness :
    EngineReachable ((EngineOp.updateVideoClock 0 (Dbl.fin (-1)) (Dbl.lit (4 / 100))).run
        freshEngine) ∧
      (((EngineOp.updateVideoClock 0 (Dbl.fin (-1)) (Dbl.lit (4 / 100))).run
          freshEngine).vclock_.isValid = true →
        Dbl.le ((EngineOp.updateVideoClock 0 (Dbl.fin (-1)) (Dbl.lit (4 / 100))).run
          freshEngine).vclock_.duration (Dbl.fin 0) = false) :=
  ⟨EngineReachable.call _ _ (EngineReachable.create _ _),
    fun h => ((valid_clock_duration_pos_or_nan _
      (EngineReachable.call _ _ (EngineReachable.create _ _))).1.1 h).1⟩

/-- Counterexample to C24 as stated: a fresh engine (nominal video duration `n = 0.04 > 0`)
fed the duration NaN.  NaN is not `> 0`, so the claim gives `duration = n`; the clock stores
NaN, which is neither `n` nor between `n / 2` and `3n / 2`.  And on an engine constructed with
the nominal duration `+inf > 0`, the stored duration `+inf` is not above `n / 2 = +inf`. -/
theorem nan_duration_is_stored :
    (Dbl.gt (nominalDuration freshEngine false) (Dbl.fin 0) = true ∧
      Dbl.gt Dbl.nan (Dbl.fin 0) = false ∧
      (freshEngine.updateClock 0 freshEngine.vclock_ (Dbl.fin (-1)) Dbl.nan false).2.duration =
        Dbl.nan ∧
      Dbl.nan ≠ nominalDuration freshEngine false ∧
      Dbl.lt (Dbl.div (nominalDuration freshEngine false) (Dbl.fin 2)) Dbl.nan = false) ∧
    (Dbl.gt (nominalDuration (AVSyncManager.create Dbl.pinf Dbl.pinf) false) (Dbl.fin 0) =
        true ∧
      ((AVSyncManager.create Dbl.pinf Dbl.pinf).updateClock 0
        (AVSyncManager.create Dbl.pinf Dbl.pinf).vclock_ (Dbl.fin (-1)) (Dbl.fin 0)
        false).2.duration = Dbl.pinf ∧
      Dbl.lt (Dbl.div Dbl.pinf (Dbl.fin 2)) Dbl.pinf = false) := by
  have hn : nominalDuration freshEngine false = Dbl.lit (4 / 100) := rfl
  refine ⟨⟨?_, rfl, by rw [freshEngine_nan_update], ?_, Dbl.lt_nan_right _⟩, rfl, ?_, ?_⟩
  · rw [hn, Dbl.lit_4_100, Dbl.gt, Dbl.lt_fin]
    norm_num
  · rw [hn]
    exact (Dbl.lit_ne_nan _).symm
  · rw [updateClock_of_nominal_pos_dbl (AVSyncManager.create Dbl.pinf Dbl.pinf) 0 _ _ _ false rfl]
    have h0 : Dbl.le (Dbl.fin 0) (Dbl.fin 0) = true := by
      rw [Dbl.le_fin]
      norm_num
    show resolveDuration Dbl.pinf (AVSyncManager.create Dbl.pinf Dbl.pinf).vclock_.duration
      (Dbl.fin 0) = Dbl.pinf
    unfold resolveDuration
    rw [if_pos h0]
  · simp [Dbl.div, Dbl.infOfSign, Dbl.sign, Dbl.lt]

/-- Witness for C24 as amended: a fresh engine (nominal and previous duration 0.04) fed the
duration 0.06.  The machine computes `0.06 - 0.04 = 0.019999999999999997 < 0.02`, so the
clock stores 0.06. -/
theorem duration_resolution_witness :
    (freshEngine.updateClock 0 freshEngine.vclock_ (Dbl.fin (-1)) (Dbl.lit (6 / 100))
        false).2.duration = Dbl.lit (6 / 100) ∧
      ∃ z : ℚ, (freshEngine.updateClock 0 freshEngine.vclock_ (Dbl.fin (-1))
          (Dbl.lit (6 / 100)) false).2.duration = Dbl.fin z ∧
        5764607523034235 / 144115188075855872 / 2 < z ∧
        z < 3 * (5764607523034235 / 144115188075855872) / 2 := by
  have hn : nominalDuration freshEngine false =
      Dbl.fin (5764607523034235 / 144115188075855872) := Dbl.lit_4_100
  have hc : freshEngine.vclock_.duration = Dbl.fin (5764607523034235 / 144115188075855872) :=
    Dbl.lit_4_100
  have hlt : Dbl.lt (Dbl.fabs (Dbl.sub (Dbl.lit (6 / 100))
      (Dbl.fin (5764607523034235 / 144115188075855872))))
      (Dbl.div (Dbl.fin (5764607523034235 / 144115188075855872)) (Dbl.fin 2)) = true := by
    rw [Dbl.lit_6_100, sub_006_004, div_004_2]
    simp only [Dbl.fabs, Dbl.lt_fin, decide_eq_true_eq]
    norm_num [abs_of_pos]
  have hpos : Dbl.gt (Dbl.lit (6 / 100)) (Dbl.fin 0) = true := by
    rw [Dbl.lit_6_100, Dbl.gt, Dbl.lt_fin]
    norm_num
  constructor
  · rw [(duration_resolution freshEngine 0 freshEngine.vclock_ (Dbl.fin (-1))
      (Dbl.lit (6 / 100)) false _ hn (by norm_num) (Dbl.lit_ne_nan _)).2.1
      (by rw [hc]; simp), hn, hc, hpos, hlt]
    rfl
  · exact (duration_resolution freshEngine 0 freshEngine.vclock_ (Dbl.fin (-1))
      (Dbl.lit (6 / 100)) false _ hn (by norm_num) (Dbl.lit_ne_nan _)).2.2

end Binary64

namespace Binary64

theorem run_video_vclock (m : AVSyncManager) (now : Int) (pts d : Dbl)
    (hrun : m.paused_ = false) :
    ((EngineOp.updateVideoClock now pts d).run m).vclock_ =
      (m.updateClock now m.vclock_ pts d false).2 := by
  show (m.updateVideoClock now pts d).1.vclock_ = _
  rw [updateVideoClock_fst_dbl, hrun]
  rfl

theorem run_video_nominal (m : AVSyncManager) (now : Int) (pts d : Dbl) (audio : Bool) :
    nominalDuration ((EngineOp.updateVideoClock now pts d).run m) audio =
      nominalDuration m audio := by
  show nominalDuration (m.updateVideoClock now pts d).1 audio = _
  rw [updateVideoClock_fst_dbl]
  split_ifs <;> rfl

/-- The first video update of a fresh engine with the `pts` NaN and the nominal duration: the
clock stores the NaN and stays invalid. -/
theorem freshEngine_nan_pts_update :
    (freshEngine.updateClock 0 freshEngine.vclock_ Dbl.nan (Dbl.lit (4 / 100)) false).2 =
      { isValid := false, pts := Dbl.nan, duration := Dbl.lit (4 / 100), lastPts := Dbl.fin 0,
        lastDuration := Dbl.lit (4 / 100), updateTime := AVSyncManager.systemClock 0 } := by
  have hn : nominalDuration freshEngine false = Dbl.lit (4 / 100) := rfl
  have hc : freshEngine.vclock_ = { Clock.default with duration := Dbl.lit (4 / 100) } := rfl
  rw [updateClock_of_nominal_pos_dbl _ _ _ _ _ _ (by rw [hn]; exact nominal_4_100_pos), hn, hc,
    resolveDuration_self]
  simp [Clock.default, resolvePts, resolveValid, Dbl.lt, Dbl.eq, Dbl.sub, Dbl.add, Dbl.fabs,
    Dbl.ge, Dbl.le_nan_right]

/-- Counterexample to C25 as stated: the state of a fresh engine (nominal durations 0.04)
after `updateVideoClock(NaN, 0.04)` is reachable and the `pts` of its video clock is NaN,
which is not `>= 0`; the next update of that clock with `pts = -1 < 0` takes the branch that
marks the clock invalid with `pts = 0`. -/
theorem nan_pts_reaches_invalid_branch :
    EngineReachable ((EngineOp.updateVideoClock 0 Dbl.nan (Dbl.lit (4 / 100))).run
        freshEngine) ∧
      ((EngineOp.updateVideoClock 0 Dbl.nan (Dbl.lit (4 / 100))).run freshEngine).vclock_.pts =
        Dbl.nan ∧
      Dbl.ge Dbl.nan (Dbl.fin 0) = false ∧
      Dbl.gt (nominalDuration ((EngineOp.updateVideoClock 0 Dbl.nan (Dbl.lit (4 / 100))).run
        freshEngine) false) (Dbl.fin 0) = true ∧
      Dbl.lt (Dbl.fin (-1)) (Dbl.fin 0) = true ∧
      (((EngineOp.updateVideoClock 0 Dbl.nan (Dbl.lit (4 / 100))).run freshEngine).updateClock 0
        ((EngineOp.updateVideoClock 0 Dbl.nan (Dbl.lit (4 / 100))).run freshEngine).vclock_
        (Dbl.fin (-1)) (Dbl.lit (4 / 100)) false).2.isValid = false ∧
      (((EngineOp.updateVideoClock 0 Dbl.nan (Dbl.lit (4 / 100))).run freshEngine).updateClock 0
        ((EngineOp.updateVideoClock 0 Dbl.nan (Dbl.lit (4 / 100))).run freshEngine).vclock_
        (Dbl.fin (-1)) (Dbl.lit (4 / 100)) false).2.pts = Dbl.fin 0 := by
  have hlt : Dbl.lt (Dbl.fin (-1)) (Dbl.fin 0) = true := by
    rw [Dbl.lt_fin]
    norm_num
  have hv : ((EngineOp.updateVideoClock 0 Dbl.nan (Dbl.lit (4 / 100))).run
      freshEngine).vclock_ =
      { isValid := false, pts := Dbl.nan, duration := Dbl.lit (4 / 100),
        lastPts := Dbl.fin 0, lastDuration := Dbl.lit (4 / 100),
        updateTime := AVSyncManager.systemClock 0 } := by
    rw [run_video_vclock freshEngine 0 _ _ rfl, freshEngine_nan_pts_update]
  have hn : nominalDuration ((EngineOp.updateVideoClock 0 Dbl.nan (Dbl.lit (4 / 100))).run
      freshEngine) false = Dbl.lit (4 / 100) := by
    rw [run_video_nominal]
    rfl
  have hpos : Dbl.gt (Dbl.lit (4 / 100)) (Dbl.fin 0) = true := by
    rw [Dbl.lit_4_100, Dbl.gt, Dbl.lt_fin]
    norm_num
  refine ⟨EngineReachable.call _ _ (EngineReachable.create _ _), ?_, rfl, ?_, hlt, ?_, ?_⟩
  · rw [hv]
  · rw [hn]
    exact hpos
  · rw [updateClock_of_nominal_pos_dbl _ 0 _ _ _ false (by rw [hn]; exact nominal_4_100_pos), hv]
    simp [resolveValid, hlt, Dbl.ge, Dbl.le_nan_right]
  · rw [updateClock_of_nominal_pos_dbl _ 0 _ _ _ false (by rw [hn]; exact nominal_4_100_pos), hv]
    simp [resolvePts, hlt, Dbl.ge, Dbl.le_nan_right]

theorem freshEngine_numeric : NumericReachable freshEngine :=
  NumericReachable.create _ _ (Dbl.isNaN_of_ne_nan (Dbl.lit_ne_nan _))
    (Dbl.isNaN_of_ne_nan (Dbl.lit_ne_nan _))

/-- Witness for C25 as amended: the first video update of a fresh engine with `pts = -1`. -/
theorem clock_pts_nonneg_witness :
    NumericReachable freshEngine ∧
      Dbl.gt (nominalDuration freshEngine false) (Dbl.fin 0) = true ∧
      Dbl.lt (Dbl.fin (-1)) (Dbl.fin 0) = true ∧
      (freshEngine.updateClock 0 (streamClock freshEngine false) (Dbl.fin (-1))
        (Dbl.lit (4 / 100)) false).2.isValid = true ∧
      (freshEngine.updateClock 0 (streamClock freshEngine false) (Dbl.fin (-1))
        (Dbl.lit (4 / 100)) false).2.pts =
        Dbl.add (streamClock freshEngine false).pts
          (freshEngine.updateClock 0 (streamClock freshEngine false) (Dbl.fin (-1))
            (Dbl.lit (4 / 100)) false).2.duration := by
  have hlt : Dbl.lt (Dbl.fin (-1)) (Dbl.fin 0) = true := by
    rw [Dbl.lt_fin]
    norm_num
  have hpos : Dbl.gt (nominalDuration freshEngine false) (Dbl.fin 0) = true := by
    have hn : nominalDuration freshEngine false = Dbl.lit (4 / 100) := rfl
    rw [hn, Dbl.lit_4_100, Dbl.gt, Dbl.lt_fin]
    norm_num
  exact ⟨freshEngine_numeric, hpos, hlt,
    (clock_pts_nonneg freshEngine freshEngine_numeric false hpos 0 (Dbl.fin (-1))
      (Dbl.lit (4 / 100))).2.1 hlt⟩

theorem tie_sub_prev_0 :
    Dbl.sub (Dbl.fin (1 / 9007199254740992))
      (Dbl.fin 0) =
    Dbl.fin (1 / 9007199254740992) := by
  rw [Dbl.sub_fin]
  exact Dbl.round_eval _ _ (-53) 4503599627370496 (by norm_num) (by norm_num) (by norm_num)
    (by norm_num) (by norm_num) (by norm_num) (by norm_num)

theorem tie_div_n_2 :
    Dbl.div (Dbl.fin (4503599627370497 / 4503599627370496))
      (Dbl.fin 2) =
    Dbl.fin (4503599627370497 / 9007199254740992) := by
  rw [Dbl.div_fin _ _ (by norm_num)]
  exact Dbl.round_eval _ _ (-1) 4503599627370497 (by norm_num) (by norm_num) (by norm_num)
    (by norm_num) (by norm_num) (by norm_num) (by norm_num)

theorem tie_sub_d_n :
    Dbl.sub (Dbl.fin (6755399441055745 / 4503599627370496))
      (Dbl.fin (4503599627370497 / 4503599627370496)) =
    Dbl.fin (1 / 2) := by
  rw [Dbl.sub_fin]
  exact Dbl.round_eval _ _ (-1) 4503599627370496 (by norm_num) (by norm_num) (by norm_num)
    (by norm_num) (by norm_num) (by norm_num) (by norm_num)

theorem tie_add_prev_d :
    Dbl.add (Dbl.fin (1 / 9007199254740992))
      (Dbl.fin (6755399441055745 / 4503599627370496)) =
    Dbl.fin (3377699720527873 / 2251799813685248) := by
  rw [Dbl.add_fin]
  exact Dbl.round_eval_tie_odd _ _ 0 6755399441055745 (by norm_num) (by norm_num) (by norm_num)
    (by norm_num) (by norm_num) (by norm_num) (by norm_num)

/-- The state of `tieEngine` after `updateVideoClock(2 ^ -53, 0)`: the video clock accepts the
`pts` and stays invalid. -/
theorem tieEngine_first_update :
    (tieEngine.updateClock 0 tieEngine.vclock_ (Dbl.fin (1 / 9007199254740992)) (Dbl.fin 0)
        false).2 =
      { isValid := false, pts := Dbl.fin (1 / 9007199254740992),
        duration := Dbl.fin (4503599627370497 / 4503599627370496), lastPts := Dbl.fin 0,
        lastDuration := Dbl.fin (4503599627370497 / 4503599627370496),
        updateTime := AVSyncManager.systemClock 0 } := by
  have hn : nominalDuration tieEngine false =
      Dbl.fin (4503599627370497 / 4503599627370496) := rfl
  have hc : tieEngine.vclock_ =
      { Clock.default with duration := Dbl.fin (4503599627370497 / 4503599627370496) } := rfl
  have hpos : Dbl.le (Dbl.fin (4503599627370497 / 4503599627370496)) (Dbl.fin 0) = false := by
    rw [Dbl.le_fin]
    norm_num
  have hd : resolveDuration (Dbl.fin (4503599627370497 / 4503599627370496))
      (Dbl.fin (4503599627370497 / 4503599627370496)) (Dbl.fin 0) =
      Dbl.fin (4503599627370497 / 4503599627370496) := by
    unfold resolveDuration
    rw [if_pos (by rw [Dbl.le_fin]; norm_num)]
  have h1 : Dbl.lt (Dbl.fin (1 / 9007199254740992)) (Dbl.fin 0) = false := by
    rw [Dbl.lt_fin]
    norm_num
  have h2 : Dbl.eq (Dbl.fin (1 / 9007199254740992)) (Dbl.fin 0) = false := by
    rw [Dbl.eq_fin]
    norm_num
  have h3 : Dbl.ge (Dbl.fabs (Dbl.sub (Dbl.fin (1 / 9007199254740992)) (Dbl.fin 0)))
      (Dbl.div (Dbl.fin (4503599627370497 / 4503599627370496)) (Dbl.fin 2)) = false := by
    rw [tie_sub_prev_0, tie_div_n_2]
    simp only [Dbl.fabs, Dbl.ge, Dbl.le_fin, decide_eq_false_iff_not]
    norm_num [abs_of_pos]
  rw [updateClock_of_nominal_pos_dbl _ _ _ _ _ _ (by rw [hn]; exact hpos), hn, hc]
  simp only [Clock.default, hd, resolvePts, resolveValid, h1, h2, h3, Bool.false_eq_true,
    if_false]

/-- Counterexample to C26 as stated.  A fresh engine (nominal video duration 0.04) fed the
duration NaN ends at the `pts` NaN, which is not at most anything.  And on the engine with
nominal duration `n = 1 + 2 ^ -52`, in the reachable state with the video clock at
`2 ^ -53`, the update with `pts = -1` and the duration `1.5 + 2 ^ -52` (which the clock
stores) ends at `pts = 1.5 + 2 ^ -51`: the sum `2 ^ -53 + 1.5 + 2 ^ -52` is half-way between
two values of the format and is rounded up, to exactly `previous pts + 1.5 n`, not less. -/
theorem forward_bound_is_attained :
    ((freshEngine.updateClock 0 freshEngine.vclock_ (Dbl.fin (-1)) Dbl.nan false).2.pts =
        Dbl.nan ∧
      Dbl.le Dbl.nan
        (Dbl.add freshEngine.vclock_.pts
          (freshEngine.updateClock 0 freshEngine.vclock_ (Dbl.fin (-1)) Dbl.nan
            false).2.duration) = false) ∧
    (EngineReachable ((EngineOp.updateVideoClock 0 (Dbl.fin (1 / 9007199254740992))
        (Dbl.fin 0)).run tieEngine) ∧
      ((EngineOp.updateVideoClock 0 (Dbl.fin (1 / 9007199254740992)) (Dbl.fin 0)).run
        tieEngine).vclock_.pts = Dbl.fin (1 / 9007199254740992) ∧
      (((EngineOp.updateVideoClock 0 (Dbl.fin (1 / 9007199254740992)) (Dbl.fin 0)).run
        tieEngine).updateClock 0
        ((EngineOp.updateVideoClock 0 (Dbl.fin (1 / 9007199254740992)) (Dbl.fin 0)).run
          tieEngine).vclock_
        (Dbl.fin (-1)) (Dbl.fin (6755399441055745 / 4503599627370496)) false).2.pts =
        Dbl.fin (3377699720527873 / 2251799813685248) ∧
      ¬ ((3377699720527873 / 2251799813685248 : ℚ) <
        1 / 9007199254740992 + 3 / 2 * (4503599627370497 / 4503599627370496))) := by
  have hv : ((EngineOp.updateVideoClock 0 (Dbl.fin (1 / 9007199254740992)) (Dbl.fin 0)).run
      tieEngine).vclock_ =
      { isValid := false, pts := Dbl.fin (1 / 9007199254740992),
        duration := Dbl.fin (4503599627370497 / 4503599627370496), lastPts := Dbl.fin 0,
        lastDuration := Dbl.fin (4503599627370497 / 4503599627370496),
        updateTime := AVSyncManager.systemClock 0 } := by
    rw [run_video_vclock tieEngine 0 _ _ rfl, tieEngine_first_update]
  have hn : nominalDuration ((EngineOp.updateVideoClock 0 (Dbl.fin (1 / 9007199254740992))
      (Dbl.fin 0)).run tieEngine) false =
      Dbl.fin (4503599627370497 / 4503599627370496) := by
    rw [run_video_nominal]
    rfl
  have hpos : Dbl.le (Dbl.fin (4503599627370497 / 4503599627370496)) (Dbl.fin 0) = false := by
    rw [Dbl.le_fin]
    norm_num
  have hdev : Dbl.ge (Dbl.fabs (Dbl.sub (Dbl.fin (6755399441055745 / 4503599627370496))
      (Dbl.fin (4503599627370497 / 4503599627370496))))
      (Dbl.div (Dbl.fin (4503599627370497 / 4503599627370496)) (Dbl.fin 2)) = false := by
    rw [tie_sub_d_n, tie_div_n_2]
    simp only [Dbl.fabs, Dbl.ge, Dbl.le_fin, decide_eq_false_iff_not]
    norm_num [abs_of_pos]
  have hd : resolveDuration (Dbl.fin (4503599627370497 / 4503599627370496))
      (Dbl.fin (4503599627370497 / 4503599627370496))
      (Dbl.fin (6755399441055745 / 4503599627370496)) =
      Dbl.fin (6755399441055745 / 4503599627370496) :=
    resolveDuration_accept _ _ _ (by rw [Dbl.le_fin]; norm_num) hdev hdev
  have hlt : Dbl.lt (Dbl.fin (-1)) (Dbl.fin 0) = true := by
    rw [Dbl.lt_fin]
    norm_num
  have hge : Dbl.ge (Dbl.fin (1 / 9007199254740992)) (Dbl.fin 0) = true := by
    rw [Dbl.ge, Dbl.le_fin]
    norm_num
  refine ⟨⟨by rw [freshEngine_nan_update], Dbl.le_nan_left _⟩,
    EngineReachable.call _ _ (EngineReachable.create _ _), by rw [hv], ?_, by norm_num⟩
  rw [updateClock_of_nominal_pos_dbl _ 0 _ _ _ false (by rw [hn]; exact hpos), hn, hv]
  simp only [hd, resolvePts, hlt, hge, if_true]
  exact tie_add_prev_d

/-- Witness for C26 as amended: a fresh engine (nominal durations 0.04) fed `pts = 2`. -/
theorem clock_cannot_jump_forward_witness :
    NumericReachable freshEngine ∧
      nominalDuration freshEngine false = Dbl.fin (5764607523034235 / 144115188075855872) ∧
      (Dbl.fin 2).isValue = true ∧
      Dbl.le (freshEngine.updateClock 0 (streamClock freshEngine false) (Dbl.fin 2)
          (Dbl.lit (4 / 100)) false).2.pts
        (Dbl.add (streamClock freshEngine false).pts
          (freshEngine.updateClock 0 (streamClock freshEngine false) (Dbl.fin 2)
            (Dbl.lit (4 / 100)) false).2.duration) = true ∧
      (freshEngine.updateVideoClock 0 (Dbl.fin 2) (Dbl.lit (4 / 100))).1.vclock_.pts =
        Dbl.lit (4 / 100) := by
  have hval : (Dbl.fin 2).isValue = true := by
    have h2 : Dbl.round 2 = Dbl.fin 2 :=
      Dbl.round_of_dyadic 2 2 0 (by norm_num) (by norm_num) (by norm_num) (by norm_num)
    simp [Dbl.isValue, h2]
  have h := clock_cannot_jump_forward freshEngine freshEngine_numeric false _ Dbl.lit_4_100
    (by norm_num) 0 (Dbl.fin 2) (Dbl.lit (4 / 100)) (by simp) hval (Dbl.lit_ne_nan _)
    (Dbl.lit (4 / 100))
  exact ⟨freshEngine_numeric, Dbl.lit_4_100, hval, h.1.1, h.2.2⟩

end Binary64

/-! ## The engine in binary64 arithmetic: the fast regime far behind -/

namespace Binary64

theorem lit_15_100 : Dbl.lit (15 / 100) = Dbl.fin (5404319552844595 / 36028797018963968) :=
  Dbl.round_eval _ _ (-3) 5404319552844595 (by norm_num) (by norm_num) (by norm_num) (by norm_num)
    (by norm_num) (by norm_num) (by norm_num)

theorem lit_5_10 : Dbl.lit (5 / 10) = Dbl.fin (1 / 2) :=
  Dbl.round_eval _ _ (-1) 4503599627370496 (by norm_num) (by norm_num) (by norm_num) (by norm_num)
    (by norm_num) (by norm_num) (by norm_num)

theorem sub_004_1 :
    Dbl.sub (Dbl.fin (5764607523034235 / 144115188075855872))
      (Dbl.fin 1) =
    Dbl.fin (-(1080863910568919 / 1125899906842624)) := by
  rw [Dbl.sub_fin]
  exact Dbl.round_eval_of_neg _ _ (-1) 8646911284551352 (by norm_num) (by norm_num) (by norm_num)
    (by norm_num) (by norm_num) (by norm_num) (by norm_num)

theorem div_096_2 :
    Dbl.div (Dbl.fin (-(1080863910568919 / 1125899906842624)))
      (Dbl.fin 2) =
    Dbl.fin (-(1080863910568919 / 2251799813685248)) := by
  rw [Dbl.div_fin _ _ (by norm_num)]
  exact Dbl.round_eval_of_neg _ _ (-2) 8646911284551352 (by norm_num) (by norm_num) (by norm_num)
    (by norm_num) (by norm_num) (by norm_num) (by norm_num)

theorem mul_05_002 :
    Dbl.mul (Dbl.fin (1 / 2))
      (Dbl.fin (5764607523034235 / 288230376151711744)) =
    Dbl.fin (5764607523034235 / 576460752303423488) := by
  rw [Dbl.mul_fin]
  exact Dbl.round_eval _ _ (-7) 5764607523034235 (by norm_num) (by norm_num) (by norm_num)
    (by norm_num) (by norm_num) (by norm_num) (by norm_num)

theorem mul_1000_001 :
    Dbl.mul (Dbl.fin 1000)
      (Dbl.fin (5764607523034235 / 576460752303423488)) =
    Dbl.fin 10 := by
  rw [Dbl.mul_fin]
  exact Dbl.round_eval _ _ 3 5629499534213120 (by norm_num) (by norm_num) (by norm_num)
    (by norm_num) (by norm_num) (by norm_num) (by norm_num)

theorem sub_1_2 :
    Dbl.sub (Dbl.fin 1)
      (Dbl.fin 2) =
    Dbl.fin (-1) := by
  rw [Dbl.sub_fin]
  exact Dbl.round_eval_of_neg _ _ 0 4503599627370496 (by norm_num) (by norm_num) (by norm_num)
    (by norm_num) (by norm_num) (by norm_num) (by norm_num)

theorem add_0_1 :
    Dbl.add (Dbl.fin 0)
      (Dbl.fin 1) =
    Dbl.fin 1 := by
  rw [Dbl.add_fin]
  exact Dbl.round_eval _ _ 0 4503599627370496 (by norm_num) (by norm_num) (by norm_num)
    (by norm_num) (by norm_num) (by norm_num) (by norm_num)

/-- C23, as amended: for an unpaused engine with `speed >= 1.2` and both clocks valid after
the video update, whenever the drift that the machine computes satisfies `diff < -0.15` the
call stores exactly 1: the test `diff <= -0.1` returns before the regime chain is entered, so
the branch `diff < -0.15 -> delay *= 0.5` of the regime `speed >= 1.2` is never executed. -/
theorem fast_regime_far_behind (m : AVSyncManager) (now : Int) (pts duration : Dbl)
    (hrun : m.paused_ = false) (_hfast : Dbl.ge m.speed_ (Dbl.lit (12 / 10)) = true)
    (ha : m.aclock_.isValid = true)
    (hv : (m.updateClock now m.vclock_ pts duration false).2.isValid = true)
    (hd : Dbl.lt
      (Dbl.div (Dbl.sub (m.updateClock now m.vclock_ pts duration false).2.pts m.aclock_.pts)
        m.speed_)
      (Dbl.neg (Dbl.lit (15 / 100))) = true) :
    (m.updateVideoClock now pts duration).2 = 1 := by
  apply updateVideoClock_short_circuit m now pts duration hrun
  rw [drift_of_valid_dbl m now pts duration ha hv]
  exact Dbl.le_of_lt_true (Dbl.lt_chain_le hd (Dbl.le_neg_neg (Dbl.lit_mono (by norm_num))))

theorem setSpeed_frame (j : AVSyncManager) (u : Dbl) :
    (j.setSpeed u).vclock_ = j.vclock_ ∧ (j.setSpeed u).aclock_ = j.aclock_ ∧
      (j.setSpeed u).paused_ = j.paused_ ∧ (j.setSpeed u).vduration_ = j.vduration_ ∧
      (j.setSpeed u).aduration_ = j.aduration_ := by
  unfold AVSyncManager.setSpeed
  split_ifs <;> exact ⟨rfl, rfl, rfl, rfl, rfl⟩

theorem updateAudioClock_running (m : AVSyncManager) (now : Int) (pts d : Dbl)
    (hrun : m.paused_ = false) :
    m.updateAudioClock now pts d =
      { m with aclock_ := (m.updateClock now m.aclock_ pts d true).2 } := by
  unfold AVSyncManager.updateAudioClock
  rw [hrun]
  simp only [Bool.false_eq_true, if_false]

theorem fastEngine_facts :
    fastEngine.paused_ = false ∧ fastEngine.speed_ = Dbl.fin 2 ∧
      nominalDuration fastEngine false = Dbl.lit (4 / 100) ∧
      fastEngine.vclock_ = { Clock.default with duration := Dbl.lit (4 / 100) } ∧
      fastEngine.aclock_.pts = Dbl.fin 1 ∧ fastEngine.aclock_.isValid = true := by
  have hdef : fastEngine =
      ((AVSyncManager.create (Dbl.lit (4 / 100)) (Dbl.fin 1)).setSpeed
        (Dbl.fin 2)).updateAudioClock 0 (Dbl.fin (-1)) (Dbl.fin 1) := rfl
  have hf := setSpeed_frame (AVSyncManager.create (Dbl.lit (4 / 100)) (Dbl.fin 1)) (Dbl.fin 2)
  have hs0 : (AVSyncManager.create (Dbl.lit (4 / 100)) (Dbl.fin 1)).speed_ = Dbl.fin 1 := rfl
  have hspeed : ((AVSyncManager.create (Dbl.lit (4 / 100)) (Dbl.fin 1)).setSpeed
      (Dbl.fin 2)).speed_ = Dbl.fin 2 := by
    have hacc : (Dbl.gt (Dbl.fin 2) (Dbl.fin 0) &&
        Dbl.gt (Dbl.fabs (Dbl.sub
          (AVSyncManager.create (Dbl.lit (4 / 100)) (Dbl.fin 1)).speed_ (Dbl.fin 2)))
          (Dbl.lit (1 / 100))) = true := by
      rw [hs0, sub_1_2, Dbl.lit_1_100]
      simp only [Dbl.fabs, Dbl.gt, Dbl.lt_fin, Bool.and_eq_true, decide_eq_true_eq]
      norm_num
    unfold AVSyncManager.setSpeed
    rw [if_pos hacc]
  have hrun : ((AVSyncManager.create (Dbl.lit (4 / 100)) (Dbl.fin 1)).setSpeed
      (Dbl.fin 2)).paused_ = false := by
    rw [hf.2.2.1]
    rfl
  have hn : nominalDuration ((AVSyncManager.create (Dbl.lit (4 / 100)) (Dbl.fin 1)).setSpeed
      (Dbl.fin 2)) true = Dbl.fin 1 := by
    show ((AVSyncManager.create (Dbl.lit (4 / 100)) (Dbl.fin 1)).setSpeed
      (Dbl.fin 2)).aduration_ = Dbl.fin 1
    rw [hf.2.2.2.2]
    rfl
  have hac : ((AVSyncManager.create (Dbl.lit (4 / 100)) (Dbl.fin 1)).setSpeed
      (Dbl.fin 2)).aclock_ = { Clock.default with duration := Dbl.fin 1 } := by
    rw [hf.2.1]
    rfl
  have hpos : Dbl.le (Dbl.fin 1) (Dbl.fin 0) = false := by
    rw [Dbl.le_fin]
    norm_num
  have hlt : Dbl.lt (Dbl.fin (-1)) (Dbl.fin 0) = true := by
    rw [Dbl.lt_fin]
    norm_num
  have hge : Dbl.ge (Dbl.fin 0) (Dbl.fin 0) = true := by
    rw [Dbl.ge, Dbl.le_fin]
    norm_num
  have hclock : (((AVSyncManager.create (Dbl.lit (4 / 100)) (Dbl.fin 1)).setSpeed
      (Dbl.fin 2)).updateClock 0
      ((AVSyncManager.create (Dbl.lit (4 / 100)) (Dbl.fin 1)).setSpeed (Dbl.fin 2)).aclock_
      (Dbl.fin (-1)) (Dbl.fin 1) true).2 =
      { isValid := true, pts := Dbl.fin 1, duration := Dbl.fin 1, lastPts := Dbl.fin 0,
        lastDuration := Dbl.fin 1, updateTime := AVSyncManager.systemClock 0 } := by
    rw [updateClock_of_nominal_pos_dbl _ 0 _ _ _ true (by rw [hn]; exact hpos), hn, hac,
      resolveDuration_self]
    simp only [Clock.default, resolvePts, resolveValid, hlt, hge, if_true, add_0_1]
  rw [hdef, updateAudioClock_running _ 0 _ _ hrun, hclock]
  refine ⟨hrun, hspeed, ?_, ?_, rfl, rfl⟩
  · show ((AVSyncManager.create (Dbl.lit (4 / 100)) (Dbl.fin 1)).setSpeed
      (Dbl.fin 2)).vduration_ = Dbl.lit (4 / 100)
    rw [hf.2.2.2.1]
    rfl
  · show ((AVSyncManager.create (Dbl.lit (4 / 100)) (Dbl.fin 1)).setSpeed
      (Dbl.fin 2)).vclock_ = _
    rw [hf.1]
    rfl

theorem fastEngine_reachable : EngineReachable fastEngine :=
  EngineReachable.call _ (EngineOp.updateAudioClock 0 (Dbl.fin (-1)) (Dbl.fin 1))
    (EngineReachable.call _ (EngineOp.setSpeed (Dbl.fin 2)) (EngineReachable.create _ _))

theorem fastEngine_video_update :
    (fastEngine.updateClock 0 fastEngine.vclock_ (Dbl.fin (-1)) (Dbl.lit (4 / 100)) false).2 =
      { isValid := true, pts := Dbl.lit (4 / 100), duration := Dbl.lit (4 / 100),
        lastPts := Dbl.fin 0, lastDuration := Dbl.lit (4 / 100),
        updateTime := AVSyncManager.systemClock 0 } :=
  first_update fastEngine false fastEngine.vclock_ fastEngine_facts.2.2.1
    fastEngine_facts.2.2.2.1

theorem fastEngine_drift :
    Dbl.div (Dbl.sub
      (fastEngine.updateClock 0 fastEngine.vclock_ (Dbl.fin (-1)) (Dbl.lit (4 / 100))
        false).2.pts fastEngine.aclock_.pts) fastEngine.speed_ =
      Dbl.fin (-(1080863910568919 / 2251799813685248)) := by
  rw [fastEngine_video_update, fastEngine_facts.2.2.2.2.1, fastEngine_facts.2.1]
  show Dbl.div (Dbl.sub (Dbl.lit (4 / 100)) (Dbl.fin 1)) (Dbl.fin 2) = _
  rw [Dbl.lit_4_100, sub_004_1, div_096_2]

theorem fastEngine_far_behind :
    Dbl.lt (Dbl.div (Dbl.sub
      (fastEngine.updateClock 0 fastEngine.vclock_ (Dbl.fin (-1)) (Dbl.lit (4 / 100))
        false).2.pts fastEngine.aclock_.pts) fastEngine.speed_)
      (Dbl.neg (Dbl.lit (15 / 100))) = true := by
  rw [fastEngine_drift, lit_15_100]
  simp only [Dbl.neg, Dbl.lt_fin, decide_eq_true_eq]
  norm_num

theorem fastEngine_fast : Dbl.ge fastEngine.speed_ (Dbl.lit (12 / 10)) = true := by
  rw [fastEngine_facts.2.1, Dbl.lit_12_10, Dbl.ge, Dbl.le_fin]
  norm_num

/-- Witness for C23 as amended: `fastEngine` (speed 2, audio at 1), whose video clock is
extrapolated to 0.04 (drift -0.48). -/
theorem fast_regime_far_behind_witness :
    (fastEngine.updateVideoClock 0 (Dbl.fin (-1)) (Dbl.lit (4 / 100))).2 = 1 :=
  fast_regime_far_behind fastEngine 0 (Dbl.fin (-1)) (Dbl.lit (4 / 100)) fastEngine_facts.1
    fastEngine_fast fastEngine_facts.2.2.2.2.2 (by rw [fastEngine_video_update])
    fastEngine_far_behind

/-- Counterexample to C23 as stated: `fastEngine` is reachable, unpaused, at speed
`2 >= 1.2`, with both clocks valid after the video update, base delay `B = 0.04 / 2 = 0.02`
and drift `(0.04 - 1) / 2 = -0.48 < -0.15`.  The call stores 1, by the return at
`diff <= -0.1`, whereas the value of the claim, `trunc(1000 * min(max(0.5 * B, 0.001), 0.1))`,
is 10. -/
theorem fast_regime_half_row_is_dead :
    EngineReachable fastEngine ∧ fastEngine.paused_ = false ∧
      Dbl.ge fastEngine.speed_ (Dbl.lit (12 / 10)) = true ∧
      fastEngine.aclock_.isValid = true ∧
      (fastEngine.updateClock 0 fastEngine.vclock_ (Dbl.fin (-1)) (Dbl.lit (4 / 100))
        false).2.isValid = true ∧
      Dbl.lt (Dbl.div (Dbl.sub
        (fastEngine.updateClock 0 fastEngine.vclock_ (Dbl.fin (-1)) (Dbl.lit (4 / 100))
          false).2.pts fastEngine.aclock_.pts) fastEngine.speed_)
        (Dbl.neg (Dbl.lit (15 / 100))) = true ∧
      (fastEngine.updateVideoClock 0 (Dbl.fin (-1)) (Dbl.lit (4 / 100))).2 = 1 ∧
      tableSleep (Dbl.lit (5 / 10))
        (Dbl.div (fastEngine.updateClock 0 fastEngine.vclock_ (Dbl.fin (-1))
          (Dbl.lit (4 / 100)) false).2.duration fastEngine.speed_) = 10 := by
  refine ⟨fastEngine_reachable, fastEngine_facts.1, fastEngine_fast,
    fastEngine_facts.2.2.2.2.2, by rw [fastEngine_video_update], fastEngine_far_behind, ?_, ?_⟩
  · apply updateVideoClock_short_circuit fastEngine 0 _ _ fastEngine_facts.1
    rw [drift_of_valid_dbl fastEngine 0 _ _ fastEngine_facts.2.2.2.2.2
      (by rw [fastEngine_video_update])]
    exact Dbl.le_of_lt_true (Dbl.lt_chain_le fastEngine_far_behind
      (Dbl.le_neg_neg (Dbl.lit_mono (by norm_num))))
  · rw [fastEngine_video_update, fastEngine_facts.2.1]
    show tableSleep (Dbl.lit (5 / 10)) (Dbl.div (Dbl.lit (4 / 100)) (Dbl.fin 2)) = 10
    unfold tableSleep
    rw [Dbl.lit_4_100, div_004_2, lit_5_10, mul_05_002,
      (clampDelay_mid _ (by norm_num) (by norm_num)).2, mul_1000_001]
    exact truncToInt_eq 10 10 (by norm_num) (by norm_num) (by norm_num)

end Binary64

/-! ## The engine in binary64 arithmetic: two inputs at a threshold -/

namespace Dbl

theorem roundHalfEven_tie_even (x : ℚ) (f : ℤ) (heven : f % 2 = 0) (h : x = (f : ℚ) + 1 / 2) :
    roundHalfEven x = f := by
  have hfl : ⌊x⌋ = f := by
    rw [Int.floor_eq_iff, h]
    constructor <;> linarith
  unfold roundHalfEven
  rw [hfl, h]
  have h1 : ¬ ((f : ℚ) + 1 / 2 - f < 1 / 2) := by
    rw [add_sub_cancel_left]
    exact lt_irrefl _
  have h2 : ¬ ((1 : ℚ) / 2 < (f : ℚ) + 1 / 2 - f) := by
    rw [add_sub_cancel_left]
    exact lt_irrefl _
  rw [if_neg h1, if_neg h2, if_pos heven]

/-- The rounding of a positive `x` half-way between two neighbours of the format, the lower
one with an even significand `M`: the tie goes to the lower neighbour. -/
theorem round_eval_tie_even (x v : ℚ) (e M : ℤ) (heven : M % 2 = 0)
    (hx : x = ((M : ℚ) + 1 / 2) * 2 ^ (e - 52)) (hv : v = (M : ℚ) * 2 ^ (e - 52))
    (h1 : (2 : ℚ) ^ e ≤ x) (h2 : x < 2 ^ (e + 1)) (he : -1022 ≤ e) (he2 : e ≤ 1022) :
    round x = fin v := by
  have hpos : 0 < x := lt_of_lt_of_le (two_zpow_pos e) h1
  have hu : ulpExponent x = e - 52 := by
    unfold ulpExponent
    rw [log_eq_of_bounds h1 h2, max_eq_left he]
  have hM : roundHalfEven (x / 2 ^ (e - 52)) = M := by
    apply roundHalfEven_tie_even _ _ heven
    rw [hx]
    field_simp
    ring
  have hmag : roundMag x = v := by
    unfold roundMag
    rw [hu, hM, hv]
  have hle := roundMag_le (x := x)
  rw [hmag, hu] at hle
  have hlt : v < 2 ^ (1024 : ℤ) := by
    have h3 : (2 : ℚ) ^ (e - 52 + 53) ≤ 2 ^ (1023 : ℤ) :=
      zpow_le_zpow_right₀ (by norm_num) (by omega)
    have h4 : (2 : ℚ) ^ (1023 : ℤ) < 2 ^ (1024 : ℤ) :=
      zpow_lt_zpow_right₀ (by norm_num) (by norm_num)
    linarith
  unfold round
  rw [abs_of_pos hpos, hmag, if_pos hlt, if_pos hpos.le]

theorem lit_2_10 : lit (2 / 10) = fin (3602879701896397 / 18014398509481984) :=
  round_eval _ _ (-3) 7205759403792794 (by norm_num) (by norm_num) (by norm_num) (by norm_num)
    (by norm_num) (by norm_num) (by norm_num)

theorem lit_3_10 : lit (3 / 10) = fin (5404319552844595 / 18014398509481984) :=
  round_eval _ _ (-2) 5404319552844595 (by norm_num) (by norm_num) (by norm_num) (by norm_num)
    (by norm_num) (by norm_num) (by norm_num)

theorem lit_3_100 : lit (3 / 100) = fin (1080863910568919 / 36028797018963968) :=
  round_eval _ _ (-6) 8646911284551352 (by norm_num) (by norm_num) (by norm_num) (by norm_num)
    (by norm_num) (by norm_num) (by norm_num)

end Dbl

namespace Binary64

theorem sub_02_03 :
    Dbl.sub (Dbl.fin (3602879701896397 / 18014398509481984))
      (Dbl.fin (5404319552844595 / 18014398509481984)) =
    Dbl.fin (-(900719925474099 / 9007199254740992)) := by
  rw [Dbl.sub_fin]
  exact Dbl.round_eval_of_neg _ _ (-4) 7205759403792792 (by norm_num) (by norm_num) (by norm_num)
    (by norm_num) (by norm_num) (by norm_num) (by norm_num)

theorem sub_003_001 :
    Dbl.sub (Dbl.fin (1080863910568919 / 36028797018963968))
      (Dbl.fin (5764607523034235 / 576460752303423488)) =
    Dbl.fin (2882303761517117 / 144115188075855872) := by
  rw [Dbl.sub_fin]
  exact Dbl.round_eval_tie_even _ _ (-6) 5764607523034234 (by norm_num) (by norm_num) (by norm_num)
    (by norm_num) (by norm_num) (by norm_num) (by norm_num)

/-- The video clock at 0.2 and the audio clock at 0.3, at speed 1: the machine computes the
drift `0.2 - 0.3 = -0.09999999999999998`, for which the test `diff <= -0.1` fails, so the
return with `msleep = 1` is not taken. -/
theorem drift_02_03_not_far_behind :
    Dbl.le (Dbl.div (Dbl.sub (Dbl.lit (2 / 10)) (Dbl.lit (3 / 10))) (Dbl.fin 1))
      (Dbl.neg (Dbl.lit (1 / 10))) = false := by
  rw [Dbl.lit_2_10, Dbl.lit_3_10, Dbl.lit_1_10, sub_02_03,
    Dbl.div_fin _ _ (by norm_num), div_one,
    Dbl.round_idem ((Dbl.sub_fin _ _).symm.trans sub_02_03)]
  simp only [Dbl.neg, Dbl.le_fin]
  norm_num

/-- The clock at `pts = 0.01` with the stored duration 0.04, fed `pts = 0.03`: the machine
computes `0.03 - 0.01 = 0.019999999999999997`, which is below `0.04 / 2`, so the incoming
`pts` is not a jump and the clock keeps it. -/
theorem pts_003_after_001_not_a_jump :
    Dbl.ge (Dbl.fabs (Dbl.sub (Dbl.lit (3 / 100)) (Dbl.lit (1 / 100))))
      (Dbl.div (Dbl.lit (4 / 100)) (Dbl.fin 2)) = false := by
  rw [Dbl.lit_3_100, Dbl.lit_1_100, Dbl.lit_4_100, sub_003_001, div_004_2]
  simp only [Dbl.fabs, Dbl.ge, Dbl.le_fin, decide_eq_false_iff_not, not_le]
  rw [abs_of_pos (by norm_num)]
  norm_num

end Binary64

/-! ## The bounded queue: a pending enqueue -/

theorem resumeEnqueue_full {T C : Type} (q : MediaQueue T C) (item : Option T)
    (hq : q.locked_ = false) (hmax : q.maxSize_ ≠ 0) (hfull : ¬ q.queue_.length < q.maxSize_)
    (wakeups : List Bool) :
    resumeEnqueue item (Outcome.waiting q) wakeups = Outcome.waiting q := by
  induction wakeups with
  | nil => rfl
  | cons timeout later ih =>
    have h : q.enqueueWake item timeout = Outcome.waiting q := by
      simp [MediaQueue.enqueueWake, MediaQueue.enqueueLoop, hq, hmax, hfull]
    rw [resumeEnqueue, h]
    exact ih

/-- C9: on an unlocked empty queue with `maxSize = 2`, two calls of `enqueue` return `true`
and a third does not return and appends nothing: its first segment ends in `wait_for`, and so
does every later segment for as long as the queue stays full and unlocked, whatever the
returns of `wait_for`.  Once a concurrent `dequeue` has freed a slot, the next segment of the
pending call appends the item and returns `true`; once a concurrent `lock()` has been issued,
the next segment returns `false` and leaves the contents unchanged.  The next segment starts
at the return of `wait_for(locker, 50ms)`: at the notification sent by `dequeue` or `lock()`,
and at the latest when the 50 ms of the wait have elapsed. -/
theorem enqueue_blocks_while_full {T C : Type} (q : MediaQueue T C) (a b c : T)
    (hq : q.locked_ = false) (hmax : q.maxSize_ = 2) (hempty : q.queue_ = []) :
    enqueueEach q [some a, some b] =
        some ([true, true], { q with queue_ := [some a, some b] }) ∧
      (∀ wakeups : List Bool,
        enqueuePending { q with queue_ := [some a, some b] } (some c) wakeups =
          Outcome.waiting { q with queue_ := [some a, some b] }) ∧
      ((MediaQueue.dequeue { q with queue_ := [some a, some b] } =
          Outcome.returned (some a) { q with queue_ := [some b] }) ∧
        ∀ timeout : Bool,
          MediaQueue.enqueueWake { q with queue_ := [some b] } (some c) timeout =
            Outcome.returned true { q with queue_ := [some b, some c] }) ∧
      ∀ timeout : Bool,
        MediaQueue.enqueueWake (MediaQueue.lock { q with queue_ := [some a, some b] }) (some c)
            timeout =
          Outcome.returned false (MediaQueue.lock { q with queue_ := [some a, some b] }) ∧
        (MediaQueue.lock { q with queue_ := [some a, some b] }).queue_ = [some a, some b] := by
  refine ⟨?_, ?_, ⟨?_, ?_⟩, ?_⟩
  · simp [enqueueEach, MediaQueue.enqueue, MediaQueue.enqueueLoop, hq, hmax, hempty]
  · intro wakeups
    have h : MediaQueue.enqueue { q with queue_ := [some a, some b] } (some c) =
        Outcome.waiting { q with queue_ := [some a, some b] } := by
      simp [MediaQueue.enqueue, MediaQueue.enqueueLoop, hq, hmax]
    rw [enqueuePending, h]
    exact resumeEnqueue_full { q with queue_ := [some a, some b] } _ hq
      (by show q.maxSize_ ≠ 0; omega)
      (by show ¬ [some a, some b].length < q.maxSize_; simp [hmax]) wakeups
  · simp [MediaQueue.dequeue, MediaQueue.dequeueLoop, hq, hmax]
  · intro timeout
    simp [MediaQueue.enqueueWake, MediaQueue.enqueueLoop, hq, hmax]
  · intro timeout
    constructor
    · cases timeout <;> simp [MediaQueue.enqueueWake, MediaQueue.enqueueLoop, MediaQueue.lock,
        MediaQueue.wake]
    · rfl

/-- Witness for C9: the queue built by `MediaQueue(0, 2)` and the items 1, 2, 3. -/
theorem enqueue_blocks_while_full_witness :
    enqueueEach (MediaQueue.construct 0 2 : MediaQueue Nat Unit) [some 1, some 2] =
        some ([true, true], fullQueueFresh) ∧
      enqueuePending fullQueueFresh (some 3) [true, false, true] =
        Outcome.waiting fullQueueFresh ∧
      MediaQueue.enqueueWake (MediaQueue.lock fullQueueFresh) (some 3) true =
        Outcome.returned false (MediaQueue.lock fullQueueFresh) := by
  have h := enqueue_blocks_while_full (MediaQueue.construct 0 2 : MediaQueue Nat Unit) 1 2 3
    rfl rfl rfl
  exact ⟨h.1, h.2.1 [true, false, true], (h.2.2.2 true).1⟩

end Media
